import Mathlib

/-! Reply correlation and binary reassembly of the Pixelblaze client.

A shallow embedding of the pending-reply queue and of the inbound binary path of
`src/PixelblazeClient.cpp` (with the handler classes of `src/PixelblazeHandlers.h`),
followed by the properties established about them.

Conventions of the embedding:

* a `ReplyHandler *` is an `Option ReplyHandler` (`none` is `nullptr`); calling a member
  through a null pointer, or reading `BinaryReplyHandler` members through the C cast of a
  handler of another class, has no defined result and the operation yields `none`;
* the `while` loops carry a fuel argument chosen by the enclosing operation; running out
  of fuel also yields `none`, so every `some` result is the result of a terminated run;
  the index walk `for (idx = queueFront; idx != queueBack; ...)` is cut after
  `replyQueueSize` rounds, which it never needs while both cursors are below
  `replyQueueSize` (`queueIndices_eq`);
* `size_t` and `int` quantities are natural numbers and integers; the only sum that can
  leave the machine range in a reachable state, the deadline `requestTsMs +
  maxResponseWaitMs` (32 bit `unsigned long`), is reduced modulo `2 ^ 32`;
* `millis()` is passed in as the value it returns during the call.
-/

namespace Pixelblaze

/-! ## Constants of `PixelblazeHandlers.h` -/

def BIN_TYPE_PUT_SOURCE : Int := 1
def BIN_TYPE_PUT_BYTE_CODE : Int := 3
def BIN_TYPE_PREVIEW_IMAGE : Int := 4
def BIN_TYPE_PREVIEW_FRAME : Int := 5
def BIN_TYPE_GET_SOURCE : Int := 6
def BIN_TYPE_GET_PROGRAM_LIST : Int := 7
def BIN_TYPE_PUT_PIXEL_MAP : Int := 8
def BIN_TYPE_EXPANDER_CONFIG : Int := 9

def HANDLER_SYNC : Int := 0
def HANDLER_RAW_BINARY : Int := 1
def HANDLER_RAW_TEXT : Int := 2
def HANDLER_ALL_PATTERNS : Int := 3
def HANDLER_PLAYLIST : Int := 4
def HANDLER_PEERS : Int := 5
def HANDLER_PREVIEW_IMG : Int := 6
def HANDLER_SETTINGS : Int := 7
def HANDLER_SEQ : Int := 8
def HANDLER_EXPANDER_CONF : Int := 9
def HANDLER_PING : Int := 10
def HANDLER_PATTERN_CONTROLS : Int := 11

/-- Values of the macros `FRAME_FIRST`, `FRAME_MIDDLE`, `FRAME_LAST`, `FORMAT_TEXT` and
`FORMAT_BINARY`. Their header (`PixelblazeCommon.h`) is not among the sources, so the
values are parameters of the embedding; so are `TYPE_TEXT` and `TYPE_BINARY`, the message
types of the transport library that the handler constructors store in `format`. -/
structure Constants where
  FRAME_FIRST : Nat
  FRAME_MIDDLE : Nat
  FRAME_LAST : Nat
  FORMAT_TEXT : Int
  FORMAT_BINARY : Int
  TYPE_TEXT : Int
  TYPE_BINARY : Int
deriving DecidableEq, Repr

/-- The fields of `ClientConfig` that the embedded code reads. -/
structure ClientConfig where
  replyQueueSize : Nat
  maxResponseWaitMs : Nat
  binaryBufferBytes : Nat
  framePreviewBufferBytes : Nat
  textReadBufferBytes : Nat
  maxInboundCheckMs : Nat
deriving DecidableEq, Repr

/-! ## Handlers (`PixelblazeHandlers.h`) -/

/-- A handler object. The three constructors are the three direct subclasses of
`ReplyHandler`: `TextReplyHandler`, `BinaryReplyHandler` and `SyncHandler`. The field
`satisfaction` is `some b` for the `Noop...` classes, which override `isSatisfied()` to
return their own flag `b`, and `none` for every other class. -/
inductive ReplyHandler where
  | text (replyType format : Int) (requestTsMs : Nat) (satisfied : Bool)
      (satisfaction : Option Bool)
  | binary (replyType format : Int) (requestTsMs : Nat) (satisfied : Bool)
      (satisfaction : Option Bool) (bufferId : String) (binType : Int) (clean : Bool)
  | sync (format : Int) (requestTsMs : Nat) (satisfied : Bool) (wrappedHandler : ReplyHandler)
deriving DecidableEq, Repr

namespace ReplyHandler

def replyType : ReplyHandler → Int
  | text rt _ _ _ _ => rt
  | binary rt _ _ _ _ _ _ _ => rt
  | sync _ _ _ _ => HANDLER_SYNC

def format : ReplyHandler → Int
  | text _ f _ _ _ => f
  | binary _ f _ _ _ _ _ _ => f
  | sync f _ _ _ => f

def requestTsMs : ReplyHandler → Nat
  | text _ _ ts _ _ => ts
  | binary _ _ ts _ _ _ _ _ => ts
  | sync _ ts _ _ => ts

def satisfied : ReplyHandler → Bool
  | text _ _ _ s _ => s
  | binary _ _ _ s _ _ _ _ => s
  | sync _ _ s _ => s

/-- The virtual `isSatisfied()`: the base returns `satisfied`, the `Noop...` classes their
own `satisfaction`. -/
def isSatisfied : ReplyHandler → Bool
  | text _ _ _ s none => s
  | text _ _ _ _ (some b) => b
  | binary _ _ _ s none _ _ _ => s
  | binary _ _ _ _ (some b) _ _ _ => b
  | sync _ _ s _ => s

/-- The virtual `shouldDeleteBuffer()`. -/
def shouldDeleteBuffer : ReplyHandler → Bool
  | text _ _ _ _ _ => false
  | binary _ _ _ _ _ _ _ clean => clean
  | sync _ _ _ w => w.shouldDeleteBuffer

/-- The assignment `handler->satisfied = true`. -/
def markSatisfied : ReplyHandler → ReplyHandler
  | text rt f ts _ o => text rt f ts true o
  | binary rt f ts _ o b t c => binary rt f ts true o b t c
  | sync f ts _ w => sync f ts true w

/-- The member `bufferId` read through `(BinaryReplyHandler *)`: defined only for an
object that is a `BinaryReplyHandler`. -/
def bufferId? : ReplyHandler → Option String
  | binary _ _ _ _ _ b _ _ => some b
  | _ => none

/-- The member `binType` read through `(BinaryReplyHandler *)`. -/
def binType? : ReplyHandler → Option Int
  | binary _ _ _ _ _ _ t _ => some t
  | _ => none

end ReplyHandler

/-- The constructor `SyncHandler(_wrappedHandler, _trueWhenFinished)`: the base class is
built with `HANDLER_SYNC` and the format of the wrapped handler, and its constructor sets
`requestTsMs = 0` and `satisfied = false`. -/
def syncHandler (wrappedHandler : ReplyHandler) : ReplyHandler :=
  ReplyHandler.sync wrappedHandler.format 0 false wrappedHandler

/-! ## Collaborators: transport and buffer store -/

/-- Modelled from the spec: the transport (`WebSocketClient`, an external library). Only
the message being processed is represented: `body` are its bytes not yet consumed, and
`readLimits` bounds, call by call, how many bytes the successive bulk reads
`read(buffer, n)` deliver (a bulk read delivers `min n limit` bytes; once the list is used
up a bulk read delivers all `n` bytes asked for). -/
structure WebSocketClient where
  body : List Nat
  readLimits : List Nat
deriving DecidableEq, Repr

/-- Modelled from the spec: the Binary Buffer Store (`PixelblazeBuffer`, an abstract
collaborator). `files` maps buffer ids to the bytes stored under them; `openFailures`
tells, call by call, whether the successive `makeWriteStream` calls return a null stream
(`true`), every call after the list is used up succeeding; `writeLimits` bounds, call by
call, how many bytes the successive `write` calls accept; `gcCalls` counts the calls of
`garbageCollect`. -/
structure PixelblazeBuffer where
  files : List (String × List Nat)
  openFailures : List Bool
  writeLimits : List Nat
  gcCalls : Nat
deriving DecidableEq, Repr

mutual
/-- Modelled from the spec: a JSON value (the JSON library is an external collaborator).
Numbers are integers; the members of an object and the items of an array are kept in
document order. -/
inductive JsonValue where
  | null
  | bool (b : Bool)
  | number (n : Int)
  | string (s : String)
  | array (items : JsonItems)
  | object (members : JsonMembers)
deriving DecidableEq, Repr
/-- The items of a JSON array. -/
inductive JsonItems where
  | nil
  | cons (head : JsonValue) (tail : JsonItems)
deriving DecidableEq, Repr
/-- The members of a JSON object. -/
inductive JsonMembers where
  | nil
  | cons (key : String) (value : JsonValue) (rest : JsonMembers)
deriving DecidableEq, Repr
end

/-- A callback invoked by the client, with what it was given. The callbacks for text
replies and pushes are given records filled field by field from the `json` document; the
trace keeps the document they are filled from. -/
inductive Event where
  | syncFinish
  | rawBinary (stream : List Nat)
  | allPatterns (stream : List Nat)
  | previewImage (id : List Nat) (stream : List Nat)
  | previewFrame (frame : List Nat)
  | rawText (json : JsonValue)
  | playlist (json : JsonValue)
  | peers
  | settings (json : JsonValue)
  | sequencer (json : JsonValue)
  | ping (roundtripMs : Nat)
  | stats (json : JsonValue)
  | patternChange (json : JsonValue)
deriving DecidableEq, Repr

/-! ## The client state -/

/-- The members of `PixelblazeClient` that the embedded code reads or writes, together
with the collaborators, the trace of callbacks invoked so far (latest last) and the
messages sent through `wsClient` so far (latest last). -/
structure Client where
  clientConfig : ClientConfig
  consts : Constants
  replyQueue : List (Option ReplyHandler)
  queueFront : Nat
  queueBack : Nat
  binaryReadType : Int
  wsClient : WebSocketClient
  binaryBuffer : PixelblazeBuffer
  events : List Event
  json : JsonValue
  sent : List JsonValue
deriving DecidableEq, Repr

/-- The expression `replyQueue[idx]`. -/
def Client.slot (c : Client) (idx : Nat) : Option ReplyHandler :=
  c.replyQueue.getD idx none

/-! ## The queue (`PixelblazeClient.cpp`, lines 895-1013) -/

def queueLength (c : Client) : Nat :=
  if c.queueFront > c.queueBack then
    c.queueBack + (c.clientConfig.replyQueueSize - c.queueFront)
  else
    c.queueBack - c.queueFront

/-- The indices visited by
`for (idx = queueFront; idx != queueBack; idx = (idx + 1) % replyQueueSize)`, started at
`idx` and cut after `fuel` rounds. -/
def queueWalk (size back : Nat) : Nat → Nat → List Nat
  | 0, _ => []
  | fuel + 1, idx =>
    if idx = back then [] else idx :: queueWalk size back fuel ((idx + 1) % size)

/-- The indices from `queueFront` up to `queueBack`, in the order the loops of
`compactQueue` and `handleUnrequestedBinary` visit them. -/
def queueIndices (c : Client) : List Nat :=
  queueWalk c.clientConfig.replyQueueSize c.queueBack c.clientConfig.replyQueueSize c.queueFront

/-- The condition under which `compactQueue` keeps a slot:
`!isSatisfied() && requestTsMs + maxResponseWaitMs > nowMs`. -/
def keepReply (cfg : ClientConfig) (nowMs : Nat) (h : ReplyHandler) : Bool :=
  !h.isSatisfied && decide ((h.requestTsMs + cfg.maxResponseWaitMs) % 2 ^ 32 > nowMs)

/-- The condition under which `weedExpiredReplies` drops the front slot:
`isSatisfied() || requestTsMs + maxResponseWaitMs < currentTimeMs`. -/
def weedReply (cfg : ClientConfig) (currentTimeMs : Nat) (h : ReplyHandler) : Bool :=
  h.isSatisfied || decide ((h.requestTsMs + cfg.maxResponseWaitMs) % 2 ^ 32 < currentTimeMs)

/-- The handlers at the given indices that `compactQueue` keeps, in order; `none` when one
of the indices holds a null pointer. -/
def keptReplies (c : Client) (nowMs : Nat) : List Nat → Option (List ReplyHandler)
  | [] => some []
  | idx :: rest =>
    match c.slot idx with
    | none => none
    | some h =>
      match keptReplies c nowMs rest with
      | none => none
      | some hs => some (if keepReply c.clientConfig nowMs h then h :: hs else hs)

/-- The assignments `replyQueue[idx] = nullptr` for each of the given indices. -/
def clearSlots (q : List (Option ReplyHandler)) (idxs : List Nat) : List (Option ReplyHandler) :=
  idxs.foldl (fun acc idx => acc.set idx none) q

/-- The loop `for (idx = 0; idx < toKeep; idx++) replyQueue[idx] = temp[idx]`, started at
index `idx`. -/
def writeSlots (q : List (Option ReplyHandler)) : Nat → List ReplyHandler → List (Option ReplyHandler)
  | _, [] => q
  | idx, h :: rest => writeSlots (q.set idx (some h)) (idx + 1) rest

def compactQueue (nowMs : Nat) (c : Client) : Option Client :=
  match keptReplies c nowMs (queueIndices c) with
  | none => none
  | some temp =>
    let toKeep := temp.length
    if toKeep = 0 then
      some { c with
        replyQueue := clearSlots c.replyQueue (List.range c.clientConfig.replyQueueSize)
        queueFront := 0
        queueBack := 0 }
    else if toKeep = c.clientConfig.replyQueueSize then
      some c
    else
      some { c with
        replyQueue := writeSlots (clearSlots c.replyQueue (queueIndices c)) 0 temp
        queueFront := 0
        queueBack := toKeep }

/-- The test `handler && !handler->isSatisfied()` of `enqueueReplies`. -/
def wanted : Option ReplyHandler → Bool
  | none => false
  | some h => !h.isSatisfied

/-- The second loop of `enqueueReplies`: each wanted handler is stored at `queueBack`,
which then advances; the others are cleaned up and deleted. -/
def storeReplies : List (Option ReplyHandler) → Client → Client
  | [], c => c
  | arg :: rest, c =>
    if wanted arg then
      storeReplies rest { c with
        replyQueue := c.replyQueue.set c.queueBack arg
        queueBack := (c.queueBack + 1) % c.clientConfig.replyQueueSize }
    else
      storeReplies rest c

/-- The call `enqueueReplies(num, args...)` with `num = args.length`; `nowMs` is the value of
`millis()` should `compactQueue` run. The result is the returned flag and the new state. -/
def enqueueReplies (nowMs : Nat) (args : List (Option ReplyHandler)) (c : Client) :
    Option (Bool × Client) :=
  if args.length = 0 then
    some (true, c)
  else
    let toEnqueue := (args.filter wanted).length
    if toEnqueue = 0 then
      some (true, c)
    else if c.clientConfig.replyQueueSize - queueLength c < toEnqueue then
      match compactQueue nowMs c with
      | none => none
      | some c1 =>
        if c1.clientConfig.replyQueueSize - queueLength c1 < toEnqueue then
          some (false, c1)
        else
          some (true, storeReplies args c1)
    else
      some (true, storeReplies args c)

def enqueueReply (nowMs : Nat) (replyHandler : Option ReplyHandler) (c : Client) :
    Option (Bool × Client) :=
  enqueueReplies nowMs [replyHandler] c

def dequeueReply (c : Client) : Option Client :=
  if queueLength c = 0 then
    some c
  else
    match c.slot c.queueFront with
    | none => none
    | some _ =>
      some { c with
        replyQueue := c.replyQueue.set c.queueFront none
        queueFront := (c.queueFront + 1) % c.clientConfig.replyQueueSize }

/-- The loop of `weedExpiredReplies`, cut after `fuel` tests of its condition. -/
def weedLoop (currentTimeMs : Nat) : Nat → Client → Option Client
  | 0, _ => none
  | fuel + 1, c =>
    if queueLength c > 0 then
      match c.slot c.queueFront with
      | none => none
      | some h =>
        if weedReply c.clientConfig currentTimeMs h then
          weedLoop currentTimeMs fuel
            { c with queueFront := (c.queueFront + 1) % c.clientConfig.replyQueueSize }
        else
          some c
    else
      some c

def weedExpiredReplies (currentTimeMs : Nat) (c : Client) : Option Client :=
  weedLoop currentTimeMs (queueLength c + 1) c

/-! ## Operations of the collaborators -/

namespace WebSocketClient

def available (w : WebSocketClient) : Nat :=
  w.body.length

/-- The call `read()`: the next byte, or `-1` when the message has none left. -/
def read (w : WebSocketClient) : Int × WebSocketClient :=
  match w.body with
  | [] => (-1, w)
  | b :: rest => ((b : Int), { w with body := rest })

/-- The call `peek()`. -/
def peek (w : WebSocketClient) : Int :=
  match w.body with
  | [] => -1
  | b :: _ => (b : Int)

/-- The call `read(buffer, n)`: the bytes delivered and the transport afterwards. -/
def readBytes (w : WebSocketClient) (n : Nat) : List Nat × WebSocketClient :=
  let m := match w.readLimits with
    | [] => n
    | limit :: _ => min n limit
  (w.body.take m, { body := w.body.drop m, readLimits := w.readLimits.tail })

end WebSocketClient

namespace PixelblazeBuffer

/-- The bytes stored under `bufferId`, if any. -/
def contents (b : PixelblazeBuffer) (bufferId : String) : Option (List Nat) :=
  b.files.lookup bufferId

def setFile (b : PixelblazeBuffer) (bufferId : String) (bytes : List Nat) : PixelblazeBuffer :=
  { b with files := (bufferId, bytes) :: b.files.filter (fun f => f.1 != bufferId) }

def deleteStreamResults (b : PixelblazeBuffer) (bufferId : String) : PixelblazeBuffer :=
  { b with files := b.files.filter (fun f => f.1 != bufferId) }

def garbageCollect (b : PixelblazeBuffer) : PixelblazeBuffer :=
  { b with gcCalls := b.gcCalls + 1 }

/-- The call `makeWriteStream(bufferId, append)`: whether a stream was returned, and the
store afterwards. A stream opened with `append = false` starts from an empty result, one
opened with `append = true` continues the stored result. -/
def makeWriteStream (b : PixelblazeBuffer) (bufferId : String) (append : Bool) :
    Bool × PixelblazeBuffer :=
  let fails := b.openFailures.headD false
  let b1 := { b with openFailures := b.openFailures.tail }
  if fails then
    (false, b1)
  else if append then
    (true, b1.setFile bufferId ((b1.contents bufferId).getD []))
  else
    (true, b1.setFile bufferId [])

/-- The call `stream->write(buffer, size)` on a write stream for `bufferId`: the number of
bytes accepted, and the store afterwards. -/
def write (b : PixelblazeBuffer) (bufferId : String) (bytes : List Nat) :
    Nat × PixelblazeBuffer :=
  let written := match b.writeLimits with
    | [] => bytes.length
    | limit :: _ => min bytes.length limit
  let b1 := { b with writeLimits := b.writeLimits.tail }
  (written, b1.setFile bufferId ((b1.contents bufferId).getD [] ++ bytes.take written))

/-- The call `makeReadStream(bufferId)`: the bytes the stream will deliver, or `none` for a
null stream (nothing is stored under the id). -/
def makeReadStream (b : PixelblazeBuffer) (bufferId : String) : Option (List Nat) :=
  b.contents bufferId

end PixelblazeBuffer

/-! ## Binary replies (`PixelblazeClient.cpp`, lines 408-482, 571-600, 735-800, 870-893) -/

/-- The copy loop of `readBinaryToStream`, cut after `fuel` tests of its condition;
`available` is the local variable of that name. -/
def copyLoop (bufferId : String) : Nat → Nat → Client → Option (Bool × Client)
  | 0, _, _ => none
  | fuel + 1, available, c =>
    if available > 0 then
      let (bytes, ws) := c.wsClient.readBytes (min c.clientConfig.binaryBufferBytes available)
      let bytesRead := bytes.length
      let (written, store) := c.binaryBuffer.write bufferId bytes
      let c1 := { c with wsClient := ws, binaryBuffer := store }
      if bytesRead ≠ written then
        some (false, c1)
      else
        copyLoop bufferId fuel (available - bytesRead) c1
    else
      some (true, c)

def readBinaryToStream (bufferId : String) (append : Bool) (c : Client) :
    Option (Bool × Client) :=
  let (stream, store) := c.binaryBuffer.makeWriteStream bufferId append
  let (stream, store) :=
    if !stream then store.garbageCollect.makeWriteStream bufferId append else (stream, store)
  let c1 := { c with binaryBuffer := store }
  if !stream then
    some (false, c1)
  else
    let available := c1.wsClient.available
    copyLoop bufferId (available + c1.wsClient.readLimits.length + 1) available c1

/-- The `HANDLER_PREVIEW_IMG` case of `dispatchBinaryReply`: the pattern id is read up to
the first byte `0xFF`, at most `limit = textReadBufferBytes` bytes of it are kept, and the
separator is consumed. The result is the id and the rest of the stream; `none` when the
terminating `'\0'` is stored at index `limit`, past the end of `textReadBuffer`. -/
def readPreviewId (limit : Nat) (stream : List Nat) : Option (List Nat × List Nat) :=
  let id := (stream.take limit).takeWhile (fun b => b < 0xFF)
  let buffIdx := id.length
  let rest := stream.drop buffIdx
  let peek : Int := match rest with
    | [] => -1
    | b :: _ => (b : Int)
  if buffIdx ≥ limit then
    none
  else if peek = 0xFF then
    some (id, rest.drop 1)
  else
    some (id, rest)

def dispatchBinaryReply (handler : ReplyHandler) (c : Client) : Option Client :=
  let (binHandler, c1) := match handler with
    | ReplyHandler.sync _ _ _ w => (w, { c with events := c.events ++ [Event.syncFinish] })
    | h => (h, c)
  match binHandler.bufferId? with
  | none => none
  | some bufferId =>
    match c1.binaryBuffer.makeReadStream bufferId with
    | none => some c1
    | some stream =>
      if binHandler.replyType = HANDLER_RAW_BINARY then
        some { c1 with events := c1.events ++ [Event.rawBinary stream] }
      else if binHandler.replyType = HANDLER_ALL_PATTERNS then
        some { c1 with events := c1.events ++ [Event.allPatterns stream] }
      else if binHandler.replyType = HANDLER_PREVIEW_IMG then
        match readPreviewId c1.clientConfig.textReadBufferBytes stream with
        | none => none
        | some (id, rest) => some { c1 with events := c1.events ++ [Event.previewImage id rest] }
      else
        some c1

/-- The search loop of `handleUnrequestedBinary` over the given queue indices: the first
slot awaiting an expander configuration gets the reply dispatched and is marked
satisfied. -/
def serveExpander : List Nat → Client → Option Client
  | [], c => some c
  | queuePos :: rest, c =>
    match c.slot queuePos with
    | none => none
    | some h =>
      if h.format = c.consts.FORMAT_BINARY then
        match h.binType? with
        | none => none
        | some binType =>
          if binType = BIN_TYPE_EXPANDER_CONFIG then
            match dispatchBinaryReply h c with
            | none => none
            | some c1 =>
              match c1.slot queuePos with
              | none => none
              | some h1 => some { c1 with replyQueue := c1.replyQueue.set queuePos (some h1.markSatisfied) }
          else
            serveExpander rest c
      else
        serveExpander rest c

def handleUnrequestedBinary (frameType : Int) (c : Client) : Option (Bool × Client) :=
  if frameType = BIN_TYPE_PREVIEW_FRAME then
    let (frame, ws) :=
      c.wsClient.readBytes (min c.wsClient.available c.clientConfig.framePreviewBufferBytes)
    some (true, { c with wsClient := ws, events := c.events ++ [Event.previewFrame frame] })
  else if frameType = BIN_TYPE_EXPANDER_CONFIG then
    match serveExpander (queueIndices c) c with
    | none => none
    | some c1 => some (true, c1)
  else
    some (false, c)

/-- The value of `frameFlag & mask` as a truth value, `frameFlag` being the result of
`wsClient.read()`: a byte, or `-1` (all bits set) when the message had no byte left. -/
def flagSet (frameFlag : Int) (mask : Nat) : Bool :=
  if frameFlag < 0 then mask ≠ 0 else frameFlag.toNat &&& mask ≠ 0

/-- The statements that end a reply in `seekingBinaryHasBinary` (lines 419-425 and
447-454): stream the frame, dispatch on success, delete the buffer if the handler asks for
it, dequeue. -/
def completeReply (h : ReplyHandler) (bufferId : String) (append : Bool) (c : Client) :
    Option Client :=
  match readBinaryToStream bufferId append c with
  | none => none
  | some (ok, c1) =>
    match (if ok then dispatchBinaryReply h c1 else some c1) with
    | none => none
    | some c2 =>
      let c3 :=
        if h.shouldDeleteBuffer then
          { c2 with binaryBuffer := c2.binaryBuffer.deleteStreamResults bufferId }
        else c2
      dequeueReply c3

/-- The statements that abandon a reply after a failed write (lines 428-430 and 457-459). -/
def abandonReply (bufferId : String) (c : Client) : Option Client :=
  dequeueReply { c with binaryBuffer := c.binaryBuffer.deleteStreamResults bufferId }

def seekingBinaryHasBinary (c : Client) : Option Client :=
  let binaryHandler := c.slot c.queueFront
  let (frameType, ws) := c.wsClient.read
  let c := { c with wsClient := ws }
  if frameType < 0 then
    some c
  else if c.binaryReadType < 0 then
    match binaryHandler with
    | none => none
    | some h =>
      match h.binType?, h.bufferId? with
      | some binType, some bufferId =>
        if frameType = binType then
          let (frameFlag, ws) := c.wsClient.read
          let c := { c with wsClient := ws }
          if flagSet frameFlag (c.consts.FRAME_FIRST &&& c.consts.FRAME_LAST) then
            completeReply h bufferId false c
          else if flagSet frameFlag c.consts.FRAME_FIRST then
            match readBinaryToStream bufferId false c with
            | none => none
            | some (ok, c1) =>
              if !ok then abandonReply bufferId c1
              else some { c1 with binaryReadType := frameType }
          else
            some c
        else
          (handleUnrequestedBinary frameType c).map Prod.snd
      | _, _ => none
  else if frameType = c.binaryReadType then
    let (frameFlag, ws) := c.wsClient.read
    let c := { c with wsClient := ws }
    if flagSet frameFlag c.consts.FRAME_LAST then
      match binaryHandler with
      | none => none
      | some h =>
        match h.bufferId? with
        | none => none
        | some bufferId => completeReply h bufferId true c
    else if flagSet frameFlag c.consts.FRAME_MIDDLE then
      match binaryHandler with
      | none => none
      | some h =>
        match h.bufferId? with
        | none => none
        | some bufferId =>
          match readBinaryToStream bufferId true c with
          | none => none
          | some (ok, c1) => if !ok then abandonReply bufferId c1 else some c1
    else
      some c
  else
    match handleUnrequestedBinary frameType c with
    | none => none
    | some (handled, c1) =>
      if !handled then
        match binaryHandler with
        | none => none
        | some h =>
          match h.bufferId? with
          | none => none
          | some bufferId =>
            match abandonReply bufferId c1 with
            | none => none
            | some c2 => some { c2 with binaryReadType := -1 }
      else
        some c1

/-! ## JSON documents -/

namespace JsonMembers

def containsKey : JsonMembers → String → Bool
  | nil, _ => false
  | cons k _ rest, key => k == key || rest.containsKey key

/-- The value of the first member named `key`, or `null`. -/
def get : JsonMembers → String → JsonValue
  | nil, _ => JsonValue.null
  | cons k v rest, key => if k == key then v else rest.get key

end JsonMembers

namespace JsonValue

/-- The call `json.containsKey(key)`: whether the value is an object with a member of that
name. -/
def containsKey : JsonValue → String → Bool
  | object members, key => members.containsKey key
  | _, _ => false

/-- The expression `json[key]` read as a value. -/
def get : JsonValue → String → JsonValue
  | object members, key => members.get key
  | _, _ => null

end JsonValue

/-- The virtual `jsonMatches(json)`. The class of a text handler is told by the
`replyType` its constructor stored; the base implementation (kept by `RawTextHandler` and
`PatternControlReplyHandler`) and that of `BinaryReplyHandler` return false. -/
def ReplyHandler.jsonMatches : ReplyHandler → JsonValue → Bool
  | ReplyHandler.text rt _ _ _ _, json =>
    if rt = HANDLER_PLAYLIST then (json.get "playlist").containsKey "position"
    else if rt = HANDLER_PEERS then json.containsKey "peers"
    else if rt = HANDLER_SETTINGS then json.containsKey "pixelCount"
    else if rt = HANDLER_SEQ then json.containsKey "activeProgram"
    else if rt = HANDLER_PING then json.containsKey "ack"
    else false
  | ReplyHandler.binary _ _ _ _ _ _ _ _, _ => false
  | ReplyHandler.sync _ _ _ w, json => w.jsonMatches json

/-! ## Text replies (`PixelblazeClient.cpp`, lines 389-406, 484-492, 602-704, 838-868) -/

/-- The call `wsClient.readString()`: the rest of the message. -/
def WebSocketClient.readString (w : WebSocketClient) : List Nat × WebSocketClient :=
  (w.body, { w with body := [] })

/-- The call `sendJson(doc)`: one text message goes out. -/
def sendJson (doc : JsonValue) (c : Client) : Client :=
  { c with sent := c.sent ++ [doc] }

/-- The unsigned 32 bit difference `millis() - requestTsMs`. -/
def roundtrip (nowMs requestTsMs : Nat) : Nat :=
  (nowMs + (2 ^ 32 - requestTsMs % 2 ^ 32)) % 2 ^ 32

/-- The call `dispatchTextReply(genHandler)`, `nowMs` being the value of `millis()`. A
handler whose `replyType` is `HANDLER_SYNC` is cast to `SyncHandler`, which is defined only
for a `SyncHandler`. The records handed to the callbacks are filled from `json` field by
field; the trace keeps `json` itself. -/
def dispatchTextReply (nowMs : Nat) (genHandler : ReplyHandler) (c : Client) : Option Client :=
  let unwrapped : Option (ReplyHandler × Client) :=
    if genHandler.replyType = HANDLER_SYNC then
      match genHandler with
      | ReplyHandler.sync _ _ _ w => some (w, { c with events := c.events ++ [Event.syncFinish] })
      | _ => none
    else
      some (genHandler, c)
  match unwrapped with
  | none => none
  | some (handler, c1) =>
    if handler.replyType = HANDLER_RAW_TEXT then
      some { c1 with events := c1.events ++ [Event.rawText c1.json] }
    else if handler.replyType = HANDLER_PLAYLIST then
      some { c1 with events := c1.events ++ [Event.playlist c1.json] }
    else if handler.replyType = HANDLER_PEERS then
      some { c1 with events := c1.events ++ [Event.peers] }
    else if handler.replyType = HANDLER_SETTINGS then
      some { c1 with events := c1.events ++ [Event.settings c1.json] }
    else if handler.replyType = HANDLER_SEQ then
      some { c1 with events := c1.events ++ [Event.sequencer c1.json] }
    else if handler.replyType = HANDLER_PING then
      some { c1 with events := c1.events ++ [Event.ping (roundtrip nowMs handler.requestTsMs)] }
    else
      some c1

def handleUnrequestedJson (c : Client) : Client :=
  if c.json.containsKey "fps" then
    { c with events := c.events ++ [Event.stats c.json] }
  else if c.json.containsKey "activeProgram" then
    { c with events := c.events ++ [Event.patternChange c.json] }
  else
    c

/-- The statement `deserializeJson(json, wsClient.readString())`: whether it succeeded, and
the state afterwards. `deserializeJson` is the decoder of the JSON library, `none` being a
deserialization error, after which the message is discarded. -/
def readJson (deserializeJson : List Nat → Option JsonValue) (c : Client) : Bool × Client :=
  let (text, ws) := c.wsClient.readString
  match deserializeJson text with
  | none => (false, { c with wsClient := ws })
  | some doc => (true, { c with wsClient := ws, json := doc })

def seekingTextHasText (deserializeJson : List Nat → Option JsonValue) (nowMs : Nat)
    (c : Client) : Option Client :=
  let (ok, c) := readJson deserializeJson c
  if !ok then
    some c
  else
    match c.slot c.queueFront with
    | none => none
    | some h =>
      if h.jsonMatches c.json then
        match dispatchTextReply nowMs h c with
        | none => none
        | some c1 => dequeueReply c1
      else
        some (handleUnrequestedJson c)

def seekingTextHasBinary (c : Client) : Option Client :=
  let (frameType, ws) := c.wsClient.read
  (handleUnrequestedBinary frameType { c with wsClient := ws }).map Prod.snd

def seekingBinaryHasText (deserializeJson : List Nat → Option JsonValue) (c : Client) :
    Option Client :=
  let (ok, c) := readJson deserializeJson c
  if !ok then some c else some (handleUnrequestedJson c)

/-! ## The inbound tick (`PixelblazeClient.cpp`, lines 495-569) -/

/-- A message waiting in the transport: the value of `messageType()`, its bytes, and the
value `millis()` returns while the message is being looked at and handled. -/
structure InboundMessage where
  format : Int
  body : List Nat
  atMs : Nat
deriving DecidableEq, Repr

/-- The loop `while (queueLength() > 0 && replyQueue[queueFront]->isSatisfied())
dequeueReply();`, cut after `fuel` tests of its condition. -/
def dropSatisfied : Nat → Client → Option Client
  | 0, _ => none
  | fuel + 1, c =>
    if queueLength c > 0 then
      match c.slot c.queueFront with
      | none => none
      | some h =>
        if h.isSatisfied then
          match dequeueReply c with
          | none => none
          | some c1 => dropSatisfied fuel c1
        else
          some c
    else
      some c

/-- One rotation of the expander-config exception (lines 535-538): the front slot is taken
out of the queue and handed to `enqueueReply`, whose result is not looked at. -/
def rotateFront (nowMs : Nat) (c : Client) : Option Client :=
  let expanderHandler := c.slot c.queueFront
  let c1 := { c with
    replyQueue := c.replyQueue.set c.queueFront none
    queueFront := (c.queueFront + 1) % c.clientConfig.replyQueueSize }
  (enqueueReply nowMs expanderHandler c1).map Prod.snd

/-- The expander-config loop (lines 526-542), cut after `fuel` tests of its condition;
`format` is the format of the inbound message. The result is the final `soughtFormat` and
the state. -/
def rotateLoop (nowMs : Nat) (format : Int) : Nat → Int → Nat → Client → Option (Int × Client)
  | 0, _, _, _ => none
  | fuel + 1, soughtFormat, repliesExamined, c =>
    if repliesExamined ≤ queueLength c ∧ soughtFormat = c.consts.FORMAT_BINARY then
      match (c.slot c.queueFront).bind ReplyHandler.binType? with
      | none => none
      | some binType =>
        if binType = BIN_TYPE_EXPANDER_CONFIG ∧
            (format ≠ c.consts.FORMAT_BINARY ∨ c.wsClient.peek ≠ BIN_TYPE_EXPANDER_CONFIG) then
          match rotateFront nowMs c with
          | none => none
          | some c1 =>
            match c1.slot c1.queueFront with
            | none => none
            | some h => rotateLoop nowMs format fuel h.format (repliesExamined + 1) c1
        else
          some (soughtFormat, c)
    else
      some (soughtFormat, c)

/-- The body of the loop of `checkForInbound` for the message `m`, which `parseMessage()`
has just made the current one. -/
def handleInbound (deserializeJson : List Nat → Option JsonValue) (m : InboundMessage)
    (c : Client) : Option Client :=
  let format := m.format
  match dropSatisfied (queueLength c + 1) c with
  | none => none
  | some c =>
    if queueLength c = 0 then
      if format = c.consts.FORMAT_TEXT then
        let (ok, c) := readJson deserializeJson c
        if !ok then some c else some (handleUnrequestedJson c)
      else if format = c.consts.FORMAT_BINARY ∧ c.wsClient.available > 0 then
        let (frameType, ws) := c.wsClient.read
        (handleUnrequestedBinary frameType { c with wsClient := ws }).map Prod.snd
      else
        some c
    else
      match c.slot c.queueFront with
      | none => none
      | some front =>
        match rotateLoop m.atMs format (c.clientConfig.replyQueueSize + 1) front.format 0 c with
        | none => none
        | some (soughtFormat, c) =>
          if soughtFormat ≠ c.consts.FORMAT_TEXT ∧ soughtFormat ≠ c.consts.FORMAT_BINARY then
            dequeueReply c
          else if format = c.consts.FORMAT_TEXT then
            if soughtFormat = c.consts.FORMAT_TEXT then
              seekingTextHasText deserializeJson m.atMs c
            else
              seekingBinaryHasText deserializeJson c
          else if format = c.consts.FORMAT_BINARY then
            if soughtFormat = c.consts.FORMAT_TEXT then
              seekingTextHasBinary c
            else
              seekingBinaryHasBinary c
          else
            dequeueReply c

/-- The loop of `checkForInbound` over the messages waiting in the transport:
`parseMessage()` makes the next message the current one and returns its length; the loop
goes on while that is positive and `startTime + maxInboundCheckMs > millis()` (32 bit). -/
def inboundLoop (deserializeJson : List Nat → Option JsonValue) (startTime : Nat) :
    List InboundMessage → Client → Option Client
  | [], c => some c
  | m :: rest, c =>
    let c := { c with wsClient := { c.wsClient with body := m.body } }
    if m.body.length > 0 ∧
        (startTime + c.clientConfig.maxInboundCheckMs) % 2 ^ 32 > m.atMs then
      match handleInbound deserializeJson m c with
      | none => none
      | some c1 => inboundLoop deserializeJson startTime rest c1
    else
      some c

/-- The call `checkForInbound()` at time `nowMs` with the given messages waiting. -/
def checkForInbound (deserializeJson : List Nat → Option JsonValue) (nowMs : Nat)
    (messages : List InboundMessage) (c : Client) : Option Client :=
  match weedExpiredReplies nowMs c with
  | none => none
  | some c1 => inboundLoop deserializeJson nowMs messages c1

/-! ## Requests that track a reply (`PixelblazeClient.cpp`, lines 57-87, 169-183, 211-226,
255-269, 285-375) -/

/-- The shape shared by the requests with one handler: `enqueueReply(myHandler)`; on
failure return false, else set `json` to the request, `sendJson` it and return true. -/
def trackedRequest (nowMs : Nat) (myHandler : ReplyHandler) (request : JsonValue)
    (c : Client) : Option (Bool × Client) :=
  match enqueueReply nowMs (some myHandler) c with
  | none => none
  | some (ok, c1) =>
    if !ok then
      some (false, c1)
    else
      some (true, sendJson request { c1 with json := request })

/-- The JSON object with the single member `key: value`. -/
def jsonMember (key : String) (value : JsonValue) : JsonValue :=
  JsonValue.object (JsonMembers.cons key value JsonMembers.nil)

/-- The call `getPatterns`; `bufferId` and `clean` are those of the caller's handler, of
which the client enqueues a copy. -/
def getPatterns (nowMs : Nat) (bufferId : String) (clean : Bool) (c : Client) :
    Option (Bool × Client) :=
  trackedRequest nowMs
    (ReplyHandler.binary HANDLER_ALL_PATTERNS c.consts.TYPE_BINARY nowMs false none bufferId
      BIN_TYPE_GET_PROGRAM_LIST clean)
    (jsonMember "listPrograms" (JsonValue.bool true)) c

def getPlaylist (nowMs : Nat) (playlistName : String) (c : Client) : Option (Bool × Client) :=
  trackedRequest nowMs
    (ReplyHandler.text HANDLER_PLAYLIST c.consts.TYPE_TEXT nowMs false none)
    (jsonMember "getPlaylist" (JsonValue.string playlistName)) c

def getPeers (nowMs : Nat) (c : Client) : Option (Bool × Client) :=
  trackedRequest nowMs
    (ReplyHandler.text HANDLER_PEERS c.consts.TYPE_TEXT nowMs false none)
    (jsonMember "getPeers" (JsonValue.number 1)) c

def getPatternControls (nowMs : Nat) (patternId : String) (c : Client) :
    Option (Bool × Client) :=
  trackedRequest nowMs
    (ReplyHandler.text HANDLER_PATTERN_CONTROLS c.consts.TYPE_TEXT nowMs false none)
    (jsonMember "getControls" (JsonValue.string patternId)) c

def getPreviewImage (nowMs : Nat) (patternId : String) (bufferId : String) (clean : Bool)
    (c : Client) : Option (Bool × Client) :=
  trackedRequest nowMs
    (ReplyHandler.binary HANDLER_PREVIEW_IMG c.consts.TYPE_BINARY nowMs false none bufferId
      BIN_TYPE_PREVIEW_IMAGE clean)
    (jsonMember "getPreviewImg" (JsonValue.string patternId)) c

/-- The call `getSettings`; `watchConfig`, `watchSeq` and `watchExpander` are the truth
values of `watchResponses & WATCH_CONFIG_REQ`, `watchResponses & WATCH_SEQ_REQ` and
`watchResponses & WATCH_EXPANDER_REQ`; `bufferId` and `clean` are those of the caller's
expander handler. -/
def getSettings (nowMs : Nat) (watchConfig watchSeq watchExpander : Bool)
    (bufferId : String) (clean : Bool) (c : Client) : Option (Bool × Client) :=
  let mySettingsHandler :=
    ReplyHandler.text HANDLER_SETTINGS c.consts.TYPE_TEXT nowMs (!watchConfig) none
  let mySeqHandler :=
    ReplyHandler.text HANDLER_SEQ c.consts.TYPE_TEXT nowMs (!watchSeq) none
  let myExpanderHandler :=
    ReplyHandler.binary HANDLER_EXPANDER_CONF c.consts.TYPE_BINARY nowMs (!watchExpander) none
      bufferId BIN_TYPE_EXPANDER_CONFIG clean
  match enqueueReplies nowMs
      [some mySettingsHandler, some mySeqHandler, some myExpanderHandler] c with
  | none => none
  | some (ok, c1) =>
    if !ok then
      some (false, c1)
    else
      let request := jsonMember "getConfig" (JsonValue.bool true)
      some (true, sendJson request { c1 with json := request })

def ping (nowMs : Nat) (c : Client) : Option (Bool × Client) :=
  trackedRequest nowMs
    (ReplyHandler.text HANDLER_PING c.consts.TYPE_TEXT nowMs false none)
    (jsonMember "ping" (JsonValue.bool true)) c

/-- The call `getRawBinary`; `bufferId`, `binType` and `clean` are those of the caller's
handler. The request is sent as given, `json` is not touched. -/
def getRawBinary (nowMs : Nat) (bufferId : String) (binType : Int) (clean : Bool)
    (request : JsonValue) (c : Client) : Option (Bool × Client) :=
  match enqueueReply nowMs
      (some (ReplyHandler.binary HANDLER_RAW_BINARY c.consts.TYPE_BINARY nowMs false none
        bufferId binType clean)) c with
  | none => none
  | some (ok, c1) => if !ok then some (false, c1) else some (true, sendJson request c1)

def getRawText (nowMs : Nat) (request : JsonValue) (c : Client) : Option (Bool × Client) :=
  match enqueueReply nowMs
      (some (ReplyHandler.text HANDLER_RAW_TEXT c.consts.TYPE_TEXT nowMs false none)) c with
  | none => none
  | some (ok, c1) => if !ok then some (false, c1) else some (true, sendJson request c1)

/-! ## The pattern list iterator (`PixelblazeClient.cpp`, lines 1015-1061) -/

structure PatternIdentifiers where
  id : List Nat
  name : List Nat
deriving DecidableEq, Repr

/-- The call `stream->read()` on a stream given by the bytes it still holds. -/
def streamRead : List Nat → Int × List Nat
  | [] => (-1, [])
  | b :: rest => ((b : Int), rest)

/-- The loop `while (read >= 0 && read != sep && buffIdx < bufferLen) { readBuffer[buffIdx]
= read; buffIdx++; read = stream->read(); }`. The bytes stored so far are `buf`, so
`buffIdx = buf.length`. The result is the final `read`, the stream and the bytes stored. -/
def fillField (sep bufferLen : Nat) : List Nat → Int → List Nat → Int × List Nat × List Nat
  | [], read, buf =>
    if read ≥ 0 ∧ read ≠ (sep : Int) ∧ buf.length < bufferLen then
      (-1, [], buf ++ [read.toNat])
    else
      (read, [], buf)
  | b :: rest, read, buf =>
    if read ≥ 0 ∧ read ≠ (sep : Int) ∧ buf.length < bufferLen then
      fillField sep bufferLen rest (b : Int) (buf ++ [read.toNat])
    else
      (read, b :: rest, buf)

/-- The loop `while (read >= 0 && read != sep) read = stream->read();`. -/
def skipField (sep : Nat) : List Nat → Int → Int × List Nat
  | [], read => if read ≥ 0 ∧ read ≠ (sep : Int) then (-1, []) else (read, [])
  | b :: rest, read =>
    if read ≥ 0 ∧ read ≠ (sep : Int) then skipField sep rest (b : Int) else (read, b :: rest)

/-- The assignment of the C string in `readBuffer` to a `String`: the bytes before the
first zero byte. -/
def cString (buf : List Nat) : List Nat :=
  buf.takeWhile (fun b => b != 0)

/-- The call `AllPatternIterator::next(fillMe)` for a read buffer of `bufferLen` bytes:
the returned flag, `fillMe` and the stream afterwards; `none` when the terminating `'\0'`
is stored at index `bufferLen`, past the end of `readBuffer`. The tab is byte 9, the
newline byte 10. -/
def AllPatternIterator.next (bufferLen : Nat) (stream : List Nat) (fillMe : PatternIdentifiers) :
    Option (Bool × PatternIdentifiers × List Nat) :=
  let (read, stream) := streamRead stream
  if read < 0 then
    some (false, fillMe, stream)
  else
    let (read, stream, buf) := fillField 9 bufferLen stream read []
    let (read, stream) := if buf.length ≥ bufferLen then skipField 9 stream read else (read, stream)
    if read < 0 then
      some (false, fillMe, stream)
    else if buf.length ≥ bufferLen then
      none
    else
      let fillMe := { fillMe with id := cString buf }
      let (read, stream, buf) := fillField 10 bufferLen stream read []
      let (_, stream) :=
        if buf.length ≥ bufferLen then skipField 10 stream read else (read, stream)
      if buf.length ≥ bufferLen then
        none
      else
        some (true, { fillMe with name := cString buf }, stream)

/-- The indices of `readBuffer` at which the call `AllPatternIterator::next` stores a byte,
in the order of the stores: those of the id loop, the terminating `'\0'` of the id, those
of the name loop and the terminating `'\0'` of the name. -/
def AllPatternIterator.stores (bufferLen : Nat) (stream : List Nat) : List Nat :=
  let (read, stream) := streamRead stream
  if read < 0 then
    []
  else
    let (read, stream, buf) := fillField 9 bufferLen stream read []
    let (read, stream) := if buf.length ≥ bufferLen then skipField 9 stream read else (read, stream)
    if read < 0 then
      List.range buf.length
    else
      let (_, _, buf2) := fillField 10 bufferLen stream read []
      List.range buf.length ++ [buf.length] ++ List.range buf2.length ++ [buf2.length]

/-! ## Control names (`PixelblazeClient.cpp`, lines 802-836) -/

/-- The bytes of the text `slider`. -/
def sliderText : List Nat := [115, 108, 105, 100, 101, 114]

/-- The C function `isupper` on a byte (C locale). -/
def isupper (ch : Nat) : Bool :=
  decide (65 ≤ ch ∧ ch ≤ 90)

/-- The C function `toupper` on a byte (C locale). -/
def toupper (ch : Nat) : Nat :=
  if 97 ≤ ch ∧ ch ≤ 122 then ch - 32 else ch

/-- The first loop of `humanizeVarName` over the characters from index `idx` on:
`wordStarts` collects the indices of the upper case characters, at most `maxWords` of
them. The result is the filled part of `wordStarts`, `numStarts` being its length; `none`
when a store goes past the end of `wordStarts`, which has `maxWords` entries. -/
def scanWordStarts (maxWords : Nat) : List Nat → Nat → List Nat → Option (List Nat)
  | [], _, wordStarts => some wordStarts
  | ch :: rest, idx, wordStarts =>
    if isupper ch then
      if wordStarts.length ≥ maxWords then
        none
      else if (wordStarts ++ [idx]).length ≥ maxWords then
        some (wordStarts ++ [idx])
      else
        scanWordStarts maxWords rest (idx + 1) (wordStarts ++ [idx])
    else
      scanWordStarts maxWords rest (idx + 1) wordStarts

/-- The second loop of `humanizeVarName` and the statement after it, for at least one word
start: the words from one start to the next, each followed by a blank (byte 32), then the
rest of the text from the last start. -/
def joinWords (text : List Nat) : List Nat → List Nat
  | [] => []
  | [last] => text.drop last
  | a :: b :: rest => (text.drop a).take (b - a) ++ [32] ++ joinWords text (b :: rest)

/-- The call `humanizeVarName(camelCaseVar, maxWords)`: the returned text; `none` when
`numStarts` is 0 after the first loop, so that the unsigned `numStarts - 1` wraps around,
the second loop does not stop at the end of `wordStarts` and `wordStarts[numStarts - 1]`
is read outside the array, or when the first loop stores outside `wordStarts`. -/
def humanizeVarName (camelCaseVar : List Nat) (maxWords : Nat) : Option (List Nat) :=
  if camelCaseVar.length = 0 then
    some []
  else if camelCaseVar = sliderText then
    some [83, 108, 105, 100, 101, 114]
  else
    let startIdx := if camelCaseVar.take 6 = sliderText then 6 else 0
    let text :=
      if camelCaseVar.take 6 = sliderText then camelCaseVar
      else camelCaseVar.set 0 (toupper (camelCaseVar.headD 0))
    match scanWordStarts maxWords (text.drop startIdx) startIdx [] with
    | none => none
    | some wordStarts =>
      if wordStarts.length = 0 then none else some (joinWords text wordStarts)

/-! ## Views of the state used to state properties -/

/-- The slots the queue holds according to its cursors: the `queueLength` entries that
start at `queueFront`, front first. -/
def pendingSlots (c : Client) : List (Option ReplyHandler) :=
  (List.range (queueLength c)).map
    (fun k => c.slot ((c.queueFront + k) % c.clientConfig.replyQueueSize))

/-- The handlers the queue holds according to its cursors, front first. -/
def pending (c : Client) : List ReplyHandler :=
  (pendingSlots c).filterMap id

/-- Well-formedness of the queue: the array has `replyQueueSize > 0` entries, both cursors
are below `replyQueueSize`, and no slot from `queueFront` up to `queueBack` is null. -/
def WellFormed (c : Client) : Prop :=
  0 < c.clientConfig.replyQueueSize ∧
  c.replyQueue.length = c.clientConfig.replyQueueSize ∧
  c.queueFront < c.clientConfig.replyQueueSize ∧
  c.queueBack < c.clientConfig.replyQueueSize ∧
  ∀ k, k < queueLength c →
    c.slot ((c.queueFront + k) % c.clientConfig.replyQueueSize) ≠ none

/-- The state of a freshly constructed client: an empty queue of `cfg.replyQueueSize` null
slots and no reassembly in progress (`binaryReadType = -1`). -/
def newClient (cfg : ClientConfig) (k : Constants) : Client :=
  { clientConfig := cfg
    consts := k
    replyQueue := List.replicate cfg.replyQueueSize none
    queueFront := 0
    queueBack := 0
    binaryReadType := -1
    wsClient := { body := [], readLimits := [] }
    binaryBuffer := { files := [], openFailures := [], writeLimits := [], gcCalls := 0 }
    events := []
    json := JsonValue.null
    sent := [] }

instance (c : Client) : Decidable (WellFormed c) := by
  unfold WellFormed
  infer_instance

/-- The test of `handleUnrequestedBinary` on a queue slot (lines 881-882), also made on
the front slot by the expander-config loop of `checkForInbound`: `format == FORMAT_BINARY`
and the `binType` read through `(BinaryReplyHandler *)` is `BIN_TYPE_EXPANDER_CONFIG`. -/
def awaitsExpander (k : Constants) (h : ReplyHandler) : Bool :=
  decide (h.format = k.FORMAT_BINARY) && decide (h.binType? = some BIN_TYPE_EXPANDER_CONFIG)

/-- The cast `(BinaryReplyHandler *)` made on a slot whose `format` is `FORMAT_BINARY` is
defined for this handler: its format is another one, or it is a `BinaryReplyHandler`. -/
def castDefined (k : Constants) (h : ReplyHandler) : Bool :=
  decide (h.format ≠ k.FORMAT_BINARY) || h.binType?.isSome

/-- The two states agree on everything the queue is made of: configuration, constants,
array and cursors. -/
def SameQueue (c c' : Client) : Prop :=
  c'.clientConfig = c.clientConfig ∧ c'.consts = c.consts ∧ c'.replyQueue = c.replyQueue ∧
  c'.queueFront = c.queueFront ∧ c'.queueBack = c.queueBack

/-- The constants name the two message formats of the transport, and these differ. -/
def SaneConstants (k : Constants) : Prop :=
  k.FORMAT_TEXT = k.TYPE_TEXT ∧ k.FORMAT_BINARY = k.TYPE_BINARY ∧
  k.FORMAT_TEXT ≠ k.FORMAT_BINARY

/-- The handlers the request operations create: a `TextReplyHandler` of format `TYPE_TEXT`
or a `BinaryReplyHandler` of format `TYPE_BINARY`, whose `isSatisfied()` is the one of the
base class. -/
def Issued (k : Constants) : ReplyHandler → Prop
  | ReplyHandler.text _ f _ _ o => f = k.TYPE_TEXT ∧ o = none
  | ReplyHandler.binary _ f _ _ o _ _ _ => f = k.TYPE_BINARY ∧ o = none
  | ReplyHandler.sync _ _ _ _ => False

/-- The invariant of the queue between two operations of the client: the queue is well
formed, the constants are sane, every pending handler is one a request created, and no
unsatisfied handler awaiting an expander configuration is ahead of a satisfied handler. -/
def QueueInv (c : Client) : Prop :=
  WellFormed c ∧ SaneConstants c.consts ∧ (∀ h ∈ pending c, Issued c.consts h) ∧
  (pending c).Pairwise (fun a b =>
    awaitsExpander c.consts a = true → a.isSatisfied = false → b.isSatisfied = false)

/-- The first part of the loop body of `checkForInbound` on a non-empty queue (lines
501-542): satisfied front slots are dropped and the expander-config loop runs. The result
is `soughtFormat` and the state in which one of `seekingTextHasText`,
`seekingBinaryHasText`, `seekingTextHasBinary`, `seekingBinaryHasBinary` is then called;
`none` when the queue is empty after the drop, or when one of the steps has no defined
result. -/
def soughtState (m : InboundMessage) (c : Client) : Option (Int × Client) :=
  match dropSatisfied (queueLength c + 1) c with
  | none => none
  | some c =>
    if queueLength c = 0 then
      none
    else
      match c.slot c.queueFront with
      | none => none
      | some front =>
        rotateLoop m.atMs m.format (c.clientConfig.replyQueueSize + 1) front.format 0 c

/-- The second part of the loop body of `checkForInbound` on a non-empty queue (lines
544-565): the call chosen by the format of the message and `soughtFormat`. -/
def routeInbound (deserializeJson : List Nat → Option JsonValue) (m : InboundMessage)
    (soughtFormat : Int) (c : Client) : Option Client :=
  if soughtFormat ≠ c.consts.FORMAT_TEXT ∧ soughtFormat ≠ c.consts.FORMAT_BINARY then
    dequeueReply c
  else if m.format = c.consts.FORMAT_TEXT then
    if soughtFormat = c.consts.FORMAT_TEXT then
      seekingTextHasText deserializeJson m.atMs c
    else
      seekingBinaryHasText deserializeJson c
  else if m.format = c.consts.FORMAT_BINARY then
    if soughtFormat = c.consts.FORMAT_TEXT then
      seekingTextHasBinary c
    else
      seekingBinaryHasBinary c
  else
    dequeueReply c

/-- The messages for which the loop of `checkForInbound` runs its body, each with the
state in which the body starts (the message being the current one of the transport). -/
def loopStates (deserializeJson : List Nat → Option JsonValue) (startTime : Nat) :
    List InboundMessage → Client → List (InboundMessage × Client)
  | [], _ => []
  | m :: rest, c =>
    let c := { c with wsClient := { c.wsClient with body := m.body } }
    if m.body.length > 0 ∧
        (startTime + c.clientConfig.maxInboundCheckMs) % 2 ^ 32 > m.atMs then
      (m, c) ::
        (match handleInbound deserializeJson m c with
          | none => []
          | some c1 => loopStates deserializeJson startTime rest c1)
    else
      []

/-- The messages handled by the call `checkForInbound()` at time `nowMs`, each with the
state in which the loop body starts for it. -/
def tickStates (deserializeJson : List Nat → Option JsonValue) (nowMs : Nat)
    (messages : List InboundMessage) (c : Client) : List (InboundMessage × Client) :=
  match weedExpiredReplies nowMs c with
  | none => []
  | some c1 => loopStates deserializeJson nowMs messages c1

/-! ## Sample values -/

/-- Frame flags as three distinct bits, and the two message formats. -/
def sampleConsts : Constants :=
  { FRAME_FIRST := 1, FRAME_MIDDLE := 2, FRAME_LAST := 4, FORMAT_TEXT := 1, FORMAT_BINARY := 2,
    TYPE_TEXT := 1, TYPE_BINARY := 2 }

def sampleConfig (replyQueueSize : Nat) : ClientConfig :=
  { replyQueueSize := replyQueueSize
    maxResponseWaitMs := 5000
    binaryBufferBytes := 2
    framePreviewBufferBytes := 300
    textReadBufferBytes := 8
    maxInboundCheckMs := 300 }

/-- A `PingReplyHandler` as `ping()` enqueues it at time `ts`. -/
def pingHandler (ts : Nat) : ReplyHandler :=
  ReplyHandler.text HANDLER_PING 1 ts false none

/-- A `SettingsReplyHandler` issued at time `ts`, with the value of its `satisfied` flag. -/
def settingsHandler (ts : Nat) (satisfied : Bool) : ReplyHandler :=
  ReplyHandler.text HANDLER_SETTINGS 1 ts satisfied none

/-- A `SequencerReplyHandler` issued at time `ts`, with the value of its `satisfied` flag. -/
def sequencerHandler (ts : Nat) (satisfied : Bool) : ReplyHandler :=
  ReplyHandler.text HANDLER_SEQ 1 ts satisfied none

/-- An `AllPatternsReplyHandler` as `getPatterns()` enqueues it at time `ts`. -/
def patternsHandler (ts : Nat) : ReplyHandler :=
  ReplyHandler.binary HANDLER_ALL_PATTERNS 2 ts false none "patterns"
    BIN_TYPE_GET_PROGRAM_LIST true

/-- A `RawBinaryHandler` for binary type `binType`, issued at time `ts`. -/
def rawBinaryHandler (ts : Nat) (binType : Int) : ReplyHandler :=
  ReplyHandler.binary HANDLER_RAW_BINARY 2 ts false none "raw" binType true

/-- An `ExpanderConfigReplyHandler` as `getSettings()` enqueues it at time `ts`, with the
buffer it names. -/
def expanderHandler (ts : Nat) (bufferId : String) : ReplyHandler :=
  ReplyHandler.binary HANDLER_EXPANDER_CONF 2 ts false none bufferId BIN_TYPE_EXPANDER_CONFIG
    true

/-- A `RawBinaryHandler` for binary type `binType` that keeps its buffer after completion
(`clean` is false), issued at time `ts`. -/
def keepingBinaryHandler (ts : Nat) (binType : Int) : ReplyHandler :=
  ReplyHandler.binary HANDLER_RAW_BINARY 2 ts false none "raw" binType false

/-- A buffer store with the given stored results whose next two `makeWriteStream` calls
fail. -/
def failingStore (files : List (String × List Nat)) : PixelblazeBuffer :=
  { files := files, openFailures := [true, true], writeLimits := [], gcCalls := 0 }

/-- A client whose queue of capacity `replyQueueSize` holds the given slots from index 0. -/
def clientWith (replyQueueSize : Nat) (slots : List ReplyHandler) : Client :=
  { newClient (sampleConfig replyQueueSize) sampleConsts with
    replyQueue := slots.map some ++ List.replicate (replyQueueSize - slots.length) none
    queueBack := slots.length }

/-- The client `c` in the middle of a reassembly of type `T`, the bytes `stored` being in
the buffer `bufferId` so far. -/
def reassembling (c : Client) (T : Int) (bufferId : String) (stored : List Nat) : Client :=
  { c with binaryReadType := T, binaryBuffer := c.binaryBuffer.setFile bufferId stored }

/-- A client of capacity 3 in the middle of a reassembly of type 7 for its front handler
`h`, a ping handler behind it, the bytes `[1, 2]` stored so far in the buffer "raw", and a
store whose next two `makeWriteStream` calls fail. -/
def failingReassembly (h : ReplyHandler) : Client :=
  { clientWith 3 [h, pingHandler 0] with
    binaryReadType := 7
    binaryBuffer := failingStore [("raw", [1, 2])] }

/-! ## The requests as data -/

/-- A call of one of the nine requests that track a reply, with its arguments (those of
the caller's handler included). -/
inductive Request where
  | getPatterns (bufferId : String) (clean : Bool)
  | getPlaylist (playlistName : String)
  | getPeers
  | getPatternControls (patternId : String)
  | getPreviewImage (patternId : String) (bufferId : String) (clean : Bool)
  | getSettings (watchConfig watchSeq watchExpander : Bool) (bufferId : String) (clean : Bool)
  | ping
  | getRawBinary (bufferId : String) (binType : Int) (clean : Bool) (request : JsonValue)
  | getRawText (request : JsonValue)
deriving DecidableEq, Repr

namespace Request

/-- The call itself, at time `nowMs`. -/
def issue (nowMs : Nat) : Request → Client → Option (Bool × Client)
  | getPatterns bufferId clean, c => Pixelblaze.getPatterns nowMs bufferId clean c
  | getPlaylist playlistName, c => Pixelblaze.getPlaylist nowMs playlistName c
  | getPeers, c => Pixelblaze.getPeers nowMs c
  | getPatternControls patternId, c => Pixelblaze.getPatternControls nowMs patternId c
  | getPreviewImage patternId bufferId clean, c =>
    Pixelblaze.getPreviewImage nowMs patternId bufferId clean c
  | getSettings watchConfig watchSeq watchExpander bufferId clean, c =>
    Pixelblaze.getSettings nowMs watchConfig watchSeq watchExpander bufferId clean c
  | ping, c => Pixelblaze.ping nowMs c
  | getRawBinary bufferId binType clean request, c =>
    Pixelblaze.getRawBinary nowMs bufferId binType clean request c
  | getRawText request, c => Pixelblaze.getRawText nowMs request c

/-- The handlers the call creates and offers to the queue, in order. -/
def handlers (nowMs : Nat) (k : Constants) : Request → List (Option ReplyHandler)
  | getPatterns bufferId clean =>
    [some (ReplyHandler.binary HANDLER_ALL_PATTERNS k.TYPE_BINARY nowMs false none bufferId
      BIN_TYPE_GET_PROGRAM_LIST clean)]
  | getPlaylist _ => [some (ReplyHandler.text HANDLER_PLAYLIST k.TYPE_TEXT nowMs false none)]
  | getPeers => [some (ReplyHandler.text HANDLER_PEERS k.TYPE_TEXT nowMs false none)]
  | getPatternControls _ =>
    [some (ReplyHandler.text HANDLER_PATTERN_CONTROLS k.TYPE_TEXT nowMs false none)]
  | getPreviewImage _ bufferId clean =>
    [some (ReplyHandler.binary HANDLER_PREVIEW_IMG k.TYPE_BINARY nowMs false none bufferId
      BIN_TYPE_PREVIEW_IMAGE clean)]
  | getSettings watchConfig watchSeq watchExpander bufferId clean =>
    [some (ReplyHandler.text HANDLER_SETTINGS k.TYPE_TEXT nowMs (!watchConfig) none),
     some (ReplyHandler.text HANDLER_SEQ k.TYPE_TEXT nowMs (!watchSeq) none),
     some (ReplyHandler.binary HANDLER_EXPANDER_CONF k.TYPE_BINARY nowMs (!watchExpander) none
       bufferId BIN_TYPE_EXPANDER_CONFIG clean)]
  | ping => [some (ReplyHandler.text HANDLER_PING k.TYPE_TEXT nowMs false none)]
  | getRawBinary bufferId binType clean _ =>
    [some (ReplyHandler.binary HANDLER_RAW_BINARY k.TYPE_BINARY nowMs false none bufferId
      binType clean)]
  | getRawText _ => [some (ReplyHandler.text HANDLER_RAW_TEXT k.TYPE_TEXT nowMs false none)]

/-- The message the call sends when its handlers are enqueued. -/
def message : Request → JsonValue
  | getPatterns _ _ => jsonMember "listPrograms" (JsonValue.bool true)
  | getPlaylist playlistName => jsonMember "getPlaylist" (JsonValue.string playlistName)
  | getPeers => jsonMember "getPeers" (JsonValue.number 1)
  | getPatternControls patternId => jsonMember "getControls" (JsonValue.string patternId)
  | getPreviewImage patternId _ _ => jsonMember "getPreviewImg" (JsonValue.string patternId)
  | getSettings _ _ _ _ _ => jsonMember "getConfig" (JsonValue.bool true)
  | ping => jsonMember "ping" (JsonValue.bool true)
  | getRawBinary _ _ _ request => request
  | getRawText request => request

end Request

/-- The states reachable from a freshly constructed client, with any transport and buffer
store, through the requests that track a reply and through `checkForInbound`. -/
inductive Reachable (deserializeJson : List Nat → Option JsonValue) : Client → Prop
  | init (cfg : ClientConfig) (k : Constants) (ws : WebSocketClient)
      (store : PixelblazeBuffer) (hsize : 0 < cfg.replyQueueSize) (hk : SaneConstants k) :
      Reachable deserializeJson { newClient cfg k with wsClient := ws, binaryBuffer := store }
  | request (c c1 : Client) (nowMs : Nat) (r : Request) (ok : Bool)
      (hc : Reachable deserializeJson c) (hr : Request.issue nowMs r c = some (ok, c1)) :
      Reachable deserializeJson c1
  | tick (c c1 : Client) (nowMs : Nat) (messages : List InboundMessage)
      (hc : Reachable deserializeJson c)
      (ht : checkForInbound deserializeJson nowMs messages c = some c1) :
      Reachable deserializeJson c1

/-- The transport presents a text message with the given bytes. -/
def withText (text : List Nat) (c : Client) : Client :=
  { c with wsClient := { c.wsClient with body := text } }

/-- The bytes of the text `{"ack":true}`. -/
def ackText : List Nat :=
  [123, 34, 97, 99, 107, 34, 58, 116, 114, 117, 101, 125]

/-- The document `{"ack": true}`. -/
def ackDocument : JsonValue :=
  jsonMember "ack" (JsonValue.bool true)

/-- A decoder that knows one text, `{"ack":true}`, and rejects every other one. -/
def ackDecoder (text : List Nat) : Option JsonValue :=
  if text = ackText then some ackDocument else none

/-- The state of a fresh client of capacity 3 after `ping()` at time 0. -/
def pingedClient : Client :=
  { clientWith 3 [pingHandler 0] with
    json := jsonMember "ping" (JsonValue.bool true)
    sent := [jsonMember "ping" (JsonValue.bool true)] }

/-- The text message `{"ack":true}` looked at at time 10. -/
def ackMessage : InboundMessage :=
  { format := 1, body := ackText, atMs := 10 }

/-- The state of a fresh client of capacity 3 after `getPatterns()` at time 0. -/
def listingClient : Client :=
  (((Request.getPatterns "patterns" true).issue 0
    (newClient (sampleConfig 3) sampleConsts)).map Prod.snd).getD
    (newClient (sampleConfig 3) sampleConsts)

/-- The first and the last frame of a pattern list reply: type 7 with flag FIRST, then type
7 with flag LAST. -/
def listFrames : List InboundMessage :=
  [{ format := 2, body := [7, 1, 65, 9], atMs := 10 },
   { format := 2, body := [7, 4, 66, 10], atMs := 11 }]

/-- The state `listingClient` after `checkForInbound()` at time 10 has handled the two
frames of `listFrames`. -/
def listedClient : Client :=
  (checkForInbound ackDecoder 10 listFrames listingClient).getD listingClient

/-- The state `listingClient` after `checkForInbound()` at time 10 has handled the first
frame of `listFrames` only. -/
def halfListedClient : Client :=
  (checkForInbound ackDecoder 10 (listFrames.take 1) listingClient).getD listingClient

/-- The state `halfListedClient` after `ping()` at time 5000. -/
def halfListedPingedClient : Client :=
  ((Request.ping.issue 5000 halfListedClient).map Prod.snd).getD halfListedClient

/-- The state `halfListedPingedClient` after `checkForInbound()` at time 6000 with no
message waiting. -/
def expiredListingClient : Client :=
  (checkForInbound ackDecoder 6000 [] halfListedPingedClient).getD halfListedPingedClient

/-- The transport presents a binary message made of a type byte, a flag byte and a
payload. -/
def withFrame (frameType frameFlag : Nat) (payload : List Nat) (c : Client) : Client :=
  { c with wsClient := { c.wsClient with body := frameType :: frameFlag :: payload } }

/-- The binary messages given as (type, flag, payload) are handled one after the other by
`seekingBinaryHasBinary`. -/
def seekFrames : List (Nat × Nat × List Nat) → Client → Option Client
  | [], c => some c
  | (frameType, frameFlag, payload) :: rest, c =>
    match seekingBinaryHasBinary (withFrame frameType frameFlag payload c) with
    | none => none
    | some c1 => seekFrames rest c1

/-- The state `listedClient` after a second `getPatterns()`, at time 20. -/
def relistingClient : Client :=
  (((Request.getPatterns "patterns" true).issue 20 listedClient).map Prod.snd).getD
    listedClient

/-- The frames of a second pattern list reply as (type, flag, payload): type 7 with the
flags FIRST, MIDDLE and LAST. -/
def relistFrames : List (Nat × Nat × List Nat) :=
  [(7, 1, [70, 71]), (7, 2, [72, 73]), (7, 4, [74, 75])]

/-- The frames of `relistFrames` as binary messages looked at at times 30, 31 and 32. -/
def relistMessages : List InboundMessage :=
  [{ format := 2, body := [7, 1, 70, 71], atMs := 30 },
   { format := 2, body := [7, 2, 72, 73], atMs := 31 },
   { format := 2, body := [7, 4, 74, 75], atMs := 32 }]

/-- The state of a fresh client of capacity 1 after `ping()` at time 0. -/
def tinyPingedClient : Client :=
  ((Request.ping.issue 0 (newClient (sampleConfig 1) sampleConsts)).map Prod.snd).getD
    (newClient (sampleConfig 1) sampleConsts)

/-- The state of a fresh client of capacity 3 after `getRawBinary()` at time 0 with a
handler for binary type 5 and the buffer "raw". -/
def framingClient : Client :=
  (((Request.getRawBinary "raw" 5 true (jsonMember "getFrame" (JsonValue.bool true))).issue 0
    (newClient (sampleConfig 3) sampleConsts)).map Prod.snd).getD
    (newClient (sampleConfig 3) sampleConsts)

/-- The first and the last frame of a reply of type 5. -/
def rawFrames : List InboundMessage :=
  [{ format := 2, body := [5, 1, 1, 2], atMs := 10 },
   { format := 2, body := [5, 4, 3], atMs := 11 }]

/-- The state `framingClient` after `checkForInbound()` at time 10 has handled the two
frames of `rawFrames`. -/
def framedClient : Client :=
  (checkForInbound ackDecoder 10 rawFrames framingClient).getD framingClient

/-- The state `framedClient` after `getPatterns()` at time 20. -/
def framedListingClient : Client :=
  (((Request.getPatterns "patterns" true).issue 20 framedClient).map Prod.snd).getD
    framedClient

/-- The state of a fresh client of capacity 4 after `getSettings()` at time 0, watching for
the three replies, the expander handler naming the buffer "expander". -/
def settingsClient : Client :=
  (((Request.getSettings true true true "expander" true).issue 0
    (newClient (sampleConfig 4) sampleConsts)).map Prod.snd).getD
    (newClient (sampleConfig 4) sampleConsts)

/-- An expander-config binary message: type byte 9, then the bytes 4, 1, 2, 3, looked at at
time 10. -/
def expanderMessage : InboundMessage :=
  { format := 2, body := [9, 4, 1, 2, 3], atMs := 10 }

/-- A fresh client of capacity 3 whose buffer store already holds the bytes 42, 43 under
"raw". -/
def staleStoreClient : Client :=
  { newClient (sampleConfig 3) sampleConsts with
    wsClient := { body := [], readLimits := [] }
    binaryBuffer := { files := [("raw", [42, 43])], openFailures := [], writeLimits := [],
                      gcCalls := 0 } }

/-- The state `staleStoreClient` after `ping()` at time 0. -/
def stalePingedClient : Client :=
  ((Request.ping.issue 0 staleStoreClient).map Prod.snd).getD staleStoreClient

/-- The state `stalePingedClient` after `getRawBinary()` at time 0 with a handler for
binary type 9 (expander config) and the buffer "raw". -/
def staleRawClient : Client :=
  (((Request.getRawBinary "raw" 9 true (jsonMember "getConfig" (JsonValue.bool true))).issue 0
    stalePingedClient).map Prod.snd).getD stalePingedClient

end Pixelblaze

/-! # Properties -/

namespace Pixelblaze

/-! ## Arithmetic of the cursors -/

theorem succ_mod_cases (size f : Nat) (hf : f < size) :
    (f + 1 = size ∧ (f + 1) % size = 0) ∨ (f + 1 < size ∧ (f + 1) % size = f + 1) := by
  by_cases h : f + 1 = size
  · left; exact ⟨h, by rw [h]; exact Nat.mod_self size⟩
  · right
    have h1 : f + 1 < size := by omega
    exact ⟨h1, Nat.mod_eq_of_lt h1⟩

theorem queueLength_lt_size (c : Client) (hf : c.queueFront < c.clientConfig.replyQueueSize)
    (hb : c.queueBack < c.clientConfig.replyQueueSize) :
    queueLength c < c.clientConfig.replyQueueSize := by
  unfold queueLength
  split_ifs <;> omega

theorem queueLength_advance (c : Client) (rq : List (Option ReplyHandler))
    (hf : c.queueFront < c.clientConfig.replyQueueSize)
    (hb : c.queueBack < c.clientConfig.replyQueueSize) (hpos : 0 < queueLength c) :
    queueLength { c with replyQueue := rq,
                         queueFront := (c.queueFront + 1) % c.clientConfig.replyQueueSize }
      = queueLength c - 1 := by
  unfold queueLength at *
  simp only
  rcases succ_mod_cases _ _ hf with ⟨h1, h2⟩ | ⟨h1, h2⟩ <;> rw [h2] <;> split_ifs at * <;> omega

theorem queueLength_push (c : Client) (rq : List (Option ReplyHandler))
    (hf : c.queueFront < c.clientConfig.replyQueueSize)
    (hb : c.queueBack < c.clientConfig.replyQueueSize)
    (hroom : queueLength c + 1 < c.clientConfig.replyQueueSize) :
    queueLength { c with replyQueue := rq,
                         queueBack := (c.queueBack + 1) % c.clientConfig.replyQueueSize }
      = queueLength c + 1 := by
  unfold queueLength at *
  simp only
  rcases succ_mod_cases _ _ hb with ⟨h1, h2⟩ | ⟨h1, h2⟩ <;> rw [h2] <;> split_ifs at * <;> omega

theorem front_add_mod (size f k : Nat) :
    ((f + 1) % size + k) % size = (f + (k + 1)) % size := by
  rw [Nat.mod_add_mod]; congr 1; omega

/-- Two positions of the queue at distances below the capacity coincide only when the
distances do. -/
theorem ring_index_inj (size f j k : Nat) (hj : j < size) (hk : k < size)
    (h : (f + j) % size = (f + k) % size) : j = k := by
  have hsz : 0 < size := by omega
  rcases Nat.lt_or_ge j k with hlt | hge
  · exfalso
    have h1 : (f + k) % size = ((f + j) % size + (k - j)) % size := by
      rw [Nat.mod_add_mod]; congr 1; omega
    rw [h] at h1
    -- (x % size + d) % size = x % size with 0 < d < size is impossible
    have hx : (f + k) % size < size := Nat.mod_lt _ hsz
    have hd : 0 < k - j ∧ k - j < size := by omega
    by_cases hc : (f + k) % size + (k - j) < size
    · rw [Nat.mod_eq_of_lt hc] at h1; omega
    · have : ((f + k) % size + (k - j)) % size = (f + k) % size + (k - j) - size := by
        rw [Nat.mod_eq_sub_mod (by omega)]
        exact Nat.mod_eq_of_lt (by omega)
      rw [this] at h1; omega
  · rcases Nat.eq_or_lt_of_le hge with heq | hgt
    · exact heq.symm
    · exfalso
      have h1 : (f + j) % size = ((f + k) % size + (j - k)) % size := by
        rw [Nat.mod_add_mod]; congr 1; omega
      rw [← h] at h1
      have hx : (f + j) % size < size := Nat.mod_lt _ hsz
      by_cases hc : (f + j) % size + (j - k) < size
      · rw [Nat.mod_eq_of_lt hc] at h1; omega
      · have : ((f + j) % size + (j - k)) % size = (f + j) % size + (j - k) - size := by
          rw [Nat.mod_eq_sub_mod (by omega)]
          exact Nat.mod_eq_of_lt (by omega)
        rw [this] at h1; omega


/-! ## The pending slots under the elementary cursor moves -/

theorem pendingSlots_length (c : Client) : (pendingSlots c).length = queueLength c := by
  simp [pendingSlots]

theorem pendingSlots_advance (c : Client) (rq : List (Option ReplyHandler))
    (hf : c.queueFront < c.clientConfig.replyQueueSize)
    (hb : c.queueBack < c.clientConfig.replyQueueSize) (hpos : 0 < queueLength c)
    (hrq : ∀ k, 0 < k → k < queueLength c →
      rq.getD ((c.queueFront + k) % c.clientConfig.replyQueueSize) none
        = c.replyQueue.getD ((c.queueFront + k) % c.clientConfig.replyQueueSize) none) :
    pendingSlots { c with replyQueue := rq,
                          queueFront := (c.queueFront + 1) % c.clientConfig.replyQueueSize }
      = (pendingSlots c).tail := by
  unfold pendingSlots
  rw [queueLength_advance c rq hf hb hpos]
  obtain ⟨n, hn⟩ : ∃ n, queueLength c = n + 1 := ⟨queueLength c - 1, by omega⟩
  rw [hn, List.range_succ_eq_map]
  simp only [Nat.add_sub_cancel, List.map_cons, List.tail_cons, List.map_map]
  apply List.map_congr_left
  intro k hk
  have hk' : k < n := List.mem_range.mp hk
  simp only [Function.comp, Client.slot, front_add_mod]
  exact hrq (k + 1) (by omega) (by omega)

theorem pendingSlots_push (c : Client) (h : Option ReplyHandler)
    (hlen : c.replyQueue.length = c.clientConfig.replyQueueSize)
    (hf : c.queueFront < c.clientConfig.replyQueueSize)
    (hb : c.queueBack < c.clientConfig.replyQueueSize)
    (hroom : queueLength c + 1 < c.clientConfig.replyQueueSize) :
    pendingSlots { c with replyQueue := c.replyQueue.set c.queueBack h,
                          queueBack := (c.queueBack + 1) % c.clientConfig.replyQueueSize }
      = pendingSlots c ++ [h] := by
  have hback : (c.queueFront + queueLength c) % c.clientConfig.replyQueueSize = c.queueBack := by
    unfold queueLength
    split_ifs with hgt
    · have : c.queueFront + (c.queueBack + (c.clientConfig.replyQueueSize - c.queueFront))
          = c.queueBack + c.clientConfig.replyQueueSize := by omega
      rw [this, Nat.add_mod_right]; exact Nat.mod_eq_of_lt hb
    · have : c.queueFront + (c.queueBack - c.queueFront) = c.queueBack := by omega
      rw [this]; exact Nat.mod_eq_of_lt hb
  unfold pendingSlots
  rw [queueLength_push c _ hf hb hroom, List.range_succ, List.map_append]
  congr 1
  · apply List.map_congr_left
    intro k hk
    have hk' : k < queueLength c := List.mem_range.mp hk
    simp only [Client.slot]
    have hne : c.queueBack ≠ (c.queueFront + k) % c.clientConfig.replyQueueSize := by
      intro heq
      rw [← hback] at heq
      have := ring_index_inj _ _ _ _ (by omega) (by omega) heq
      omega
    simp [List.getD_eq_getElem?_getD, List.getElem?_set_ne hne]
  · simp only [List.map_cons, List.map_nil, Client.slot, hback]
    simp [List.getD_eq_getElem?_getD, hlen, hb]


theorem queueWalk_eq (size back : Nat) (hb : back < size) :
    ∀ fuel idx, idx < size →
      (if idx > back then back + (size - idx) else back - idx) ≤ fuel →
      queueWalk size back fuel idx
        = (List.range (if idx > back then back + (size - idx) else back - idx)).map
            (fun k => (idx + k) % size) := by
  intro fuel
  induction fuel with
  | zero =>
    intro idx hidx hd
    have h0 : (if idx > back then back + (size - idx) else back - idx) = 0 := by omega
    simp [queueWalk, h0]
  | succ fuel ih =>
    intro idx hidx hd
    unfold queueWalk
    by_cases heq : idx = back
    · subst heq; simp
    · rw [if_neg heq]
      have hnext : (idx + 1) % size < size := Nat.mod_lt _ (by omega)
      have hdist : (if idx > back then back + (size - idx) else back - idx)
          = (if (idx + 1) % size > back then back + (size - (idx + 1) % size)
              else back - (idx + 1) % size) + 1 := by
        rcases succ_mod_cases size idx hidx with ⟨h1, h2⟩ | ⟨h1, h2⟩ <;> rw [h2] <;>
          split_ifs <;> omega
      rw [ih _ hnext (by omega), hdist, List.range_succ_eq_map]
      simp only [List.map_cons, List.map_map, Nat.add_zero, Nat.mod_eq_of_lt hidx]
      congr 1
      apply List.map_congr_left
      intro k _
      simp only [Function.comp, front_add_mod]

theorem queueIndices_eq (c : Client) (hf : c.queueFront < c.clientConfig.replyQueueSize)
    (hb : c.queueBack < c.clientConfig.replyQueueSize) :
    queueIndices c
      = (List.range (queueLength c)).map
          (fun k => (c.queueFront + k) % c.clientConfig.replyQueueSize) := by
  have hl := queueLength_lt_size c hf hb
  unfold queueLength at hl
  unfold queueIndices queueLength
  exact queueWalk_eq _ _ hb _ _ hf (by omega)

theorem pendingSlots_eq_map_indices (c : Client)
    (hf : c.queueFront < c.clientConfig.replyQueueSize)
    (hb : c.queueBack < c.clientConfig.replyQueueSize) :
    pendingSlots c = (queueIndices c).map c.slot := by
  rw [queueIndices_eq c hf hb, List.map_map]
  rfl

theorem pendingSlots_cons (c : Client) (hf : c.queueFront < c.clientConfig.replyQueueSize)
    (hpos : 0 < queueLength c) :
    pendingSlots c = c.slot c.queueFront :: (pendingSlots c).tail := by
  unfold pendingSlots
  obtain ⟨n, hn⟩ : ∃ n, queueLength c = n + 1 := ⟨queueLength c - 1, by omega⟩
  rw [hn, List.range_succ_eq_map]
  simp [Nat.mod_eq_of_lt hf]

theorem pendingSlots_nil (c : Client) (h0 : queueLength c = 0) : pendingSlots c = [] := by
  simp [pendingSlots, h0]

/-- In a well-formed queue the pending slots are exactly the pending handlers. -/
theorem pendingSlots_eq_map_some (c : Client) (hwf : WellFormed c) :
    pendingSlots c = (pending c).map some := by
  obtain ⟨_, _, _, _, hnn⟩ := hwf
  have hall : ∀ s ∈ pendingSlots c, s ≠ none := by
    intro s hs
    simp only [pendingSlots, List.mem_map, List.mem_range] at hs
    obtain ⟨k, hk, rfl⟩ := hs
    exact hnn k hk
  unfold pending
  generalize pendingSlots c = l at hall
  induction l with
  | nil => rfl
  | cons a t ih =>
    cases a with
    | none => exact absurd rfl (hall none (List.mem_cons_self _ _))
    | some h =>
      simp only [List.filterMap_cons, id, List.map_cons]
      rw [← ih (fun s hs => hall s (List.mem_cons_of_mem _ hs))]

theorem pending_length (c : Client) (hwf : WellFormed c) :
    (pending c).length = queueLength c := by
  have h := congrArg List.length (pendingSlots_eq_map_some c hwf)
  rw [pendingSlots_length, List.length_map] at h
  exact h.symm


theorem filterMap_id_map_some (l : List ReplyHandler) :
    (l.map some).filterMap id = l := by
  induction l with
  | nil => rfl
  | cons a t ih => simp [List.filterMap_cons, ih]

/-- Moving `queueFront` one position on, the array being changed at most outside the
remaining slots, keeps the queue well formed and removes exactly its first handler. -/
theorem advance_spec (c : Client) (rq : List (Option ReplyHandler)) (hwf : WellFormed c)
    (hpos : 0 < queueLength c) (hlen : rq.length = c.clientConfig.replyQueueSize)
    (hrq : ∀ k, 0 < k → k < queueLength c →
      rq.getD ((c.queueFront + k) % c.clientConfig.replyQueueSize) none
        = c.replyQueue.getD ((c.queueFront + k) % c.clientConfig.replyQueueSize) none) :
    WellFormed { c with replyQueue := rq,
                        queueFront := (c.queueFront + 1) % c.clientConfig.replyQueueSize } ∧
    pending { c with replyQueue := rq,
                     queueFront := (c.queueFront + 1) % c.clientConfig.replyQueueSize }
      = (pending c).tail := by
  have hwf' := hwf
  obtain ⟨hsz, _, hf, hb, hnn⟩ := hwf
  constructor
  · refine ⟨hsz, hlen, Nat.mod_lt _ hsz, hb, ?_⟩
    intro k hk
    rw [queueLength_advance c rq hf hb hpos] at hk
    simp only [Client.slot, front_add_mod]
    rw [hrq (k + 1) (by omega) (by omega)]
    exact hnn (k + 1) (by omega)
  · have h1 := pendingSlots_advance c rq hf hb hpos hrq
    unfold pending
    rw [h1, pendingSlots_eq_map_some c hwf', ← List.map_tail, filterMap_id_map_some,
      filterMap_id_map_some]

theorem set_front_agrees (c : Client) (v : Option ReplyHandler)
    (hf : c.queueFront < c.clientConfig.replyQueueSize)
    (hb : c.queueBack < c.clientConfig.replyQueueSize) :
    ∀ k, 0 < k → k < queueLength c →
      (c.replyQueue.set c.queueFront v).getD
          ((c.queueFront + k) % c.clientConfig.replyQueueSize) none
        = c.replyQueue.getD ((c.queueFront + k) % c.clientConfig.replyQueueSize) none := by
  intro k hk0 hk
  have hl := queueLength_lt_size c hf hb
  have hne : c.queueFront ≠ (c.queueFront + k) % c.clientConfig.replyQueueSize := by
    intro heq
    have h0 : (c.queueFront + 0) % c.clientConfig.replyQueueSize
        = (c.queueFront + k) % c.clientConfig.replyQueueSize := by
      rw [Nat.add_zero, Nat.mod_eq_of_lt hf]; exact heq
    have := ring_index_inj _ _ _ _ (by omega) (by omega) h0
    omega
  simp [List.getD_eq_getElem?_getD, List.getElem?_set_ne hne]

/-- The front slot of a non-empty well-formed queue is the first pending handler. -/
theorem front_slot (c : Client) (hwf : WellFormed c) (hpos : 0 < queueLength c) :
    ∃ h, c.slot c.queueFront = some h ∧ pending c = h :: (pending c).tail := by
  have hwf' := hwf
  obtain ⟨hsz, _, hf, hb, hnn⟩ := hwf
  have h0 := hnn 0 hpos
  rw [Nat.add_zero, Nat.mod_eq_of_lt hf] at h0
  obtain ⟨h, hh⟩ := Option.ne_none_iff_exists'.mp h0
  refine ⟨h, hh, ?_⟩
  have h1 := pendingSlots_cons c hf hpos
  rw [hh] at h1
  unfold pending
  rw [h1]
  simp [List.filterMap_cons]

theorem dequeueReply_spec (c : Client) (hwf : WellFormed c) (hpos : 0 < queueLength c) :
    ∃ c', dequeueReply c = some c' ∧
      c' = { c with replyQueue := c.replyQueue.set c.queueFront none,
                    queueFront := (c.queueFront + 1) % c.clientConfig.replyQueueSize } ∧
      WellFormed c' ∧ pending c' = (pending c).tail := by
  obtain ⟨h, hh, _⟩ := front_slot c hwf hpos
  have hwf' := hwf
  obtain ⟨hsz, hlen, hf, hb, hnn⟩ := hwf
  have hsp := advance_spec c (c.replyQueue.set c.queueFront none) hwf' hpos
    (by simp [hlen]) (set_front_agrees c none hf hb)
  refine ⟨_, ?_, rfl, hsp.1, hsp.2⟩
  unfold dequeueReply
  rw [if_neg (by omega), hh]

theorem weedLoop_spec (now : Nat) :
    ∀ fuel (c : Client), WellFormed c → queueLength c < fuel →
      ∃ c', weedLoop now fuel c = some c' ∧
        c' = { c with queueFront := c'.queueFront } ∧
        WellFormed c' ∧
        pending c' = (pending c).dropWhile (weedReply c.clientConfig now) := by
  intro fuel
  induction fuel with
  | zero => intro c _ h; omega
  | succ fuel ih =>
    intro c hwf hfuel
    unfold weedLoop
    by_cases hpos : queueLength c > 0
    · rw [if_pos hpos]
      obtain ⟨h, hh, hp⟩ := front_slot c hwf hpos
      rw [hh]
      simp only
      have hwf' := hwf
      obtain ⟨hsz, hlen, hf, hb, hnn⟩ := hwf
      by_cases hw : weedReply c.clientConfig now h = true
      · rw [if_pos hw]
        have hsp := advance_spec c c.replyQueue hwf' hpos hlen (fun _ _ _ => rfl)
        have hlen' := queueLength_advance c c.replyQueue hf hb hpos
        obtain ⟨c', hc', hshape, hwfc', hpend⟩ := ih _ hsp.1 (by rw [hlen']; omega)
        refine ⟨c', hc', ?_, hwfc', ?_⟩
        · rw [hshape]
        · rw [hpend, hsp.2, hp, List.dropWhile_cons]
          simp [hw]
      · rw [if_neg hw]
        refine ⟨c, rfl, rfl, hwf', ?_⟩
        rw [hp, List.dropWhile_cons]
        simp [hw]
    · rw [if_neg hpos]
      refine ⟨c, rfl, rfl, hwf, ?_⟩
      have : pending c = [] := by
        unfold pending; rw [pendingSlots_nil c (by omega)]; rfl
      rw [this]; rfl


/-! ## Compaction -/

theorem keptReplies_eq (c : Client) (now : Nat) :
    ∀ (idxs : List Nat) (l : List ReplyHandler), idxs.map c.slot = l.map some →
      keptReplies c now idxs = some (l.filter (keepReply c.clientConfig now)) := by
  intro idxs
  induction idxs with
  | nil =>
    intro l hl
    cases l with
    | nil => rfl
    | cons a t => simp at hl
  | cons i rest ih =>
    intro l hl
    cases l with
    | nil => simp at hl
    | cons a t =>
      simp only [List.map_cons, List.cons.injEq] at hl
      unfold keptReplies
      rw [hl.1, ih t hl.2]
      by_cases hk : keepReply c.clientConfig now a = true
      · simp [List.filter_cons, hk]
      · simp [List.filter_cons, hk]

theorem clearSlots_length (idxs : List Nat) :
    ∀ q : List (Option ReplyHandler), (clearSlots q idxs).length = q.length := by
  induction idxs with
  | nil => intro q; rfl
  | cons i rest ih =>
    intro q
    simp only [clearSlots, List.foldl_cons] at ih ⊢
    rw [ih]; simp

theorem writeSlots_length (temp : List ReplyHandler) :
    ∀ (q : List (Option ReplyHandler)) (i : Nat), (writeSlots q i temp).length = q.length := by
  induction temp with
  | nil => intro q i; rfl
  | cons h t ih =>
    intro q i
    unfold writeSlots
    rw [ih]; simp

theorem writeSlots_getD (temp : List ReplyHandler) :
    ∀ (q : List (Option ReplyHandler)) (i k : Nat), i + temp.length ≤ q.length →
      i ≤ k → k < i + temp.length →
      (writeSlots q i temp).getD k none = (temp.map some).getD (k - i) none := by
  induction temp with
  | nil => intro q i k _ h1 h2; simp at h2; omega
  | cons h t ih =>
    intro q i k hlen h1 h2
    simp only [List.length_cons] at hlen h2
    unfold writeSlots
    by_cases hk : k = i
    · subst hk
      -- the later writes are all above index `k`
      have hkeep : ∀ (t : List ReplyHandler) (q : List (Option ReplyHandler)) (j : Nat),
          k < j → (writeSlots q j t).getD k none = q.getD k none := by
        intro t
        induction t with
        | nil => intro q j _; rfl
        | cons a t iht =>
          intro q j hj
          unfold writeSlots
          rw [iht _ _ (by omega)]
          simp [List.getD_eq_getElem?_getD, List.getElem?_set_ne (show j ≠ k by omega)]
      rw [hkeep t _ _ (by omega)]
      simp [List.getD_eq_getElem?_getD, show k < q.length by omega]
    · rw [ih _ _ _ (by simp; omega) (by omega) (by omega)]
      have : k - i = (k - (i + 1)) + 1 := by omega
      rw [this]
      simp [List.getD_eq_getElem?_getD]

theorem map_range_getD (l : List (Option ReplyHandler)) :
    (List.range l.length).map (fun k => l.getD k none) = l := by
  apply List.ext_getElem
  · simp
  · intro n h1 h2
    simp [List.getD_eq_getElem?_getD, List.getElem?_eq_getElem h2]

theorem compactQueue_spec (now : Nat) (c : Client) (hwf : WellFormed c) :
    ∃ c', compactQueue now c = some c' ∧ WellFormed c' ∧
      c'.clientConfig = c.clientConfig ∧
      pending c' = (pending c).filter (keepReply c.clientConfig now) ∧
      queueLength c' = ((pending c).filter (keepReply c.clientConfig now)).length := by
  have hwf' := hwf
  obtain ⟨hsz, hlen, hf, hb, hnn⟩ := hwf
  have hkept : keptReplies c now (queueIndices c)
      = some ((pending c).filter (keepReply c.clientConfig now)) := by
    apply keptReplies_eq
    rw [← pendingSlots_eq_map_indices c hf hb, pendingSlots_eq_map_some c hwf']
  have hle : ((pending c).filter (keepReply c.clientConfig now)).length
      < c.clientConfig.replyQueueSize := by
    have h1 := List.length_filter_le (keepReply c.clientConfig now) (pending c)
    have h2 := pending_length c hwf'
    have h3 := queueLength_lt_size c hf hb
    omega
  unfold compactQueue
  rw [hkept]
  simp only
  by_cases h0 : ((pending c).filter (keepReply c.clientConfig now)).length = 0
  · rw [if_pos h0]
    have hq0 : queueLength { c with
        replyQueue := clearSlots c.replyQueue (List.range c.clientConfig.replyQueueSize),
        queueFront := 0, queueBack := 0 } = 0 := by
      simp [queueLength]
    refine ⟨_, rfl, ⟨hsz, ?_, hsz, hsz, ?_⟩, rfl, ?_, ?_⟩
    · simp [clearSlots_length, hlen]
    · intro k hk; rw [hq0] at hk; omega
    · rw [List.length_eq_zero.mp h0]
      unfold pending
      rw [pendingSlots_nil _ hq0]; rfl
    · rw [hq0, h0]
  · rw [if_neg h0, if_neg (by omega)]
    generalize htemp : (pending c).filter (keepReply c.clientConfig now) = temp at *
    have hql : queueLength { c with
        replyQueue := writeSlots (clearSlots c.replyQueue (queueIndices c)) 0 temp,
        queueFront := 0, queueBack := temp.length } = temp.length := by
      simp [queueLength]
    have hslots : pendingSlots { c with
        replyQueue := writeSlots (clearSlots c.replyQueue (queueIndices c)) 0 temp,
        queueFront := 0, queueBack := temp.length } = temp.map some := by
      unfold pendingSlots
      rw [hql]
      have : ∀ k ∈ List.range temp.length,
          (fun k => Client.slot { c with
            replyQueue := writeSlots (clearSlots c.replyQueue (queueIndices c)) 0 temp,
            queueFront := 0, queueBack := temp.length }
            ((0 + k) % c.clientConfig.replyQueueSize)) k
          = (fun k => (temp.map some).getD k none) k := by
        intro k hk
        have hk' : k < temp.length := List.mem_range.mp hk
        simp only [Client.slot, Nat.zero_add]
        rw [Nat.mod_eq_of_lt (by omega),
          writeSlots_getD temp _ 0 k (by rw [clearSlots_length]; omega) (by omega) (by omega)]
        simp
      rw [List.map_congr_left this]
      have h2 := map_range_getD (temp.map some)
      rw [List.length_map] at h2
      exact h2
    refine ⟨_, rfl, ⟨hsz, ?_, hsz, hle, ?_⟩, rfl, ?_, hql⟩
    · simp [writeSlots_length, clearSlots_length, hlen]
    · intro k hk
      have hmem : (pendingSlots { c with
          replyQueue := writeSlots (clearSlots c.replyQueue (queueIndices c)) 0 temp,
          queueFront := 0, queueBack := temp.length })[k]? ≠ some none := by
        rw [hslots]; simp [List.getElem?_map]
      intro hnone
      apply hmem
      unfold pendingSlots
      rw [List.getElem?_map, List.getElem?_range hk]
      simp only [Option.map_some']
      rw [hnone]
    · unfold pending
      rw [hslots, filterMap_id_map_some]


/-! ## Claims about the queue -/

/-- C1 (fails on the code): in a queue of capacity 2, starting empty, two successive
`enqueueReply` calls of unsatisfied handlers both return true and both handlers are held
in the array, yet `queueLength()` is 0 instead of 2: with as many slots held as
`replyQueueSize` the cursors coincide and the queue reads as empty. -/
theorem queueLength_zero_on_full_queue :
    ∃ c1 c2,
      enqueueReply 0 (some (pingHandler 0)) (newClient (sampleConfig 2) sampleConsts)
        = some (true, c1) ∧
      enqueueReply 0 (some (patternsHandler 0)) c1 = some (true, c2) ∧
      c2.replyQueue = [some (pingHandler 0), some (patternsHandler 0)] ∧
      queueLength c1 = 1 ∧ queueLength c2 = 0 :=
  ⟨_, _, rfl, rfl, by decide, by decide, by decide⟩

/-- C2 (fails on the code): a queue of capacity 2 holds two pending handlers, neither
satisfied nor expired at time 0; `enqueueReply` of a third unsatisfied handler returns true
and stores it at index 0, over the oldest pending handler, which was never dequeued. -/
theorem enqueueReply_overwrites_full_queue :
    ∃ c2 c3,
      enqueueReplies 0 [some (pingHandler 0), some (patternsHandler 0)]
        (newClient (sampleConfig 2) sampleConsts) = some (true, c2) ∧
      c2.slot 0 = some (pingHandler 0) ∧
      weedReply c2.clientConfig 0 (pingHandler 0) = false ∧
      weedReply c2.clientConfig 0 (patternsHandler 0) = false ∧
      enqueueReply 0 (some (settingsHandler 0 false)) c2 = some (true, c3) ∧
      c3.replyQueue = [some (settingsHandler 0 false), some (patternsHandler 0)] :=
  ⟨_, _, rfl, by decide, by decide, by decide, rfl, by decide⟩

/-- C3 (fails on the code): `enqueueReplies` of a batch of three unsatisfied handlers on
the empty queue of capacity 3 returns true and stores the three handlers in order, but
`queueLength()` is 0 afterwards as it was before: it has not grown by 3. -/
theorem enqueueReplies_full_batch_length :
    ∃ c',
      enqueueReplies 0
        [some (settingsHandler 0 false), some (sequencerHandler 0 false),
          some (patternsHandler 0)]
        (newClient (sampleConfig 3) sampleConsts) = some (true, c') ∧
      c'.replyQueue = [some (settingsHandler 0 false), some (sequencerHandler 0 false),
        some (patternsHandler 0)] ∧
      queueLength (newClient (sampleConfig 3) sampleConsts) = 0 ∧
      queueLength c' = 0 :=
  ⟨_, rfl, by decide, by decide, by decide⟩

theorem storeReplies_filter (args : List (Option ReplyHandler)) :
    ∀ c : Client, storeReplies (args.filter wanted) c = storeReplies args c := by
  induction args with
  | nil => intro c; rfl
  | cons a rest ih =>
    intro c
    by_cases hw : wanted a = true
    · rw [List.filter_cons_of_pos hw]
      simp only [storeReplies, hw, if_true]
      exact ih _
    · rw [List.filter_cons_of_neg hw]
      simp only [storeReplies, hw]
      exact ih _

/-- The flag returned by `enqueueReplies` is determined by the number of wanted handlers of
the batch. -/
theorem enqueueReplies_flag (now : Nat) (c : Client) (args : List (Option ReplyHandler)) :
    (enqueueReplies now args c).map Prod.fst =
      if (args.filter wanted).length = 0 then some true
      else if c.clientConfig.replyQueueSize - queueLength c < (args.filter wanted).length then
        (compactQueue now c).map (fun c1 =>
          !decide (c1.clientConfig.replyQueueSize - queueLength c1 < (args.filter wanted).length))
      else some true := by
  unfold enqueueReplies
  by_cases h0 : args.length = 0
  · have : args = [] := List.length_eq_zero.mp h0
    subst this
    simp
  · rw [if_neg h0]
    simp only
    by_cases h1 : (args.filter wanted).length = 0
    · rw [if_pos h1, if_pos h1]; rfl
    · rw [if_neg h1, if_neg h1]
      by_cases h2 : c.clientConfig.replyQueueSize - queueLength c < (args.filter wanted).length
      · rw [if_pos h2, if_pos h2]
        cases compactQueue now c with
        | none => rfl
        | some c1 =>
          simp only [Option.map_some']
          by_cases h3 : c1.clientConfig.replyQueueSize - queueLength c1
              < (args.filter wanted).length
          · rw [if_pos h3]; simp [h3]
          · rw [if_neg h3]; simp [h3]
      · rw [if_neg h2, if_neg h2]; rfl

/-- C4: handlers already satisfied when passed to `enqueueReplies` are never stored and do
not count against capacity. (1) The call has the same result, flag and state, as the call
with only the non-null unsatisfied handlers of the batch. (2) The returned flag depends on
the batch only through the number of such handlers. (3) A batch of three handlers of which
exactly one is unsatisfied succeeds whenever `queueLength()` is below `replyQueueSize`.
(4) A batch without any non-null unsatisfied handler returns true and leaves the state
unchanged. -/
theorem enqueueReplies_ignores_satisfied (now : Nat) (c : Client) :
    (∀ args, enqueueReplies now args c = enqueueReplies now (args.filter wanted) c) ∧
    (∀ args1 args2, (args1.filter wanted).length = (args2.filter wanted).length →
      (enqueueReplies now args1 c).map Prod.fst = (enqueueReplies now args2 c).map Prod.fst) ∧
    (∀ h1 h2 h3 : ReplyHandler, ([some h1, some h2, some h3].filter wanted).length = 1 →
      queueLength c < c.clientConfig.replyQueueSize →
      ∃ c', enqueueReplies now [some h1, some h2, some h3] c = some (true, c')) ∧
    (∀ args, (∀ a ∈ args, wanted a = false) → enqueueReplies now args c = some (true, c)) := by
  refine ⟨?_, ?_, ?_, ?_⟩
  · intro args
    by_cases h1 : (args.filter wanted).length = 0
    · have hnil : args.filter wanted = [] := List.length_eq_zero.mp h1
      rw [hnil]
      unfold enqueueReplies
      by_cases h0 : args.length = 0
      · simp [h0]
      · simp [h0, hnil]
    · have h0 : args.length ≠ 0 := by
        intro h; apply h1
        rw [List.length_eq_zero.mp h]; rfl
      unfold enqueueReplies
      rw [if_neg h0, if_neg h1]
      simp only [List.filter_filter, Bool.and_self, if_neg h1, storeReplies_filter]
  · intro args1 args2 hcount
    rw [enqueueReplies_flag, enqueueReplies_flag, hcount]
  · intro h1 h2 h3 hone hfree
    unfold enqueueReplies
    simp only [List.length_cons, List.length_nil]
    rw [hone]
    rw [if_neg (by omega), if_neg (by omega), if_neg (by omega)]
    exact ⟨_, rfl⟩
  · intro args hall
    have hnil : args.filter wanted = [] := by
      rw [List.filter_eq_nil_iff]
      intro a ha; simp [hall a ha]
    unfold enqueueReplies
    by_cases h0 : args.length = 0
    · simp [h0]
    · simp [h0, hnil]

/-- Witness for C4: the batch of `getSettings` watching only the settings reply (the two
other handlers already satisfied), offered to a queue of capacity 2 that holds one
handler. -/
theorem enqueueReplies_ignores_satisfied_witness :
    ([some (settingsHandler 0 false), some (sequencerHandler 0 true),
        some (ReplyHandler.binary HANDLER_EXPANDER_CONF 2 0 true none "exp"
          BIN_TYPE_EXPANDER_CONFIG true)].filter wanted).length = 1 ∧
    queueLength (clientWith 2 [pingHandler 0]) < (clientWith 2 [pingHandler 0]).clientConfig.replyQueueSize ∧
    ∃ c', enqueueReplies 0
      [some (settingsHandler 0 false), some (sequencerHandler 0 true),
        some (ReplyHandler.binary HANDLER_EXPANDER_CONF 2 0 true none "exp"
          BIN_TYPE_EXPANDER_CONFIG true)] (clientWith 2 [pingHandler 0]) = some (true, c') :=
  ⟨by decide, by decide,
    (enqueueReplies_ignores_satisfied 0 (clientWith 2 [pingHandler 0])).2.2.1 _ _ _
      (by decide) (by decide)⟩


/-- C5: on a well-formed queue `weedExpiredReplies` at time `now` returns, and what it
removes is exactly the longest prefix of the pending handlers that are satisfied or expired
(`requestTsMs + maxResponseWaitMs < now` in 32 bit arithmetic): the removed handlers all
are, the first handler left (if any) is not, and nothing behind it is touched; neither the
array nor `queueBack` changes. For `[S1 expired, S2 live]` exactly `[S2]` is left, and for
`[S1 live, S2]` the queue is unchanged, expired `S2` included. -/
theorem weedExpiredReplies_removes_expired_prefix (now : Nat) (c : Client)
    (hwf : WellFormed c) :
    ∃ c', weedExpiredReplies now c = some c' ∧
      pending c' = (pending c).dropWhile (weedReply c.clientConfig now) ∧
      (∃ removed, pending c = removed ++ pending c' ∧
        ∀ h ∈ removed, weedReply c.clientConfig now h = true) ∧
      (∀ h rest, pending c' = h :: rest → weedReply c.clientConfig now h = false) ∧
      c'.replyQueue = c.replyQueue ∧ c'.queueBack = c.queueBack ∧
      (∀ s1 s2, pending c = [s1, s2] → weedReply c.clientConfig now s1 = true →
        weedReply c.clientConfig now s2 = false → pending c' = [s2]) ∧
      (∀ s1 s2, pending c = [s1, s2] → weedReply c.clientConfig now s1 = false →
        pending c' = [s1, s2]) := by
  obtain ⟨c', hc', hshape, _, hpend⟩ := weedLoop_spec now (queueLength c + 1) c hwf (by omega)
  refine ⟨c', hc', hpend, ⟨(pending c).takeWhile (weedReply c.clientConfig now), ?_, ?_⟩,
    ?_, ?_, ?_, ?_, ?_⟩
  · rw [hpend, List.takeWhile_append_dropWhile]
  · intro h hh
    exact List.mem_takeWhile_imp hh
  · intro h rest hcons
    rw [hpend] at hcons
    have := List.head_dropWhile_not (weedReply c.clientConfig now) (pending c)
      (by rw [hcons]; exact List.cons_ne_nil _ _)
    simpa [hcons] using this
  · rw [hshape]
  · rw [hshape]
  · intro s1 s2 hp h1 h2
    rw [hpend, hp]
    simp [List.dropWhile_cons, h1, h2]
  · intro s1 s2 hp h1
    rw [hpend, hp]
    simp [List.dropWhile_cons, h1]

/-- Witness for C5: capacity 3, an expired ping issued at 0 in front of a live one issued
at 5000, weeded at time 6000. -/
theorem weedExpiredReplies_removes_expired_prefix_witness :
    WellFormed (clientWith 3 [pingHandler 0, pingHandler 5000]) ∧
    ∃ c', weedExpiredReplies 6000 (clientWith 3 [pingHandler 0, pingHandler 5000]) = some c' ∧
      pending c' = [pingHandler 5000] := by
  refine ⟨by decide, ?_⟩
  obtain ⟨c', h1, h2, _⟩ := weedExpiredReplies_removes_expired_prefix 6000
    (clientWith 3 [pingHandler 0, pingHandler 5000]) (by decide)
  refine ⟨c', h1, ?_⟩
  rw [h2]
  decide

theorem contents_setFile (b : PixelblazeBuffer) (bufferId : String) (bytes : List Nat) :
    (b.setFile bufferId bytes).contents bufferId = some bytes := by
  simp [PixelblazeBuffer.setFile, PixelblazeBuffer.contents, List.lookup]

theorem setFile_setFile (b : PixelblazeBuffer) (bufferId : String) (x y : List Nat) :
    (b.setFile bufferId x).setFile bufferId y = b.setFile bufferId y := by
  simp [PixelblazeBuffer.setFile, List.filter_cons, List.filter_filter]

theorem contents_deleteStreamResults (b : PixelblazeBuffer) (bufferId : String) :
    (b.deleteStreamResults bufferId).contents bufferId = none := by
  unfold PixelblazeBuffer.deleteStreamResults PixelblazeBuffer.contents
  simp only
  induction b.files with
  | nil => rfl
  | cons f rest ih =>
    by_cases hf : f.1 = bufferId
    · simp [List.filter_cons, hf, ih]
    · have hne : (bufferId == f.1) = false := by
        simp; exact fun h => hf h.symm
      simp [List.filter_cons, hf, List.lookup, hne, ih]

theorem copyLoop_ok (bufferId : String) :
    ∀ (fuel : Nat) (c : Client) (b0 : PixelblazeBuffer) (x : List Nat),
      c.binaryBuffer = b0.setFile bufferId x → b0.writeLimits = [] →
      c.wsClient.readLimits = [] → 0 < c.clientConfig.binaryBufferBytes →
      c.wsClient.body.length < fuel →
      copyLoop bufferId fuel c.wsClient.body.length c
        = some (true, { c with
            wsClient := { body := [], readLimits := [] }
            binaryBuffer := b0.setFile bufferId (x ++ c.wsClient.body) }) := by
  intro fuel
  induction fuel with
  | zero => intro c b0 x _ _ _ _ h; omega
  | succ fuel ih =>
    intro c b0 x hb hw hr hbuf hfuel
    unfold copyLoop
    by_cases hpos : c.wsClient.body.length > 0
    · rw [if_pos hpos]
      have hwl : c.binaryBuffer.writeLimits = [] := by rw [hb]; exact hw
      simp only [WebSocketClient.readBytes, hr, PixelblazeBuffer.write, hwl, List.tail_nil,
        List.take_length, ne_eq, not_true_eq_false, if_false]
      have hm : 0 < min c.clientConfig.binaryBufferBytes c.wsClient.body.length :=
        Nat.lt_min.mpr ⟨hbuf, hpos⟩
      have hstore : ({ c.binaryBuffer with writeLimits := [] } : PixelblazeBuffer)
          = c.binaryBuffer := by
        cases hcb : c.binaryBuffer with
        | mk f o w g => rw [hcb] at hwl; simp at hwl; simp [hwl]
      rw [hstore, hb, contents_setFile, Option.getD_some, setFile_setFile]
      have hlen : c.wsClient.body.length
          - (List.take (min c.clientConfig.binaryBufferBytes c.wsClient.body.length)
              c.wsClient.body).length
          = (List.drop (min c.clientConfig.binaryBufferBytes c.wsClient.body.length)
              c.wsClient.body).length := by
        simp [List.length_take, List.length_drop]
      rw [hlen]
      have := ih { c with
          wsClient := { body := List.drop (min c.clientConfig.binaryBufferBytes
              c.wsClient.body.length) c.wsClient.body, readLimits := [] }
          binaryBuffer := b0.setFile bufferId (x ++ List.take
            (min c.clientConfig.binaryBufferBytes c.wsClient.body.length) c.wsClient.body) }
        b0 _ rfl hw rfl hbuf (by simp only [List.length_drop]; omega)
      simp only [List.append_assoc, List.take_append_drop] at this
      exact this
    · rw [if_neg hpos]
      have hnil : c.wsClient.body = [] := List.length_eq_zero.mp (by omega)
      have hws : c.wsClient = { body := [], readLimits := [] } := by
        cases hcw : c.wsClient with
        | mk bd rl => rw [hcw] at hnil hr; simp at hnil hr; simp [hnil, hr]
      rw [hnil, List.append_nil, ← hb, ← hws]

theorem readBinaryToStream_ok (bufferId : String) (append : Bool) (c : Client)
    (ho : c.binaryBuffer.openFailures = []) (hw : c.binaryBuffer.writeLimits = [])
    (hr : c.wsClient.readLimits = []) (hbuf : 0 < c.clientConfig.binaryBufferBytes) :
    readBinaryToStream bufferId append c
      = some (true, { c with
          wsClient := { body := [], readLimits := [] }
          binaryBuffer := c.binaryBuffer.setFile bufferId
            ((if append then (c.binaryBuffer.contents bufferId).getD [] else [])
              ++ c.wsClient.body) }) := by
  have hstore : ({ c.binaryBuffer with openFailures := [] } : PixelblazeBuffer)
      = c.binaryBuffer := by
    cases hcb : c.binaryBuffer with
    | mk f o w g => rw [hcb] at ho; simp at ho; simp [ho]
  unfold readBinaryToStream
  simp only [PixelblazeBuffer.makeWriteStream, ho, List.headD_nil, List.tail_nil, hstore,
    Bool.false_eq_true, if_false, Bool.not_true, Bool.not_false]
  cases append with
  | true =>
    simp only [if_true]
    have := copyLoop_ok bufferId (c.wsClient.body.length + c.wsClient.readLimits.length + 1)
      { c with binaryBuffer := (c.binaryBuffer.setFile bufferId
          ((c.binaryBuffer.contents bufferId).getD [])) }
      c.binaryBuffer _ rfl hw hr hbuf (by simp only; omega)
    simpa [WebSocketClient.available] using this
  | false =>
    simp only [Bool.false_eq_true, if_false]
    have := copyLoop_ok bufferId (c.wsClient.body.length + c.wsClient.readLimits.length + 1)
      { c with binaryBuffer := c.binaryBuffer.setFile bufferId [] }
      c.binaryBuffer _ rfl hw hr hbuf (by simp only; omega)
    simpa [WebSocketClient.available] using this


/-! ## Frames of a reassembly -/

theorem flagSet_byte (flag mask : Nat) :
    flagSet (flag : Int) mask = decide (flag &&& mask ≠ 0) := by
  unfold flagSet
  rw [if_neg (by omega)]
  simp

theorem seekFrames_append (l1 l2 : List (Nat × Nat × List Nat)) :
    ∀ c : Client, seekFrames (l1 ++ l2) c = (seekFrames l1 c).bind (seekFrames l2) := by
  induction l1 with
  | nil => intro c; rfl
  | cons f rest ih =>
    intro c
    obtain ⟨t, fl, p⟩ := f
    simp only [List.cons_append, seekFrames]
    cases seekingBinaryHasBinary (withFrame t fl p c) with
    | none => rfl
    | some c1 => exact ih c1

/-- A frame of the expected type whose flag has the `FRAME_FIRST` bit set and fails the
test `frameFlag & FRAME_FIRST & FRAME_LAST`, no reassembly being in progress: the payload
becomes the content of the buffer and the reassembly starts; nothing is dispatched or
dequeued. -/
theorem seek_first_frame (c : Client) (h : ReplyHandler) (T flag : Nat) (bufferId : String)
    (p : List Nat) (hslot : c.slot c.queueFront = some h) (hbin : h.binType? = some (T : Int))
    (hid : h.bufferId? = some bufferId) (hno : c.binaryReadType < 0)
    (hF : flag &&& c.consts.FRAME_FIRST ≠ 0)
    (hFL : flag &&& (c.consts.FRAME_FIRST &&& c.consts.FRAME_LAST) = 0)
    (ho : c.binaryBuffer.openFailures = []) (hw : c.binaryBuffer.writeLimits = [])
    (hr : c.wsClient.readLimits = []) (hbuf : 0 < c.clientConfig.binaryBufferBytes) :
    seekingBinaryHasBinary (withFrame T flag p c)
      = some { c with
          binaryReadType := (T : Int)
          wsClient := { body := [], readLimits := [] }
          binaryBuffer := c.binaryBuffer.setFile bufferId p } := by
  have hT : ¬ ((T : Int) < 0) := by omega
  have h1 := readBinaryToStream_ok bufferId false
    { c with wsClient := { body := p, readLimits := c.wsClient.readLimits } } ho hw hr hbuf
  unfold seekingBinaryHasBinary
  simp only [withFrame, WebSocketClient.read, Client.slot] at *
  simp only [hslot, hT, if_false, hno, if_true, hbin, hid, flagSet_byte, hFL,
    ne_eq, not_true_eq_false, decide_False, Bool.false_eq_true,
    hF, not_false_eq_true, decide_True, h1, Bool.not_true, List.nil_append]

/-- Two distinct single-bit flags have no bit in common, so no flag byte passes the test
`frameFlag & FRAME_FIRST & FRAME_LAST` when `FRAME_FIRST` and `FRAME_LAST` are such. -/
theorem flagSet_first_and_last (frameFlag : Int) (a b : Nat) (hab : a ≠ b) :
    flagSet frameFlag (2 ^ a &&& 2 ^ b) = false := by
  have h0 : 2 ^ a &&& 2 ^ b = 0 := by
    apply Nat.eq_of_testBit_eq
    intro i
    rw [Nat.testBit_and, Nat.testBit_two_pow, Nat.testBit_two_pow, Nat.zero_testBit]
    by_cases h1 : a = i
    · have h2 : ¬ b = i := fun h => hab (h1.trans h.symm)
      simp [h1, h2]
    · simp [h1]
  unfold flagSet
  rw [h0]
  simp

/-- A frame of the active type with flag `FRAME_MIDDLE`: the payload is appended. -/
theorem seek_middle_frame (c : Client) (h : ReplyHandler) (T : Nat) (bufferId : String)
    (p : List Nat) (hslot : c.slot c.queueFront = some h)
    (hid : h.bufferId? = some bufferId) (hT : c.binaryReadType = (T : Int))
    (hM : c.consts.FRAME_MIDDLE ≠ 0) (hML : c.consts.FRAME_MIDDLE &&& c.consts.FRAME_LAST = 0)
    (ho : c.binaryBuffer.openFailures = []) (hw : c.binaryBuffer.writeLimits = [])
    (hr : c.wsClient.readLimits = []) (hbuf : 0 < c.clientConfig.binaryBufferBytes) :
    seekingBinaryHasBinary (withFrame T c.consts.FRAME_MIDDLE p c)
      = some { c with
          wsClient := { body := [], readLimits := [] }
          binaryBuffer := c.binaryBuffer.setFile bufferId
            ((c.binaryBuffer.contents bufferId).getD [] ++ p) } := by
  have hT0 : ¬ ((T : Int) < 0) := by omega
  have h1 := readBinaryToStream_ok bufferId true
    { c with wsClient := { body := p, readLimits := c.wsClient.readLimits } } ho hw hr hbuf
  unfold seekingBinaryHasBinary
  simp only [withFrame, WebSocketClient.read, Client.slot] at *
  simp only [hT, if_true] at h1
  simp only [hslot, hT, hT0, if_false, if_true, hid, flagSet_byte, hML,
    ne_eq, not_true_eq_false, decide_False, Bool.false_eq_true, Nat.and_self,
    hM, not_false_eq_true, decide_True, h1, Bool.not_true]

/-- A frame of the active type with flag `FRAME_LAST`: the payload is appended and the
reply is completed on the resulting buffer. -/
theorem seek_last_frame (c : Client) (h : ReplyHandler) (T : Nat) (bufferId : String)
    (p : List Nat) (hslot : c.slot c.queueFront = some h)
    (hid : h.bufferId? = some bufferId) (hT : c.binaryReadType = (T : Int))
    (hL : c.consts.FRAME_LAST ≠ 0)
    (ho : c.binaryBuffer.openFailures = []) (hw : c.binaryBuffer.writeLimits = [])
    (hr : c.wsClient.readLimits = []) (hbuf : 0 < c.clientConfig.binaryBufferBytes) :
    seekingBinaryHasBinary (withFrame T c.consts.FRAME_LAST p c)
      = (dispatchBinaryReply h { c with
            wsClient := { body := [], readLimits := [] }
            binaryBuffer := c.binaryBuffer.setFile bufferId
              ((c.binaryBuffer.contents bufferId).getD [] ++ p) }).bind
          (fun c2 => dequeueReply
            (if h.shouldDeleteBuffer then
              { c2 with binaryBuffer := c2.binaryBuffer.deleteStreamResults bufferId }
            else c2)) := by
  have hT0 : ¬ ((T : Int) < 0) := by omega
  have h1 := readBinaryToStream_ok bufferId true
    { c with wsClient := { body := p, readLimits := c.wsClient.readLimits } } ho hw hr hbuf
  unfold seekingBinaryHasBinary
  simp only [withFrame, WebSocketClient.read, Client.slot] at *
  simp only [hT, if_true] at h1
  simp only [hslot, hT, hT0, if_false, if_true, hid, flagSet_byte,
    ne_eq, Nat.and_self, hL, not_false_eq_true, decide_True, completeReply, h1]
  cases dispatchBinaryReply h _ with
  | none => rfl
  | some c2 => rfl


/-- A frame of the active type whose flag has neither the `FRAME_LAST` nor the
`FRAME_MIDDLE` bit: the type and flag bytes are consumed and nothing else changes. -/
theorem seek_unexpected_flag (c : Client) (T flag : Nat) (p : List Nat)
    (hT : c.binaryReadType = (T : Int))
    (hL : flag &&& c.consts.FRAME_LAST = 0) (hM : flag &&& c.consts.FRAME_MIDDLE = 0) :
    seekingBinaryHasBinary (withFrame T flag p c)
      = some { c with wsClient := { c.wsClient with body := p } } := by
  have hT0 : ¬ ((T : Int) < 0) := by omega
  unfold seekingBinaryHasBinary
  simp only [withFrame, WebSocketClient.read, hT, hT0, if_false, if_true, flagSet_byte, hL, hM,
    ne_eq, not_true_eq_false, decide_False, Bool.false_eq_true]

/-- A run of `FRAME_MIDDLE` frames of the active type appends their payloads in order. -/
theorem seek_middle_frames (h : ReplyHandler) (T : Nat) (bufferId : String) :
    ∀ (ps : List (List Nat)) (c : Client) (b0 : PixelblazeBuffer) (acc : List Nat),
      c.slot c.queueFront = some h → h.bufferId? = some bufferId →
      c.binaryReadType = (T : Int) →
      c.consts.FRAME_MIDDLE ≠ 0 → c.consts.FRAME_MIDDLE &&& c.consts.FRAME_LAST = 0 →
      c.binaryBuffer = b0.setFile bufferId acc →
      b0.openFailures = [] → b0.writeLimits = [] →
      c.wsClient = { body := [], readLimits := [] } → 0 < c.clientConfig.binaryBufferBytes →
      seekFrames (ps.map (fun p => (T, c.consts.FRAME_MIDDLE, p))) c
        = some { c with binaryBuffer := b0.setFile bufferId (acc ++ ps.flatten) } := by
  intro ps
  induction ps with
  | nil =>
    intro c b0 acc _ _ _ _ _ hb _ _ _ _
    simp only [List.map_nil, seekFrames, List.flatten_nil, List.append_nil, ← hb]
  | cons p rest ih =>
    intro c b0 acc hslot hid hT hM hML hb ho hw hws hbuf
    have hstep := seek_middle_frame c h T bufferId p hslot hid hT hM hML
      (by rw [hb]; exact ho) (by rw [hb]; exact hw) (by rw [hws]) hbuf
    simp only [List.map_cons, seekFrames, hstep]
    rw [hb, contents_setFile, Option.getD_some, setFile_setFile]
    have := ih { c with
        wsClient := { body := [], readLimits := [] }
        binaryBuffer := b0.setFile bufferId (acc ++ p) } b0 (acc ++ p)
      hslot hid hT hM hML rfl ho hw rfl hbuf
    simp only [List.flatten_cons, ← List.append_assoc]
    rw [this]
    simp only [hws]

/-- Multi-frame reassembly started while no reassembly is in progress. The front slot
holds a binary handler `h` expecting type `T` with buffer `bufferId`, `binaryReadType` is
negative, the three frame flags are
non-zero with `FIRST & LAST = 0` and `MIDDLE & LAST = 0` (as for distinct single bits), and
every stream operation succeeds (no open failure, no short write, no short read, a copy
buffer of at least one byte). Then handling the frames FIRST, MIDDLE, ..., MIDDLE, LAST of
type `T` dispatches the reply of `h` in a state `cd` in which the buffer `bufferId` holds
exactly the payloads concatenated in arrival order, whatever it held before, and then
deletes the buffer if the handler asks for it and dequeues. For a `RawBinaryHandler` in a
well-formed queue the run ends with `handle` having received exactly those bytes and the
slot removed. -/
theorem multi_frame_reassembly (c : Client) (h : ReplyHandler) (T : Nat) (bufferId : String)
    (first : List Nat) (middles : List (List Nat)) (last : List Nat)
    (hslot : c.slot c.queueFront = some h) (hbin : h.binType? = some (T : Int))
    (hid : h.bufferId? = some bufferId) (hno : c.binaryReadType < 0)
    (hF : c.consts.FRAME_FIRST ≠ 0) (hM : c.consts.FRAME_MIDDLE ≠ 0)
    (hL : c.consts.FRAME_LAST ≠ 0)
    (hFL : c.consts.FRAME_FIRST &&& c.consts.FRAME_LAST = 0)
    (hML : c.consts.FRAME_MIDDLE &&& c.consts.FRAME_LAST = 0)
    (ho : c.binaryBuffer.openFailures = []) (hw : c.binaryBuffer.writeLimits = [])
    (hr : c.wsClient.readLimits = []) (hbuf : 0 < c.clientConfig.binaryBufferBytes) :
    ∃ cd : Client,
      cd.binaryBuffer.contents bufferId = some (first ++ middles.flatten ++ last) ∧
      cd.events = c.events ∧ cd.replyQueue = c.replyQueue ∧
      cd.queueFront = c.queueFront ∧ cd.queueBack = c.queueBack ∧
      seekFrames ((T, c.consts.FRAME_FIRST, first)
          :: middles.map (fun p => (T, c.consts.FRAME_MIDDLE, p))
          ++ [(T, c.consts.FRAME_LAST, last)]) c
        = (dispatchBinaryReply h cd).bind (fun c2 => dequeueReply
            (if h.shouldDeleteBuffer then
              { c2 with binaryBuffer := c2.binaryBuffer.deleteStreamResults bufferId }
            else c2)) ∧
      (h.replyType = HANDLER_RAW_BINARY → WellFormed c → 0 < queueLength c →
        ∃ c', seekFrames ((T, c.consts.FRAME_FIRST, first)
            :: middles.map (fun p => (T, c.consts.FRAME_MIDDLE, p))
            ++ [(T, c.consts.FRAME_LAST, last)]) c = some c' ∧
          c'.events = c.events ++ [Event.rawBinary (first ++ middles.flatten ++ last)] ∧
          pending c' = (pending c).tail) := by
  have h1 := seek_first_frame c h T c.consts.FRAME_FIRST bufferId first hslot hbin hid hno
    (by rw [Nat.and_self]; exact hF) (by rw [hFL, Nat.and_zero]) ho hw hr hbuf
  have h2 := seek_middle_frames h T bufferId middles
    { c with
      binaryReadType := (T : Int)
      wsClient := { body := [], readLimits := [] }
      binaryBuffer := c.binaryBuffer.setFile bufferId first }
    c.binaryBuffer first hslot hid rfl hM hML rfl ho hw rfl hbuf
  have h3 := seek_last_frame
    { c with
      binaryReadType := (T : Int)
      wsClient := { body := [], readLimits := [] }
      binaryBuffer := c.binaryBuffer.setFile bufferId (first ++ middles.flatten) }
    h T bufferId last hslot hid rfl hL
    (by simp [PixelblazeBuffer.setFile, ho]) (by simp [PixelblazeBuffer.setFile, hw]) rfl hbuf
  simp only [contents_setFile, Option.getD_some, setFile_setFile] at h3
  have hrun : seekFrames ((T, c.consts.FRAME_FIRST, first)
      :: middles.map (fun p => (T, c.consts.FRAME_MIDDLE, p))
      ++ [(T, c.consts.FRAME_LAST, last)]) c
      = (dispatchBinaryReply h { c with
            binaryReadType := (T : Int)
            wsClient := { body := [], readLimits := [] }
            binaryBuffer := c.binaryBuffer.setFile bufferId
              (first ++ middles.flatten ++ last) }).bind
          (fun c2 => dequeueReply
            (if h.shouldDeleteBuffer then
              { c2 with binaryBuffer := c2.binaryBuffer.deleteStreamResults bufferId }
            else c2)) := by
    simp only at h2
    have hone : ∀ (f : Nat × Nat × List Nat) (c0 : Client),
        seekFrames [f] c0 = seekingBinaryHasBinary (withFrame f.1 f.2.1 f.2.2 c0) := by
      intro f c0
      obtain ⟨t, fl, p⟩ := f
      simp only [seekFrames]
      cases seekingBinaryHasBinary (withFrame t fl p c0) with
      | none => rfl
      | some c1 => rfl
    have hsplit : ((T, c.consts.FRAME_FIRST, first)
        :: middles.map (fun p => (T, c.consts.FRAME_MIDDLE, p))
        ++ [(T, c.consts.FRAME_LAST, last)])
        = [(T, c.consts.FRAME_FIRST, first)]
          ++ (middles.map (fun p => (T, c.consts.FRAME_MIDDLE, p))
            ++ [(T, c.consts.FRAME_LAST, last)]) := rfl
    rw [hsplit, seekFrames_append, hone, h1]
    simp only [Option.bind]
    rw [seekFrames_append, h2]
    simp only [Option.bind]
    rw [hone]
    exact h3
  refine ⟨{ c with
      binaryReadType := (T : Int)
      wsClient := { body := [], readLimits := [] }
      binaryBuffer := c.binaryBuffer.setFile bufferId (first ++ middles.flatten ++ last) },
    contents_setFile _ _ _, rfl, rfl, rfl, rfl, hrun, ?_⟩
  intro hraw hwf hpos
  rw [hrun]
  cases h with
  | text _ _ _ _ _ => simp [ReplyHandler.bufferId?] at hid
  | sync _ _ _ _ => simp [ReplyHandler.bufferId?] at hid
  | binary rt f ts s o b t cl =>
    simp only [ReplyHandler.bufferId?, Option.some.injEq] at hid
    simp only [ReplyHandler.replyType] at hraw
    subst hid hraw
    simp only [dispatchBinaryReply, ReplyHandler.bufferId?, PixelblazeBuffer.makeReadStream,
      contents_setFile, ReplyHandler.replyType, if_true, Option.bind, ReplyHandler.shouldDeleteBuffer]
    cases cl with
    | true =>
      simp only [if_true]
      obtain ⟨c', hc', hshape, _, hp⟩ := dequeueReply_spec
        { c with
          binaryReadType := (T : Int)
          wsClient := { body := [], readLimits := [] }
          binaryBuffer := (c.binaryBuffer.setFile b
            (first ++ middles.flatten ++ last)).deleteStreamResults b
          events := c.events ++ [Event.rawBinary (first ++ middles.flatten ++ last)] }
        hwf hpos
      exact ⟨c', hc', by rw [hshape], hp⟩
    | false =>
      simp only [Bool.false_eq_true, if_false]
      obtain ⟨c', hc', hshape, _, hp⟩ := dequeueReply_spec
        { c with
          binaryReadType := (T : Int)
          wsClient := { body := [], readLimits := [] }
          binaryBuffer := c.binaryBuffer.setFile b (first ++ middles.flatten ++ last)
          events := c.events ++ [Event.rawBinary (first ++ middles.flatten ++ last)] }
        hwf hpos
      exact ⟨c', hc', by rw [hshape], hp⟩


/-- An instance of `multi_frame_reassembly`: a raw binary handler for type 7 at the front
of a fresh queue of capacity 3,
the copy buffer being 2 bytes; frames FIRST `[1,2,3]`, MIDDLE `[4]`, MIDDLE `[5,6]`,
LAST `[7]`. -/
theorem multi_frame_reassembly_witness :
    WellFormed (clientWith 3 [rawBinaryHandler 0 7, pingHandler 0]) ∧
    ∃ c', seekFrames [(7, 1, [1, 2, 3]), (7, 2, [4]), (7, 2, [5, 6]), (7, 4, [7])]
        (clientWith 3 [rawBinaryHandler 0 7, pingHandler 0]) = some c' ∧
      c'.events = [Event.rawBinary [1, 2, 3, 4, 5, 6, 7]] ∧
      pending c' = [pingHandler 0] := by
  refine ⟨by decide, ?_⟩
  obtain ⟨_, _, _, _, _, _, _, hraw⟩ := multi_frame_reassembly
    (clientWith 3 [rawBinaryHandler 0 7, pingHandler 0]) (rawBinaryHandler 0 7) 7 "raw"
    [1, 2, 3] [[4], [5, 6]] [7] (by decide) (by decide) (by decide) (by decide) (by decide)
    (by decide) (by decide) (by decide) (by decide) (by decide) (by decide) (by decide)
    (by decide)
  obtain ⟨c', h1, h2, h3⟩ := hraw (by decide) (by decide) (by decide)
  exact ⟨c', h1, h2, by rw [h3]; decide⟩

/-- C7 (fails on the code): the test `frameFlag & FRAME_FIRST & FRAME_LAST` that guards
the single-frame branch is false for every flag byte whenever `FRAME_FIRST` and
`FRAME_LAST` are distinct single bits. Accordingly, with `FIRST = 1`, `LAST = 4`, no
reassembly in progress and a raw binary handler for type 7 at the front, a frame of type 7
with flag `FIRST | LAST = 5` and any payload is streamed into the buffer with
`append = false`, but the reply is not dispatched, the slot is not dequeued and a
reassembly of type 7 is left in progress: the frame is handled as a FIRST frame. -/
theorem lone_frame_starts_reassembly :
    (∀ (frameFlag : Int) (a b : Nat), a ≠ b → flagSet frameFlag (2 ^ a &&& 2 ^ b) = false) ∧
    ∀ payload : List Nat,
      ∃ c', seekingBinaryHasBinary
          (withFrame 7 5 payload (clientWith 3 [rawBinaryHandler 0 7])) = some c' ∧
        c'.binaryBuffer.contents "raw" = some payload ∧
        c'.events = [] ∧
        pending c' = [rawBinaryHandler 0 7] ∧
        c'.binaryReadType = 7 := by
  refine ⟨flagSet_first_and_last, ?_⟩
  intro payload
  have h := seek_first_frame (clientWith 3 [rawBinaryHandler 0 7]) (rawBinaryHandler 0 7) 7 5
    "raw" payload (by decide) (by decide) (by decide) (by decide) (by decide) (by decide)
    (by decide) (by decide) (by decide) (by decide)
  have hp : pending (clientWith 3 [rawBinaryHandler 0 7]) = [rawBinaryHandler 0 7] := by
    decide
  exact ⟨_, h, contents_setFile _ _ _, rfl, hp, rfl⟩

/-- C9 (fails on the code): a reassembly of type 7 is in progress for the raw binary
handler at the front, `[1, 2]` being buffered; a frame of type 7 with flag `LAST = 4` and
any payload is appended, the reply is dispatched with the whole content and the slot is
dequeued, but `binaryReadType` is still 7 afterwards, not cleared. The first frame of the
next message (type 7, flag `FIRST = 1`), meant for the pattern-list handler now at the
front, is therefore not taken as the start of a fresh message: it is dropped, nothing
being written to the handler's buffer. -/
theorem last_frame_keeps_reassembly_state :
    ∀ payload : List Nat,
      ∃ c', seekingBinaryHasBinary (withFrame 7 4 payload
          (reassembling (clientWith 3 [rawBinaryHandler 0 7, patternsHandler 0]) 7 "raw"
            [1, 2])) = some c' ∧
        c'.events = [Event.rawBinary ([1, 2] ++ payload)] ∧
        pending c' = [patternsHandler 0] ∧
        c'.binaryReadType = 7 ∧
        ∀ next : List Nat,
          seekingBinaryHasBinary (withFrame 7 1 next c')
            = some { c' with wsClient := { c'.wsClient with body := next } } := by
  intro payload
  have h : seekingBinaryHasBinary (withFrame 7 4 payload
      (reassembling (clientWith 3 [rawBinaryHandler 0 7, patternsHandler 0]) 7 "raw" [1, 2]))
      = _ := seek_last_frame
    (reassembling (clientWith 3 [rawBinaryHandler 0 7, patternsHandler 0]) 7 "raw" [1, 2])
    (rawBinaryHandler 0 7) 7 "raw" payload (by decide) (by decide) (by decide) (by decide)
    (by decide) (by decide) (by decide) (by decide)
  rw [h]
  simp only [reassembling, contents_setFile, Option.getD_some, setFile_setFile,
    dispatchBinaryReply, rawBinaryHandler, ReplyHandler.bufferId?,
    PixelblazeBuffer.makeReadStream, ReplyHandler.replyType, if_true, Option.bind,
    ReplyHandler.shouldDeleteBuffer]
  refine ⟨_, rfl, rfl, rfl, rfl, ?_⟩
  intro next
  exact seek_unexpected_flag _ 7 1 next rfl (show (1 &&& 4 : Nat) = 0 by decide)
    (show (1 &&& 2 : Nat) = 0 by decide)

/-- C10: while a reassembly is in progress (`binaryReadType ≥ 0`) in a well-formed,
non-empty queue whose front slot is a binary handler with buffer `bufferId`, a binary frame
whose type differs from the active type and is neither a preview frame (5) nor an expander
configuration (9), the two types `handleUnrequestedBinary` handles, aborts the reassembly:
the stored result of `bufferId` is deleted, the front slot is dequeued, no callback is
invoked, `binaryReadType` becomes -1, and the other pending handlers are unchanged. -/
theorem incompatible_frame_aborts_reassembly (c : Client) (h : ReplyHandler)
    (bufferId : String) (frameType : Nat) (rest : List Nat)
    (hwf : WellFormed c) (hpos : 0 < queueLength c)
    (hslot : c.slot c.queueFront = some h) (hid : h.bufferId? = some bufferId)
    (hT : 0 ≤ c.binaryReadType) (hbody : c.wsClient.body = frameType :: rest)
    (hne : (frameType : Int) ≠ c.binaryReadType)
    (h5 : (frameType : Int) ≠ BIN_TYPE_PREVIEW_FRAME)
    (h9 : (frameType : Int) ≠ BIN_TYPE_EXPANDER_CONFIG) :
    ∃ c', seekingBinaryHasBinary c = some c' ∧
      c'.binaryReadType = -1 ∧
      c'.binaryBuffer = c.binaryBuffer.deleteStreamResults bufferId ∧
      c'.binaryBuffer.contents bufferId = none ∧
      c'.events = c.events ∧
      pending c = h :: pending c' := by
  have hT0 : ¬ ((frameType : Int) < 0) := by omega
  have hT1 : ¬ (c.binaryReadType < 0) := by omega
  obtain ⟨c1, hc1, hshape, _, hp⟩ := dequeueReply_spec
    { c with
      wsClient := { body := rest, readLimits := c.wsClient.readLimits }
      binaryBuffer := c.binaryBuffer.deleteStreamResults bufferId } hwf hpos
  obtain ⟨h', hh', hcons⟩ := front_slot c hwf hpos
  rw [hslot] at hh'
  cases hh'
  refine ⟨{ c1 with binaryReadType := -1 }, ?_, rfl, by rw [hshape],
    by rw [hshape]; exact contents_deleteStreamResults _ _, by rw [hshape], ?_⟩
  · unfold seekingBinaryHasBinary
    simp only [WebSocketClient.read, hbody, hT0, hT1, if_false, hne, handleUnrequestedBinary,
      h5, h9, Bool.not_false, if_true, hslot, hid, abandonReply]
    rw [hc1]
  · have : pending { c1 with binaryReadType := -1 } = pending c1 := rfl
    rw [this, hp]
    exact hcons

/-- Witness for C10: a reassembly of type 7 is in progress for the handler at the front,
a ping handler waits behind it, and a frame of type 8 arrives. -/
theorem incompatible_frame_aborts_reassembly_witness :
    WellFormed (withFrame 8 1 [9]
      (reassembling (clientWith 3 [rawBinaryHandler 0 7, pingHandler 0]) 7 "raw" [1, 2])) ∧
    ∃ c', seekingBinaryHasBinary (withFrame 8 1 [9]
        (reassembling (clientWith 3 [rawBinaryHandler 0 7, pingHandler 0]) 7 "raw" [1, 2]))
        = some c' ∧
      c'.binaryReadType = -1 ∧ c'.binaryBuffer.contents "raw" = none ∧ c'.events = [] ∧
      pending c' = [pingHandler 0] := by
  refine ⟨by decide, ?_⟩
  obtain ⟨c', h1, h2, _, h4, h5, h6⟩ := incompatible_frame_aborts_reassembly
    (withFrame 8 1 [9]
      (reassembling (clientWith 3 [rawBinaryHandler 0 7, pingHandler 0]) 7 "raw" [1, 2]))
    (rawBinaryHandler 0 7) "raw" 8 [1, 9] (by decide) (by decide) (by decide) (by decide)
    (by decide) (by decide) (by decide) (by decide) (by decide)
  refine ⟨c', h1, h2, h4, h5, ?_⟩
  have hp : pending (withFrame 8 1 [9]
      (reassembling (clientWith 3 [rawBinaryHandler 0 7, pingHandler 0]) 7 "raw" [1, 2]))
      = [rawBinaryHandler 0 7, pingHandler 0] := by decide
  rw [hp] at h6
  exact (List.cons.inj h6).2.symm


/-! ## Claims about the cursors and the elementary queue moves -/

/-- C20: for every capacity `replyQueueSize > 0` and cursors below it, `queueLength()` is
`(queueBack - queueFront) mod replyQueueSize` (the difference taken in the integers): it is
`queueBack + (replyQueueSize - queueFront)` in the wrapped layout and
`queueBack - queueFront` in the other one; and it is 0 exactly when the cursors are
equal. -/
theorem queueLength_eq_mod (c : Client) (_hsz : 0 < c.clientConfig.replyQueueSize)
    (hf : c.queueFront < c.clientConfig.replyQueueSize)
    (hb : c.queueBack < c.clientConfig.replyQueueSize) :
    (queueLength c : Int)
        = ((c.queueBack : Int) - (c.queueFront : Int)) % (c.clientConfig.replyQueueSize : Int) ∧
      (c.queueFront > c.queueBack →
        queueLength c = c.queueBack + (c.clientConfig.replyQueueSize - c.queueFront)) ∧
      (c.queueFront ≤ c.queueBack → queueLength c = c.queueBack - c.queueFront) ∧
      (queueLength c = 0 ↔ c.queueFront = c.queueBack) := by
  refine ⟨?_, ?_, ?_, ?_⟩
  · unfold queueLength
    split_ifs with h
    · have h1 : ((c.queueBack : Int) - (c.queueFront : Int))
          % (c.clientConfig.replyQueueSize : Int)
          = ((c.queueBack : Int) - (c.queueFront : Int) + (c.clientConfig.replyQueueSize : Int))
            % (c.clientConfig.replyQueueSize : Int) := by
        rw [Int.add_emod_self]
      rw [h1, Int.emod_eq_of_lt (by omega) (by omega)]
      omega
    · rw [Int.emod_eq_of_lt (by omega) (by omega)]
      omega
  · intro h; unfold queueLength; rw [if_pos h]
  · intro h; unfold queueLength; rw [if_neg (by omega)]
  · unfold queueLength
    split_ifs with h <;> omega

/-- Witness for C20: capacity 5 in the wrapped layout, front at 3 and back at 1. -/
theorem queueLength_eq_mod_witness :
    queueLength { clientWith 5 [] with queueFront := 3, queueBack := 1 } = 3 ∧
    (3 : Int) = ((1 : Int) - 3) % 5 := by
  have h := queueLength_eq_mod { clientWith 5 [] with queueFront := 3, queueBack := 1 }
    (by decide) (by decide) (by decide)
  refine ⟨?_, by decide⟩
  exact h.2.1 (by decide)

/-- C17: `dequeueReply` on a queue of length 0 changes nothing. On a well-formed queue of
positive length it returns with the front slot `h` removed: `queueFront` has advanced by
one modulo `replyQueueSize`, `queueBack` is unchanged, `queueLength()` has decreased by
one, the pending handlers are those of before without `h`, the array differs only at the
old front index, which is now null, and no other member of the client has changed. -/
theorem dequeueReply_removes_front (c : Client) :
    (queueLength c = 0 → dequeueReply c = some c) ∧
    (WellFormed c → 0 < queueLength c →
      ∃ h c', c.slot c.queueFront = some h ∧ dequeueReply c = some c' ∧
        c'.queueFront = (c.queueFront + 1) % c.clientConfig.replyQueueSize ∧
        c'.queueBack = c.queueBack ∧
        queueLength c' = queueLength c - 1 ∧
        pending c = h :: pending c' ∧
        c'.slot c.queueFront = none ∧
        (∀ idx, idx ≠ c.queueFront → c'.slot idx = c.slot idx) ∧
        c' = { c with replyQueue := c'.replyQueue, queueFront := c'.queueFront } ∧
        WellFormed c') := by
  constructor
  · intro h0
    unfold dequeueReply
    rw [if_pos h0]
  · intro hwf hpos
    obtain ⟨h, hh, hcons⟩ := front_slot c hwf hpos
    obtain ⟨c', hc', hshape, hwf', hp⟩ := dequeueReply_spec c hwf hpos
    have hf := hwf.2.2.1
    have hb := hwf.2.2.2.1
    have hlen := hwf.2.1
    refine ⟨h, c', hh, hc', by rw [hshape], by rw [hshape], ?_, ?_, ?_, ?_, by rw [hshape], hwf'⟩
    · rw [hshape]
      exact queueLength_advance c _ hf hb hpos
    · rw [hp]; exact hcons
    · rw [hshape]
      simp [Client.slot, List.getD_eq_getElem?_getD, hlen, hf]
    · intro idx hne
      rw [hshape]
      simp [Client.slot, List.getD_eq_getElem?_getD, List.getElem?_set_ne (Ne.symm hne)]

/-- Witness for C17: capacity 3 holding a ping handler in front of a pattern-list
handler. -/
theorem dequeueReply_removes_front_witness :
    WellFormed (clientWith 3 [pingHandler 0, patternsHandler 0]) ∧
    0 < queueLength (clientWith 3 [pingHandler 0, patternsHandler 0]) ∧
    ∃ c', dequeueReply (clientWith 3 [pingHandler 0, patternsHandler 0]) = some c' ∧
      pending c' = [patternsHandler 0] ∧ queueLength c' = 1 := by
  refine ⟨by decide, by decide, ?_⟩
  obtain ⟨h, c', _, h2, _, _, h5, h6, _⟩ :=
    (dequeueReply_removes_front (clientWith 3 [pingHandler 0, patternsHandler 0])).2
      (by decide) (by decide)
  refine ⟨c', h2, ?_, ?_⟩
  · have hp : pending (clientWith 3 [pingHandler 0, patternsHandler 0])
        = [pingHandler 0, patternsHandler 0] := by decide
    rw [hp] at h6
    exact (List.cons.inj h6).2.symm
  · rw [h5]; decide

/-- Whatever `weedLoop` returns is a state on which the loop stops at once. -/
theorem weedLoop_stops (now : Nat) :
    ∀ (fuel : Nat) (c c' : Client), weedLoop now fuel c = some c' →
      ∀ n, weedLoop now (n + 1) c' = some c' := by
  intro fuel
  induction fuel with
  | zero => intro c c' h; simp [weedLoop] at h
  | succ fuel ih =>
    intro c c' h n
    unfold weedLoop at h
    by_cases hpos : queueLength c > 0
    · rw [if_pos hpos] at h
      cases hs : c.slot c.queueFront with
      | none => rw [hs] at h; simp at h
      | some hd =>
        rw [hs] at h
        simp only at h
        by_cases hw : weedReply c.clientConfig now hd = true
        · rw [if_pos hw] at h
          exact ih _ _ h n
        · rw [if_neg hw] at h
          cases h
          unfold weedLoop
          rw [if_pos hpos, hs]
          simp only
          rw [if_neg hw]
    · rw [if_neg hpos] at h
      cases h
      unfold weedLoop
      rw [if_neg hpos]

/-- C19: `weedExpiredReplies` is idempotent. For every state and every clock value `now`,
running it a second time at the same `now` returns the state the first run returned
(cursors, array and everything else), and has no defined result exactly when the first
run has none; on a well-formed queue both runs return. -/
theorem weedExpiredReplies_idempotent (now : Nat) (c : Client) :
    (weedExpiredReplies now c).bind (weedExpiredReplies now) = weedExpiredReplies now c ∧
    (WellFormed c → ∃ c', weedExpiredReplies now c = some c' ∧
      weedExpiredReplies now c' = some c') := by
  have key : ∀ c', weedExpiredReplies now c = some c' →
      weedExpiredReplies now c' = some c' := by
    intro c' h
    exact weedLoop_stops now _ c c' h (queueLength c')
  constructor
  · cases h : weedExpiredReplies now c with
    | none => rfl
    | some c' => exact key c' h
  · intro hwf
    obtain ⟨c', hc', _⟩ := weedLoop_spec now (queueLength c + 1) c hwf (by omega)
    exact ⟨c', hc', key c' hc'⟩

/-- Witness for C19: capacity 3, an expired ping in front of a live one, weeded twice at
time 6000. -/
theorem weedExpiredReplies_idempotent_witness :
    WellFormed (clientWith 3 [pingHandler 0, pingHandler 5000]) ∧
    ∃ c', weedExpiredReplies 6000 (clientWith 3 [pingHandler 0, pingHandler 5000]) = some c' ∧
      weedExpiredReplies 6000 c' = some c' :=
  ⟨by decide,
    (weedExpiredReplies_idempotent 6000 (clientWith 3 [pingHandler 0, pingHandler 5000])).2
      (by decide)⟩


/-- Storing a handler at `queueBack` and moving `queueBack` one position on, in a
well-formed queue with room for it, keeps the queue well formed and appends the handler to
the pending ones. -/
theorem push_spec (c : Client) (h : ReplyHandler) (hwf : WellFormed c)
    (hroom : queueLength c + 1 < c.clientConfig.replyQueueSize) :
    WellFormed { c with replyQueue := c.replyQueue.set c.queueBack (some h),
                        queueBack := (c.queueBack + 1) % c.clientConfig.replyQueueSize } ∧
    pending { c with replyQueue := c.replyQueue.set c.queueBack (some h),
                     queueBack := (c.queueBack + 1) % c.clientConfig.replyQueueSize }
      = pending c ++ [h] ∧
    queueLength { c with replyQueue := c.replyQueue.set c.queueBack (some h),
                         queueBack := (c.queueBack + 1) % c.clientConfig.replyQueueSize }
      = queueLength c + 1 := by
  have hwf' := hwf
  obtain ⟨hsz, hlen, hf, hb, hnn⟩ := hwf
  have hslots := pendingSlots_push c (some h) hlen hf hb hroom
  have hql := queueLength_push c (c.replyQueue.set c.queueBack (some h)) hf hb hroom
  refine ⟨⟨hsz, by simp [hlen], hf, Nat.mod_lt _ hsz, ?_⟩, ?_, hql⟩
  · intro k hk hnone
    have hmem : (pendingSlots { c with
        replyQueue := c.replyQueue.set c.queueBack (some h),
        queueBack := (c.queueBack + 1) % c.clientConfig.replyQueueSize })[k]? = some none := by
      unfold pendingSlots
      rw [List.getElem?_map, List.getElem?_range hk]
      simp only [Option.map_some']
      rw [hnone]
    rw [hslots, pendingSlots_eq_map_some c hwf'] at hmem
    have hk' : k < ((pending c).map some ++ [some h]).length := by
      rw [← pendingSlots_eq_map_some c hwf', ← hslots, pendingSlots_length]; exact hk
    rw [List.getElem?_eq_getElem hk'] at hmem
    have hall : ∀ x ∈ (pending c).map some ++ [some h], x ≠ none := by
      intro x hx
      rw [List.mem_append] at hx
      rcases hx with hx | hx
      · obtain ⟨y, _, rfl⟩ := List.mem_map.mp hx
        exact Option.some_ne_none y
      · rw [List.mem_singleton] at hx
        rw [hx]; exact Option.some_ne_none h
    exact hall _ (List.getElem_mem hk') (Option.some.inj hmem)
  · unfold pending
    rw [hslots, pendingSlots_eq_map_some c hwf', List.filterMap_append, filterMap_id_map_some]
    rfl

/-- One rotation of the expander-config exception on a well-formed, non-empty queue whose
front handler is unsatisfied: the handler goes from the front to the back, nothing else
changes. -/
theorem rotateFront_spec (now : Nat) (c : Client) (h : ReplyHandler)
    (hwf : WellFormed c) (hpos : 0 < queueLength c)
    (hslot : c.slot c.queueFront = some h) (hunsat : h.isSatisfied = false) :
    ∃ c', rotateFront now c = some c' ∧
      queueLength c' = queueLength c ∧
      pending c = h :: (pending c).tail ∧
      pending c' = (pending c).tail ++ [h] ∧
      ¬ (c.clientConfig.replyQueueSize - (queueLength c - 1) < 1) ∧
      c'.replyQueue = (c.replyQueue.set c.queueFront none).set c.queueBack (some h) ∧
      c'.queueFront = (c.queueFront + 1) % c.clientConfig.replyQueueSize ∧
      c'.queueBack = (c.queueBack + 1) % c.clientConfig.replyQueueSize ∧
      WellFormed c' ∧ c'.consts = c.consts ∧ c'.clientConfig = c.clientConfig ∧
      c'.wsClient = c.wsClient := by
  have hf := hwf.2.2.1
  have hb := hwf.2.2.2.1
  have hlen := hwf.2.1
  have hlt := queueLength_lt_size c hf hb
  obtain ⟨h', hh', hcons⟩ := front_slot c hwf hpos
  rw [hslot] at hh'
  cases hh'
  have hadv := advance_spec c (c.replyQueue.set c.queueFront none) hwf hpos
    (by simp [hlen]) (set_front_agrees c none hf hb)
  have hql := queueLength_advance c (c.replyQueue.set c.queueFront none) hf hb hpos
  have hroom : queueLength { c with
      replyQueue := c.replyQueue.set c.queueFront none,
      queueFront := (c.queueFront + 1) % c.clientConfig.replyQueueSize } + 1
      < c.clientConfig.replyQueueSize := by
    rw [hql]; omega
  have hpush := push_spec _ h hadv.1 hroom
  have hw : wanted (some h) = true := by simp [wanted, hunsat]
  refine ⟨_, ?_, ?_, hcons, ?_, by omega, rfl, rfl, rfl, hpush.1, rfl, rfl, rfl⟩
  · unfold rotateFront enqueueReply enqueueReplies
    simp only [hslot, List.length_singleton, one_ne_zero, if_false, List.filter_cons, hw,
      if_true, List.filter_nil, hql, storeReplies, Option.map_some']
    rw [if_neg (by omega)]
    rfl
  · rw [hpush.2.2, hql]; omega
  · rw [hpush.2.1, hadv.2]

/-- C18: one rotation of the expander-config exception on a well-formed, non-empty queue
whose front handler `h` is unsatisfied returns; `queueLength()` is unchanged; the pending
handlers are the former ones with `h` moved from the front to the back, `h` itself being
unchanged (so are its `requestTsMs` and `satisfied`); the capacity test of `enqueueReply`
passes at once, so `compactQueue` does not run: the array changes only at the old front
index (null) and the old back index (`h`). -/
theorem rotateFront_keeps_length (now : Nat) (c : Client) (h : ReplyHandler)
    (hwf : WellFormed c) (hpos : 0 < queueLength c)
    (hslot : c.slot c.queueFront = some h) (hunsat : h.isSatisfied = false) :
    ∃ c', rotateFront now c = some c' ∧
      queueLength c' = queueLength c ∧
      pending c = h :: (pending c).tail ∧
      pending c' = (pending c).tail ++ [h] ∧
      ¬ (c.clientConfig.replyQueueSize - (queueLength c - 1) < 1) ∧
      c'.replyQueue = (c.replyQueue.set c.queueFront none).set c.queueBack (some h) ∧
      c'.queueFront = (c.queueFront + 1) % c.clientConfig.replyQueueSize ∧
      c'.queueBack = (c.queueBack + 1) % c.clientConfig.replyQueueSize ∧
      WellFormed c' := by
  obtain ⟨c', h1, h2, h3, h4, h5, h6, h7, h8, h9, _⟩ :=
    rotateFront_spec now c h hwf hpos hslot hunsat
  exact ⟨c', h1, h2, h3, h4, h5, h6, h7, h8, h9⟩

/-- Witness for C18: capacity 3 holding an unsatisfied expander-config style handler (a raw
binary handler for type 9) in front of a ping handler. -/
theorem rotateFront_keeps_length_witness :
    WellFormed (clientWith 3 [rawBinaryHandler 0 9, pingHandler 0]) ∧
    ∃ c', rotateFront 0 (clientWith 3 [rawBinaryHandler 0 9, pingHandler 0]) = some c' ∧
      queueLength c' = 2 ∧ pending c' = [pingHandler 0, rawBinaryHandler 0 9] := by
  refine ⟨by decide, ?_⟩
  obtain ⟨c', h1, h2, _, h4, _⟩ := rotateFront_keeps_length 0
    (clientWith 3 [rawBinaryHandler 0 9, pingHandler 0]) (rawBinaryHandler 0 9)
    (by decide) (by decide) (by decide) (by decide)
  refine ⟨c', h1, ?_, ?_⟩
  · rw [h2]; decide
  · rw [h4]; decide


/-! ## Text replies -/

/-- The callbacks of `dispatchTextReply`, given the handler the switch looks at. -/
theorem dispatchTextReply_plain (now : Nat) (h : ReplyHandler) (c : Client)
    (hrt : h.replyType ≠ HANDLER_SYNC) :
    ∃ evs, dispatchTextReply now h c = some { c with events := c.events ++ evs } := by
  unfold dispatchTextReply
  rw [if_neg hrt]
  simp only
  split_ifs
  · exact ⟨_, rfl⟩
  · exact ⟨_, rfl⟩
  · exact ⟨_, rfl⟩
  · exact ⟨_, rfl⟩
  · exact ⟨_, rfl⟩
  · exact ⟨_, rfl⟩
  · exact ⟨[], by simp⟩

/-- `dispatchTextReply` changes nothing but the trace of callbacks. -/
theorem dispatchTextReply_frame (now : Nat) (h : ReplyHandler) (c cd : Client)
    (hd : dispatchTextReply now h c = some cd) :
    ∃ evs, cd = { c with events := c.events ++ evs } := by
  unfold dispatchTextReply at hd
  by_cases hrt : h.replyType = HANDLER_SYNC
  · rw [if_pos hrt] at hd
    cases h with
    | text _ _ _ _ _ => simp at hd
    | binary _ _ _ _ _ _ _ _ => simp at hd
    | sync f ts s w =>
      simp only at hd
      split_ifs at hd <;> cases hd
      · exact ⟨_, by rw [List.append_assoc]⟩
      · exact ⟨_, by rw [List.append_assoc]⟩
      · exact ⟨_, by rw [List.append_assoc]⟩
      · exact ⟨_, by rw [List.append_assoc]⟩
      · exact ⟨_, by rw [List.append_assoc]⟩
      · exact ⟨_, by rw [List.append_assoc]⟩
      · exact ⟨_, rfl⟩
  · rw [if_neg hrt] at hd
    simp only at hd
    split_ifs at hd <;> cases hd
    · exact ⟨_, rfl⟩
    · exact ⟨_, rfl⟩
    · exact ⟨_, rfl⟩
    · exact ⟨_, rfl⟩
    · exact ⟨_, rfl⟩
    · exact ⟨_, rfl⟩
    · exact ⟨[], by simp⟩


theorem readJson_ok (deserializeJson : List Nat → Option JsonValue) (c : Client)
    (doc : JsonValue) (hdoc : deserializeJson c.wsClient.body = some doc) :
    readJson deserializeJson c
      = (true, { c with wsClient := { c.wsClient with body := [] }, json := doc }) := by
  simp [readJson, WebSocketClient.readString, hdoc]

theorem handleUnrequestedJson_frame (c : Client) :
    ∃ evs, handleUnrequestedJson c = { c with events := c.events ++ evs } := by
  unfold handleUnrequestedJson
  split_ifs
  · exact ⟨_, rfl⟩
  · exact ⟨_, rfl⟩
  · exact ⟨[], by simp⟩

theorem seekingTextHasText_match (deserializeJson : List Nat → Option JsonValue)
    (now : Nat) (c : Client) (h : ReplyHandler) (doc : JsonValue)
    (hslot : c.slot c.queueFront = some h)
    (hdoc : deserializeJson c.wsClient.body = some doc) (hm : h.jsonMatches doc = true) :
    seekingTextHasText deserializeJson now c
      = (dispatchTextReply now h
          { c with wsClient := { c.wsClient with body := [] }, json := doc }).bind
          dequeueReply := by
  unfold seekingTextHasText
  rw [readJson_ok deserializeJson c doc hdoc]
  simp only [Bool.not_true, Bool.false_eq_true, if_false, Client.slot] at *
  rw [hslot]
  simp only [hm, if_true]
  cases dispatchTextReply now h _ with
  | none => rfl
  | some c1 => rfl

theorem seekingTextHasText_route (deserializeJson : List Nat → Option JsonValue)
    (now : Nat) (c : Client) (h : ReplyHandler) (doc : JsonValue)
    (hslot : c.slot c.queueFront = some h)
    (hdoc : deserializeJson c.wsClient.body = some doc) (hm : h.jsonMatches doc = false) :
    seekingTextHasText deserializeJson now c
      = some (handleUnrequestedJson
          { c with wsClient := { c.wsClient with body := [] }, json := doc }) := by
  unfold seekingTextHasText
  rw [readJson_ok deserializeJson c doc hdoc]
  simp only [Bool.not_true, Bool.false_eq_true, if_false, Client.slot] at *
  rw [hslot]
  simp only [hm, Bool.false_eq_true, if_false]

/-- C12: a text message that deserializes to `doc` arrives while the front slot `h` of a
well-formed, non-empty queue seeks text. If `h.jsonMatches doc`, `seekingTextHasText` is
`dispatchTextReply` for `h` on that document followed by `dequeueReply`: whenever the
dispatch is defined (it is for every handler that is not a mistyped `SyncHandler`) the
result has exactly `h` removed from the front, `queueLength()` one less, the other pending
handlers and `queueBack` unchanged. If `h` does not match, the result is
`handleUnrequestedJson` on that document: the array and both cursors are unchanged and `h`
still waits at the front. -/
theorem seekingTextHasText_match_or_route (deserializeJson : List Nat → Option JsonValue)
    (now : Nat) (c : Client) (h : ReplyHandler) (doc : JsonValue)
    (hwf : WellFormed c) (hpos : 0 < queueLength c)
    (hslot : c.slot c.queueFront = some h)
    (hdoc : deserializeJson c.wsClient.body = some doc) :
    (h.jsonMatches doc = true →
      seekingTextHasText deserializeJson now c
        = (dispatchTextReply now h (readJson deserializeJson c).2).bind dequeueReply ∧
      (∀ cd, dispatchTextReply now h (readJson deserializeJson c).2 = some cd →
        ∃ c', seekingTextHasText deserializeJson now c = some c' ∧
          c'.events = cd.events ∧
          queueLength c' = queueLength c - 1 ∧
          pending c = h :: pending c' ∧
          c'.queueBack = c.queueBack) ∧
      (h.replyType ≠ HANDLER_SYNC →
        ∃ cd, dispatchTextReply now h (readJson deserializeJson c).2 = some cd)) ∧
    (h.jsonMatches doc = false →
      seekingTextHasText deserializeJson now c
        = some (handleUnrequestedJson (readJson deserializeJson c).2) ∧
      ∃ c', seekingTextHasText deserializeJson now c = some c' ∧
        c'.replyQueue = c.replyQueue ∧ c'.queueFront = c.queueFront ∧
        c'.queueBack = c.queueBack ∧ pending c' = pending c ∧
        c'.slot c'.queueFront = some h) := by
  have hrj := readJson_ok deserializeJson c doc hdoc
  constructor
  · intro hm
    have heq : seekingTextHasText deserializeJson now c
        = (dispatchTextReply now h (readJson deserializeJson c).2).bind dequeueReply := by
      rw [hrj]
      exact seekingTextHasText_match deserializeJson now c h doc hslot hdoc hm
    refine ⟨heq, ?_, ?_⟩
    · intro cd hcd
      obtain ⟨evs, hshape⟩ := dispatchTextReply_frame now h _ cd hcd
      rw [hrj] at hshape
      have hwfd : WellFormed cd := by rw [hshape]; exact hwf
      have hposd : 0 < queueLength cd := by rw [hshape]; exact hpos
      obtain ⟨c', hc', hs', _, hp'⟩ := dequeueReply_spec cd hwfd hposd
      obtain ⟨h', hh', hcons⟩ := front_slot c hwf hpos
      rw [hslot] at hh'
      cases hh'
      have hpc : pending cd = pending c := by rw [hshape]; rfl
      have hqc : queueLength cd = queueLength c := by rw [hshape]; rfl
      refine ⟨c', by rw [heq, hcd]; exact hc', by rw [hs'], ?_, ?_, ?_⟩
      · rw [hs', ← hqc]
        exact queueLength_advance cd _ hwfd.2.2.1 hwfd.2.2.2.1 hposd
      · rw [hp', hpc]; exact hcons
      · rw [hs', hshape]
    · intro hrt
      obtain ⟨evs, he⟩ := dispatchTextReply_plain now h (readJson deserializeJson c).2 hrt
      exact ⟨_, he⟩
  · intro hm
    have heq : seekingTextHasText deserializeJson now c
        = some (handleUnrequestedJson (readJson deserializeJson c).2) := by
      rw [hrj]
      exact seekingTextHasText_route deserializeJson now c h doc hslot hdoc hm
    refine ⟨heq, _, heq, ?_⟩
    obtain ⟨evs, hshape⟩ := handleUnrequestedJson_frame (readJson deserializeJson c).2
    rw [hshape, hrj]
    exact ⟨rfl, rfl, rfl, rfl, hslot⟩


/-- Witness for C12: the bytes of `{"ack":true}` arrive at time 1000 while a ping handler
issued at time 400 is at the front, a pattern-list handler behind it. -/
theorem seekingTextHasText_match_or_route_witness :
    WellFormed (withText ackText (clientWith 3 [pingHandler 400, patternsHandler 0])) ∧
    (pingHandler 400).jsonMatches ackDocument = true ∧
    ∃ c', seekingTextHasText ackDecoder 1000
        (withText ackText (clientWith 3 [pingHandler 400, patternsHandler 0])) = some c' ∧
      c'.events = [Event.ping 600] ∧ queueLength c' = 1 ∧
      pending c' = [patternsHandler 0] := by
  refine ⟨by decide, by decide, ?_⟩
  obtain ⟨_, hall, _⟩ := (seekingTextHasText_match_or_route ackDecoder 1000
    (withText ackText (clientWith 3 [pingHandler 400, patternsHandler 0]))
    (pingHandler 400) ackDocument (by decide) (by decide) (by decide) (by decide)).1
    (by decide)
  obtain ⟨c', h1, h2, h3, h4, _⟩ := hall _ rfl
  refine ⟨c', h1, by rw [h2]; decide, by rw [h3]; decide, ?_⟩
  have hp : pending (withText ackText (clientWith 3 [pingHandler 400, patternsHandler 0]))
      = [pingHandler 400, patternsHandler 0] := by decide
  rw [hp] at h4
  exact (List.cons.inj h4).2.symm


/-! ## The inbound tick -/

theorem roundtrip_eq (t0 t1 : Nat) (h01 : t0 ≤ t1) (h1 : t1 < 2 ^ 32) :
    roundtrip t1 t0 = t1 - t0 := by
  unfold roundtrip
  have h2 : (2 : Nat) ^ 32 = 4294967296 := by norm_num
  rw [h2] at *
  omega

theorem dropSatisfied_unsat (n : Nat) (c : Client) (h : ReplyHandler)
    (hslot : c.slot c.queueFront = some h) (hunsat : h.isSatisfied = false) :
    dropSatisfied (n + 1) c = some c := by
  unfold dropSatisfied
  by_cases hpos : queueLength c > 0
  · rw [if_pos hpos, hslot]
    simp [hunsat]
  · rw [if_neg hpos]

theorem rotateLoop_not_binary (now : Nat) (format : Int) (n : Nat) (soughtFormat : Int)
    (k : Nat) (c : Client) (hne : soughtFormat ≠ c.consts.FORMAT_BINARY) :
    rotateLoop now format (n + 1) soughtFormat k c = some (soughtFormat, c) := by
  unfold rotateLoop
  rw [if_neg (fun h => hne h.2)]

/-- A text message arrives while the front slot of a non-empty queue is unsatisfied and
seeks text: the loop body of `checkForInbound` is `seekingTextHasText`. -/
theorem handleInbound_text_seeking_text (deserializeJson : List Nat → Option JsonValue)
    (m : InboundMessage) (c : Client) (h : ReplyHandler)
    (hpos : 0 < queueLength c) (hslot : c.slot c.queueFront = some h)
    (hunsat : h.isSatisfied = false) (hfmt : h.format = c.consts.FORMAT_TEXT)
    (hne : c.consts.FORMAT_TEXT ≠ c.consts.FORMAT_BINARY)
    (hm : m.format = c.consts.FORMAT_TEXT) :
    handleInbound deserializeJson m c = seekingTextHasText deserializeJson m.atMs c := by
  unfold handleInbound
  rw [dropSatisfied_unsat _ c h hslot hunsat]
  simp only
  rw [if_neg (by omega), hslot]
  simp only
  rw [rotateLoop_not_binary _ _ _ _ _ _ (by rw [hfmt]; exact hne)]
  simp only [hfmt, hm, ne_eq, not_true_eq_false, false_and, if_false, if_true]

/-- The ping scenario on a queue of capacity at least 2. In a well-formed client with an
empty queue of capacity at least 2, whose `FORMAT_TEXT` is the transport's `TYPE_TEXT` and differs from
`FORMAT_BINARY`: `ping()` at time `t0` returns true and sends `{"ping": true}`; when
`checkForInbound` then runs at time `t1`, with `t0 ≤ t1 < 2 ^ 32`, the handler not yet
expired and the time budget not used up, and finds the single non-empty text message that
deserializes to a document with the key `"ack"`, exactly one callback is added to the
trace, the ping callback with round trip `t1 - t0`, and `queueLength()` is 0 afterwards. -/
theorem ping_roundtrip (deserializeJson : List Nat → Option JsonValue) (c : Client)
    (t0 t1 : Nat) (body : List Nat) (doc : JsonValue)
    (hwf : WellFormed c) (hempty : queueLength c = 0)
    (hsize : 1 < c.clientConfig.replyQueueSize)
    (hfmt : c.consts.FORMAT_TEXT = c.consts.TYPE_TEXT)
    (hne : c.consts.FORMAT_TEXT ≠ c.consts.FORMAT_BINARY)
    (h01 : t0 ≤ t1) (h1 : t1 < 2 ^ 32)
    (hlive : ¬ ((t0 + c.clientConfig.maxResponseWaitMs) % 2 ^ 32 < t1))
    (hbudget : (t1 + c.clientConfig.maxInboundCheckMs) % 2 ^ 32 > t1)
    (hbody : 0 < body.length) (hdoc : deserializeJson body = some doc)
    (hack : doc.containsKey "ack" = true) :
    ∃ c1 c2, ping t0 c = some (true, c1) ∧
      c1.sent = c.sent ++ [jsonMember "ping" (JsonValue.bool true)] ∧
      c1.events = c.events ∧
      checkForInbound deserializeJson t1
        [{ format := c.consts.FORMAT_TEXT, body := body, atMs := t1 }] c1 = some c2 ∧
      c2.events = c.events ++ [Event.ping (t1 - t0)] ∧
      queueLength c2 = 0 := by
  have hf := hwf.2.2.1
  have hb := hwf.2.2.2.1
  -- the state after the enqueue
  have hpush := push_spec c (ReplyHandler.text HANDLER_PING c.consts.TYPE_TEXT t0 false none)
    hwf (by omega)
  obtain ⟨hwf1, hp1, hq1⟩ := hpush
  have hpend0 : pending c = [] := by
    unfold pending; rw [pendingSlots_nil c hempty]; rfl
  rw [hpend0, List.nil_append] at hp1
  rw [hempty] at hq1
  have hping : ping t0 c = some (true, sendJson (jsonMember "ping" (JsonValue.bool true))
      { c with
        replyQueue := c.replyQueue.set c.queueBack
          (some (ReplyHandler.text HANDLER_PING c.consts.TYPE_TEXT t0 false none))
        queueBack := (c.queueBack + 1) % c.clientConfig.replyQueueSize
        json := jsonMember "ping" (JsonValue.bool true) }) := by
    unfold ping trackedRequest enqueueReply enqueueReplies
    simp only [List.length_singleton, one_ne_zero, if_false, List.filter_cons, wanted,
      ReplyHandler.isSatisfied, Bool.not_false, if_true, List.filter_nil, hempty,
      Nat.sub_zero, storeReplies]
    rw [if_neg (by omega)]
    rfl
  -- abbreviation of the state after `ping`
  obtain ⟨c1, hc1⟩ : ∃ c1, sendJson (jsonMember "ping" (JsonValue.bool true))
      { c with
        replyQueue := c.replyQueue.set c.queueBack
          (some (ReplyHandler.text HANDLER_PING c.consts.TYPE_TEXT t0 false none))
        queueBack := (c.queueBack + 1) % c.clientConfig.replyQueueSize
        json := jsonMember "ping" (JsonValue.bool true) } = c1 := ⟨_, rfl⟩
  rw [hc1] at hping
  have hwfc1 : WellFormed c1 := by rw [← hc1]; exact hwf1
  have hpc1 : pending c1
      = [ReplyHandler.text HANDLER_PING c.consts.TYPE_TEXT t0 false none] := by
    rw [← hc1]; exact hp1
  have hqc1 : queueLength c1 = 1 := by rw [← hc1]; exact hq1
  have hcfg : c1.clientConfig = c.clientConfig := by rw [← hc1]; rfl
  have hk : c1.consts = c.consts := by rw [← hc1]; rfl
  have hev : c1.events = c.events := by rw [← hc1]; rfl
  have hsent : c1.sent = c.sent ++ [jsonMember "ping" (JsonValue.bool true)] := by
    rw [← hc1]; rfl
  obtain ⟨hd, hslot1, hcons1⟩ := front_slot c1 hwfc1 (by omega)
  rw [hpc1] at hcons1
  have hhd : hd = ReplyHandler.text HANDLER_PING c.consts.TYPE_TEXT t0 false none :=
    ((List.cons.inj hcons1).1).symm
  subst hhd
  have hq1pos : 0 < queueLength c1 := by omega
  -- weeding leaves the handler in place
  have hweed : weedExpiredReplies t1 c1 = some c1 := by
    unfold weedExpiredReplies
    rw [hqc1]
    unfold weedLoop
    rw [if_pos (by omega), hslot1]
    simp only [weedReply, ReplyHandler.isSatisfied, ReplyHandler.requestTsMs, hcfg,
      Bool.false_or, decide_eq_true_eq]
    rw [if_neg hlive]
  -- the message is handled by `seekingTextHasText`
  have hin : handleInbound deserializeJson
      { format := c.consts.FORMAT_TEXT, body := body, atMs := t1 }
      { c1 with wsClient := { c1.wsClient with body := body } }
      = seekingTextHasText deserializeJson t1
          { c1 with wsClient := { c1.wsClient with body := body } } :=
    handleInbound_text_seeking_text deserializeJson
      { format := c.consts.FORMAT_TEXT, body := body, atMs := t1 }
      { c1 with wsClient := { c1.wsClient with body := body } }
      (ReplyHandler.text HANDLER_PING c.consts.TYPE_TEXT t0 false none) hq1pos
      hslot1 rfl (by simp only [ReplyHandler.format, hk, hfmt]) (by rw [hk]; exact hne)
      (by rw [hk])
  have hmatch := seekingTextHasText_match deserializeJson t1
    { c1 with wsClient := { c1.wsClient with body := body } }
    (ReplyHandler.text HANDLER_PING c.consts.TYPE_TEXT t0 false none) doc hslot1 hdoc
    (by simp [ReplyHandler.jsonMatches, HANDLER_PING, HANDLER_PLAYLIST, HANDLER_PEERS,
      HANDLER_SETTINGS, HANDLER_SEQ, hack])
  have hdisp : dispatchTextReply t1
      (ReplyHandler.text HANDLER_PING c.consts.TYPE_TEXT t0 false none)
      { c1 with wsClient := { c1.wsClient with body := [] }, json := doc }
      = some { c1 with
          wsClient := { c1.wsClient with body := [] }, json := doc,
          events := c1.events ++ [Event.ping (t1 - t0)] } := by
    simp [dispatchTextReply, ReplyHandler.replyType, HANDLER_PING, HANDLER_SYNC,
      HANDLER_RAW_TEXT, HANDLER_PLAYLIST, HANDLER_PEERS, HANDLER_SETTINGS, HANDLER_SEQ,
      ReplyHandler.requestTsMs, roundtrip_eq t0 t1 h01 h1]
  obtain ⟨c2, hc2, hs2, _, _⟩ := dequeueReply_spec
    { c1 with
      wsClient := { c1.wsClient with body := [] }, json := doc,
      events := c1.events ++ [Event.ping (t1 - t0)] } hwfc1 hq1pos
  refine ⟨c1, c2, hping, hsent, hev, ?_, by rw [hs2, ← hev], ?_⟩
  · unfold checkForInbound
    rw [hweed]
    simp only [inboundLoop]
    rw [if_pos ⟨hbody, by rw [hcfg]; exact hbudget⟩, hin, hmatch, hdisp]
    simp only [Option.bind, hc2]
  · rw [hs2]
    have := queueLength_advance c1 (c1.replyQueue.set c1.queueFront none) hwfc1.2.2.1
      hwfc1.2.2.2.1 (by omega)
    rw [hqc1] at this
    exact this


/-- An instance of `ping_roundtrip`: a fresh client of capacity 3, `ping()` at time 400
and the reply
`{"ack":true}` found at time 1000. -/
theorem ping_roundtrip_witness :
    WellFormed (newClient (sampleConfig 3) sampleConsts) ∧
    ∃ c1 c2, ping 400 (newClient (sampleConfig 3) sampleConsts) = some (true, c1) ∧
      checkForInbound ackDecoder 1000 [{ format := 1, body := ackText, atMs := 1000 }] c1
        = some c2 ∧
      c2.events = [Event.ping 600] ∧ queueLength c2 = 0 := by
  refine ⟨by decide, ?_⟩
  obtain ⟨c1, c2, h1, _, _, h4, h5, h6⟩ := ping_roundtrip ackDecoder
    (newClient (sampleConfig 3) sampleConsts) 400 1000 ackText ackDocument
    (by decide) (by decide) (by decide) (by decide) (by decide) (by decide) (by decide)
    (by decide) (by decide) (by decide) (by decide) (by decide)
  exact ⟨c1, c2, h1, h4, h5, h6⟩


/-! ## Requests -/

theorem storeReplies_frame (args : List (Option ReplyHandler)) :
    ∀ c : Client, storeReplies args c
      = { c with replyQueue := (storeReplies args c).replyQueue,
                 queueBack := (storeReplies args c).queueBack } := by
  induction args with
  | nil => intro c; rfl
  | cons a rest ih =>
    intro c
    unfold storeReplies
    split_ifs
    · rw [ih]
    · exact ih c

theorem compactQueue_frame (now : Nat) (c c1 : Client) (h : compactQueue now c = some c1) :
    c1 = { c with replyQueue := c1.replyQueue, queueFront := c1.queueFront,
                  queueBack := c1.queueBack } := by
  unfold compactQueue at h
  cases hk : keptReplies c now (queueIndices c) with
  | none => rw [hk] at h; simp at h
  | some temp =>
    rw [hk] at h
    simp only at h
    split_ifs at h <;> cases h <;> rfl

theorem enqueueReplies_eq (now : Nat) (args : List (Option ReplyHandler)) (c : Client) :
    enqueueReplies now args c =
      if args.length = 0 then some (true, c)
      else if (args.filter wanted).length = 0 then some (true, c)
      else if c.clientConfig.replyQueueSize - queueLength c < (args.filter wanted).length then
        match compactQueue now c with
        | none => none
        | some c1 =>
          if c1.clientConfig.replyQueueSize - queueLength c1 < (args.filter wanted).length then
            some (false, c1)
          else
            some (true, storeReplies args c1)
      else some (true, storeReplies args c) := by
  rfl

theorem enqueueReplies_frame (now : Nat) (args : List (Option ReplyHandler)) (c c1 : Client)
    (ok : Bool) (h : enqueueReplies now args c = some (ok, c1)) :
    c1 = { c with replyQueue := c1.replyQueue, queueFront := c1.queueFront,
                  queueBack := c1.queueBack } := by
  rw [enqueueReplies_eq] at h
  split_ifs at h with h0 h1 h2
  · cases h; rfl
  · cases h; rfl
  · cases hc : compactQueue now c with
    | none => rw [hc] at h; simp at h
    | some c0 =>
      rw [hc] at h
      simp only at h
      have hf := compactQueue_frame now c c0 hc
      split_ifs at h
      · cases h; exact hf
      · cases h
        rw [storeReplies_frame, hf]
  · cases h
    rw [storeReplies_frame]

theorem enqueueReplies_false (now : Nat) (args : List (Option ReplyHandler)) (c c1 : Client)
    (h : enqueueReplies now args c = some (false, c1)) : compactQueue now c = some c1 := by
  rw [enqueueReplies_eq] at h
  split_ifs at h with h0 h1 h2
  · cases h
  · cases h
  · cases hc : compactQueue now c with
    | none => rw [hc] at h; simp at h
    | some c0 =>
      rw [hc] at h
      simp only at h
      split_ifs at h
      · cases h; rfl
      · cases h
  · cases h

/-- On a well-formed queue `enqueueReplies` returns. -/
theorem enqueueReplies_total (now : Nat) (args : List (Option ReplyHandler)) (c : Client)
    (hwf : WellFormed c) : ∃ ok c1, enqueueReplies now args c = some (ok, c1) := by
  obtain ⟨c0, hc0, _⟩ := compactQueue_spec now c hwf
  rw [enqueueReplies_eq]
  split_ifs
  · exact ⟨_, _, rfl⟩
  · exact ⟨_, _, rfl⟩
  · rw [hc0]
    simp only
    split_ifs
    · exact ⟨_, _, rfl⟩
    · exact ⟨_, _, rfl⟩
  · exact ⟨_, _, rfl⟩

/-- What a request does to the state once its handlers are enqueued: `json` is set to the
request (except by the two raw requests) and the request is sent. -/
theorem issue_eq (now : Nat) (r : Request) (c : Client) :
    ∃ f : Client → Client, (∀ c1, (f c1).sent = c1.sent ++ [r.message] ∧
        (f c1).replyQueue = c1.replyQueue ∧ (f c1).queueFront = c1.queueFront ∧
        (f c1).queueBack = c1.queueBack ∧ (f c1).clientConfig = c1.clientConfig ∧
        (f c1).consts = c1.consts ∧ (f c1).events = c1.events ∧
        (f c1).binaryReadType = c1.binaryReadType ∧ (f c1).wsClient = c1.wsClient ∧
        (f c1).binaryBuffer = c1.binaryBuffer) ∧
      r.issue now c =
        match enqueueReplies now (r.handlers now c.consts) c with
        | none => none
        | some (ok, c1) => if !ok then some (false, c1) else some (true, f c1) := by
  have hall : ∀ (q : JsonValue) (g : Client → Client), (g = fun c1 => sendJson q c1) ∨
      (g = fun c1 => sendJson q { c1 with json := q }) →
      ∀ c1, (g c1).sent = c1.sent ++ [q] ∧
        (g c1).replyQueue = c1.replyQueue ∧ (g c1).queueFront = c1.queueFront ∧
        (g c1).queueBack = c1.queueBack ∧ (g c1).clientConfig = c1.clientConfig ∧
        (g c1).consts = c1.consts ∧ (g c1).events = c1.events ∧
        (g c1).binaryReadType = c1.binaryReadType ∧ (g c1).wsClient = c1.wsClient ∧
        (g c1).binaryBuffer = c1.binaryBuffer := by
    intro q g hg c1
    rcases hg with rfl | rfl <;> exact ⟨rfl, rfl, rfl, rfl, rfl, rfl, rfl, rfl, rfl, rfl⟩
  cases r with
  | getPatterns b cl =>
    refine ⟨fun c1 => sendJson (Request.getPatterns b cl).message
      { c1 with json := (Request.getPatterns b cl).message }, hall _ _ (Or.inr rfl), ?_⟩
    simp only [Request.issue, getPatterns, trackedRequest, enqueueReply, Request.handlers]
    cases enqueueReplies now _ c <;> rfl
  | getPlaylist n =>
    refine ⟨fun c1 => sendJson (Request.getPlaylist n).message
      { c1 with json := (Request.getPlaylist n).message }, hall _ _ (Or.inr rfl), ?_⟩
    simp only [Request.issue, getPlaylist, trackedRequest, enqueueReply, Request.handlers]
    cases enqueueReplies now _ c <;> rfl
  | getPeers =>
    refine ⟨fun c1 => sendJson Request.getPeers.message
      { c1 with json := Request.getPeers.message }, hall _ _ (Or.inr rfl), ?_⟩
    simp only [Request.issue, getPeers, trackedRequest, enqueueReply, Request.handlers]
    cases enqueueReplies now _ c <;> rfl
  | getPatternControls p =>
    refine ⟨fun c1 => sendJson (Request.getPatternControls p).message
      { c1 with json := (Request.getPatternControls p).message }, hall _ _ (Or.inr rfl), ?_⟩
    simp only [Request.issue, getPatternControls, trackedRequest, enqueueReply,
      Request.handlers]
    cases enqueueReplies now _ c <;> rfl
  | getPreviewImage p b cl =>
    refine ⟨fun c1 => sendJson (Request.getPreviewImage p b cl).message
      { c1 with json := (Request.getPreviewImage p b cl).message }, hall _ _ (Or.inr rfl), ?_⟩
    simp only [Request.issue, getPreviewImage, trackedRequest, enqueueReply, Request.handlers]
    cases enqueueReplies now _ c <;> rfl
  | getSettings w1 w2 w3 b cl =>
    refine ⟨fun c1 => sendJson (Request.getSettings w1 w2 w3 b cl).message
      { c1 with json := (Request.getSettings w1 w2 w3 b cl).message },
      hall _ _ (Or.inr rfl), ?_⟩
    simp only [Request.issue, getSettings, Request.handlers]
    cases enqueueReplies now _ c <;> rfl
  | ping =>
    refine ⟨fun c1 => sendJson Request.ping.message
      { c1 with json := Request.ping.message }, hall _ _ (Or.inr rfl), ?_⟩
    simp only [Request.issue, ping, trackedRequest, enqueueReply, Request.handlers]
    cases enqueueReplies now _ c <;> rfl
  | getRawBinary b t cl q =>
    refine ⟨fun c1 => sendJson q c1, hall _ _ (Or.inl rfl), ?_⟩
    simp only [Request.issue, getRawBinary, enqueueReply, Request.handlers]
  | getRawText q =>
    refine ⟨fun c1 => sendJson q c1, hall _ _ (Or.inl rfl), ?_⟩
    simp only [Request.issue, getRawText, enqueueReply, Request.handlers]

/-- C15: for each of the nine requests that track a reply, called at time `now`. If the
`enqueueReplies` of its handlers returns false, the request returns false in the state the
enqueue left, which is the state `compactQueue` made of the initial one: nothing is sent
and, in a well-formed queue, the pending handlers are pending handlers of before, none of
the request's own having been stored. If it returns true, the request returns true, the
queue is as the enqueue left it and exactly one message, the request, has been sent. The
request has no defined result only when the enqueue has none, which does not happen on a
well-formed queue. -/
theorem request_sends_iff_enqueued (now : Nat) (r : Request) (c : Client) :
    (∀ c1, enqueueReplies now (r.handlers now c.consts) c = some (false, c1) →
      r.issue now c = some (false, c1) ∧ c1.sent = c.sent ∧
      compactQueue now c = some c1 ∧
      (WellFormed c → pending c1 = (pending c).filter (keepReply c.clientConfig now))) ∧
    (∀ c1, enqueueReplies now (r.handlers now c.consts) c = some (true, c1) →
      ∃ c2, r.issue now c = some (true, c2) ∧ c2.sent = c.sent ++ [r.message] ∧
        c2.replyQueue = c1.replyQueue ∧ c2.queueFront = c1.queueFront ∧
        c2.queueBack = c1.queueBack) ∧
    (enqueueReplies now (r.handlers now c.consts) c = none → r.issue now c = none) ∧
    (WellFormed c → ∃ ok c2, r.issue now c = some (ok, c2)) := by
  obtain ⟨f, hf, hissue⟩ := issue_eq now r c
  refine ⟨?_, ?_, ?_, ?_⟩
  · intro c1 h
    have hframe := enqueueReplies_frame now _ c c1 false h
    have hcomp := enqueueReplies_false now _ c c1 h
    refine ⟨by rw [hissue, h]; rfl, by rw [hframe], hcomp, ?_⟩
    intro hwf
    obtain ⟨c0, hc0, _, _, hp, _⟩ := compactQueue_spec now c hwf
    rw [hc0] at hcomp
    cases hcomp
    exact hp
  · intro c1 h
    have hframe := enqueueReplies_frame now _ c c1 true h
    obtain ⟨h1, h2, h3, h4, _⟩ := hf c1
    refine ⟨f c1, by rw [hissue, h]; rfl, ?_, h2, h3, h4⟩
    rw [h1, hframe]
  · intro h
    rw [hissue, h]
  · intro hwf
    obtain ⟨ok, c1, h⟩ := enqueueReplies_total now (r.handlers now c.consts) c hwf
    rw [hissue, h]
    cases ok
    · exact ⟨_, _, rfl⟩
    · exact ⟨_, _, rfl⟩

/-- Witness for C15: `getSettings` watching all three replies on a queue of capacity 3
that holds a live ping handler fails and sends nothing; `ping()` on the same queue succeeds
and sends `{"ping": true}`. -/
theorem request_sends_iff_enqueued_witness :
    WellFormed (clientWith 3 [pingHandler 0]) ∧
    (∃ c1, (Request.getSettings true true true "exp" true).issue 10
        (clientWith 3 [pingHandler 0]) = some (false, c1) ∧ c1.sent = []) ∧
    (∃ c2, Request.ping.issue 10 (clientWith 3 [pingHandler 0]) = some (true, c2) ∧
      c2.sent = [jsonMember "ping" (JsonValue.bool true)]) := by
  refine ⟨by decide, ?_, ?_⟩
  · obtain ⟨h1, h2, _⟩ := (request_sends_iff_enqueued 10
      (Request.getSettings true true true "exp" true) (clientWith 3 [pingHandler 0])).1 _ rfl
    exact ⟨_, h1, h2⟩
  · obtain ⟨c2, h1, h2, _⟩ := (request_sends_iff_enqueued 10 Request.ping
      (clientWith 3 [pingHandler 0])).2.1 _ rfl
    exact ⟨c2, h1, h2⟩

/-! ## The pattern list iterator -/

/-- The field loop over a field followed by its separator: the byte already read and the
bytes of the field are stored, the separator is the last byte read and is not stored. -/
theorem fillField_run (sep bufferLen : Nat) :
    ∀ (field : List Nat) (b : Nat) (rest buf : List Nat),
      (∀ x ∈ b :: field, x ≠ sep) → buf.length + (field.length + 1) ≤ bufferLen →
      fillField sep bufferLen (field ++ sep :: rest) (b : Int) buf
        = ((sep : Int), rest, buf ++ b :: field) := by
  intro field
  induction field with
  | nil =>
    intro b rest buf hne hlen
    have hb : b ≠ sep := hne b (List.mem_cons_self _ _)
    simp only [List.nil_append, fillField]
    rw [if_pos ⟨by omega, by omega, by simp at hlen; omega⟩]
    simp only [Int.toNat_ofNat]
    unfold fillField
    cases rest with
    | nil => simp
    | cons r rs => simp
  | cons a field ih =>
    intro b rest buf hne hlen
    have hb : b ≠ sep := hne b (List.mem_cons_self _ _)
    simp only [List.cons_append, fillField]
    rw [if_pos ⟨by omega, by omega, by simp at hlen; omega⟩]
    simp only [Int.toNat_ofNat]
    have hrec := ih a rest (buf ++ [b]) (fun x hx => hne x (List.mem_cons_of_mem _ hx))
      (by simp at hlen ⊢; omega)
    simp only [List.append_assoc, List.singleton_append] at hrec
    exact hrec

/-- What `next` makes of a well-formed record: the id is the record's id, but the name
starts with the tab that separates it from the id, because the tab is still the current
byte when the second field loop starts. -/
theorem next_record (bufferLen : Nat) (i : Nat) (id : List Nat) (name rest : List Nat)
    (fillMe : PatternIdentifiers)
    (hid : ∀ x ∈ i :: id, x ≠ 9) (hid0 : ∀ x ∈ i :: id, x ≠ 0)
    (hname : ∀ x ∈ name, x ≠ 10) (hname0 : ∀ x ∈ name, x ≠ 0)
    (hidlen : (i :: id).length < bufferLen) (hnamelen : name.length + 1 < bufferLen) :
    AllPatternIterator.next bufferLen (i :: id ++ 9 :: (name ++ 10 :: rest)) fillMe
      = some (true, { id := i :: id, name := 9 :: name }, rest) := by
  have h1 := fillField_run 9 bufferLen id i (name ++ 10 :: rest) [] hid
    (by simp at hidlen ⊢; omega)
  have h2 := fillField_run 10 bufferLen name 9 rest []
    (by
      intro x hx
      rcases List.mem_cons.mp hx with rfl | hx
      · decide
      · exact hname x hx)
    (by simp; omega)
  have hc1 : cString (i :: id) = i :: id := by
    unfold cString
    rw [List.takeWhile_eq_self_iff]
    intro x hx
    simpa using hid0 x hx
  have hc2 : cString (9 :: name) = 9 :: name := by
    unfold cString
    rw [List.takeWhile_eq_self_iff]
    intro x hx
    rcases List.mem_cons.mp hx with rfl | hx
    · decide
    · simpa using hname0 x hx
  simp only [List.nil_append] at h1 h2
  unfold AllPatternIterator.next
  simp only [List.cons_append, streamRead]
  rw [if_neg (by omega)]
  have h1' : fillField 9 bufferLen (id ++ 9 :: (name ++ 10 :: rest)) (i : Int) []
      = ((9 : Int), name ++ 10 :: rest, i :: id) := h1
  have hn1 : ¬ bufferLen ≤ id.length + 1 := by simp at hidlen; omega
  have hn2 : ¬ bufferLen ≤ name.length + 1 := by omega
  have h2' : fillField 10 bufferLen (name ++ 10 :: rest) (9 : Int) []
      = ((10 : Int), rest, 9 :: name) := h2
  rw [h1']
  simp only [List.length_cons, ge_iff_le, hn1, if_false]
  rw [if_neg (by omega), h2']
  simp only [List.length_cons, ge_iff_le, hn2, if_false, hc1, hc2]

/-- C14 (fails on the code): the stream of the two records `a TAB b NL` and
`cd TAB ef NL` (TAB is byte 9, NL byte 10) read with a buffer of 16 bytes. The first call
of `next` returns true with id `a` but with the name `TAB b`, not `b`; the second returns
true with id `cd` and the name `TAB ef`; the third returns false. Every name comes out
with the separating tab in front. -/
theorem next_keeps_tab_in_name :
    AllPatternIterator.next 16 [97, 9, 98, 10, 99, 100, 9, 101, 102, 10] { id := [], name := [] }
      = some (true, { id := [97], name := [9, 98] }, [99, 100, 9, 101, 102, 10]) ∧
    AllPatternIterator.next 16 [99, 100, 9, 101, 102, 10] { id := [97], name := [9, 98] }
      = some (true, { id := [99, 100], name := [9, 101, 102] }, []) ∧
    AllPatternIterator.next 16 [] { id := [99, 100], name := [9, 101, 102] }
      = some (false, { id := [99, 100], name := [9, 101, 102] }, []) := by
  refine ⟨by decide, by decide, by decide⟩


/-! ## The expander-config exception -/

theorem dispatchBinaryReply_frame (h : ReplyHandler) (c cd : Client)
    (hd : dispatchBinaryReply h c = some cd) : cd = { c with events := cd.events } := by
  unfold dispatchBinaryReply at hd
  cases h with
  | text rt f ts s o => simp [ReplyHandler.bufferId?] at hd
  | binary rt f ts s o b t cl =>
    simp only [ReplyHandler.bufferId?] at hd
    cases hs : c.binaryBuffer.makeReadStream b with
    | none => rw [hs] at hd; cases hd; rfl
    | some stream =>
      rw [hs] at hd
      simp only at hd
      split_ifs at hd
      · cases hd; rfl
      · cases hd; rfl
      · cases hp : readPreviewId c.clientConfig.textReadBufferBytes stream with
        | none => rw [hp] at hd; simp at hd
        | some r => rw [hp] at hd; cases hd; rfl
      · cases hd; rfl
  | sync f ts s w =>
    simp only at hd
    cases hb : w.bufferId? with
    | none => rw [hb] at hd; simp at hd
    | some b =>
      rw [hb] at hd
      simp only at hd
      cases hs : c.binaryBuffer.makeReadStream b with
      | none => rw [hs] at hd; cases hd; rfl
      | some stream =>
        rw [hs] at hd
        simp only at hd
        split_ifs at hd
        · cases hd; rfl
        · cases hd; rfl
        · cases hp : readPreviewId c.clientConfig.textReadBufferBytes stream with
          | none => rw [hp] at hd; simp at hd
          | some r => rw [hp] at hd; cases hd; rfl
        · cases hd; rfl

/-- The dispatch of a binary reply returns for every `BinaryReplyHandler` other than a
preview image handler. -/
theorem dispatchBinaryReply_total (h : ReplyHandler) (c : Client) (t : Int)
    (hb : h.binType? = some t) (hrt : h.replyType ≠ HANDLER_PREVIEW_IMG) :
    ∃ cd, dispatchBinaryReply h c = some cd := by
  cases h with
  | text rt f ts s o => simp [ReplyHandler.binType?] at hb
  | sync f ts s w => simp [ReplyHandler.binType?] at hb
  | binary rt f ts s o b t' cl =>
    simp only [ReplyHandler.replyType] at hrt
    unfold dispatchBinaryReply
    simp only [ReplyHandler.bufferId?, ReplyHandler.replyType]
    cases c.binaryBuffer.makeReadStream b with
    | none => exact ⟨_, rfl⟩
    | some stream =>
      simp only [if_neg hrt]
      split_ifs
      · exact ⟨_, rfl⟩
      · exact ⟨_, rfl⟩
      · exact ⟨_, rfl⟩

/-- The dispatch of the reply of an `ExpanderConfigReplyHandler` invokes no callback and
changes nothing. -/
theorem dispatchBinaryReply_expander (c : Client) (f : Int) (ts : Nat) (s : Bool)
    (o : Option Bool) (b : String) (t : Int) (cl : Bool) :
    dispatchBinaryReply (ReplyHandler.binary HANDLER_EXPANDER_CONF f ts s o b t cl) c
      = some c := by
  unfold dispatchBinaryReply
  simp only [ReplyHandler.bufferId?, ReplyHandler.replyType]
  cases c.binaryBuffer.makeReadStream b with
  | none => rfl
  | some stream =>
    simp only
    rw [if_neg (by decide), if_neg (by decide), if_neg (by decide)]

/-- The search of `handleUnrequestedBinary` passes the slots that do not await an expander
configuration and serves the first one that does. -/
theorem serveExpander_walk (c : Client) (B : ReplyHandler) (post : List ReplyHandler)
    (cd : Client) (hB : awaitsExpander c.consts B = true)
    (hd : dispatchBinaryReply B c = some cd) :
    ∀ (pre : List ReplyHandler) (idxs : List Nat),
      idxs.map c.slot = (pre ++ B :: post).map some →
      (∀ h ∈ pre, awaitsExpander c.consts h = false ∧ castDefined c.consts h = true) →
      serveExpander idxs c
        = some { cd with replyQueue :=
            (cd.replyQueue.set (idxs.getD pre.length 0) (some B.markSatisfied)) } := by
  have hfr := dispatchBinaryReply_frame B c cd hd
  simp only [awaitsExpander, Bool.and_eq_true, decide_eq_true_eq] at hB
  intro pre
  induction pre with
  | nil =>
    intro idxs hmap _
    cases idxs with
    | nil => simp at hmap
    | cons i rest =>
      simp only [List.map_cons, List.nil_append, List.cons.injEq] at hmap
      have hslot : cd.slot i = some B := by
        rw [hfr]; exact hmap.1
      unfold serveExpander
      rw [hmap.1]
      simp only [hB.1, if_true, hB.2, hd, hslot]
      rfl
  | cons p pre ih =>
    intro idxs hmap hpre
    cases idxs with
    | nil => simp at hmap
    | cons i rest =>
      simp only [List.map_cons, List.cons_append, List.cons.injEq] at hmap
      have hp := hpre p (List.mem_cons_self _ _)
      have hrec := ih rest hmap.2 (fun h hh => hpre h (List.mem_cons_of_mem _ hh))
      unfold serveExpander
      rw [hmap.1]
      simp only [awaitsExpander, castDefined, Bool.and_eq_false_iff, Bool.or_eq_true,
        decide_eq_true_eq, decide_eq_false_iff_not] at hp
      by_cases hf : p.format = c.consts.FORMAT_BINARY
      · simp only [hf, if_true]
        cases hbt : p.binType? with
        | none =>
          rcases hp.2 with h1 | h1
          · exact absurd hf h1
          · rw [hbt] at h1; simp at h1
        | some t =>
          simp only
          have hne : t ≠ BIN_TYPE_EXPANDER_CONFIG := by
            rcases hp.1 with h1 | h1
            · exact absurd hf h1
            · intro ht; rw [hbt, ht] at h1; exact h1 rfl
          rw [if_neg hne, hrec]
          simp
      · simp only [hf, if_false]
        rw [hrec]
        simp

/-- The search of `handleUnrequestedBinary` over slots none of which awaits an expander
configuration changes nothing. -/
theorem serveExpander_none (c : Client) :
    ∀ (l : List ReplyHandler) (idxs : List Nat),
      idxs.map c.slot = l.map some →
      (∀ h ∈ l, awaitsExpander c.consts h = false ∧ castDefined c.consts h = true) →
      serveExpander idxs c = some c := by
  intro l
  induction l with
  | nil =>
    intro idxs hmap _
    cases idxs with
    | nil => rfl
    | cons i rest => simp at hmap
  | cons p l ih =>
    intro idxs hmap hl
    cases idxs with
    | nil => simp at hmap
    | cons i rest =>
      simp only [List.map_cons, List.cons.injEq] at hmap
      have hp := hl p (List.mem_cons_self _ _)
      have hrec := ih rest hmap.2 (fun h hh => hl h (List.mem_cons_of_mem _ hh))
      unfold serveExpander
      rw [hmap.1]
      simp only [awaitsExpander, castDefined, Bool.and_eq_false_iff, Bool.or_eq_true,
        decide_eq_true_eq, decide_eq_false_iff_not] at hp
      by_cases hf : p.format = c.consts.FORMAT_BINARY
      · simp only [hf, if_true]
        cases hbt : p.binType? with
        | none =>
          rcases hp.2 with h1 | h1
          · exact absurd hf h1
          · rw [hbt] at h1; simp at h1
        | some t =>
          simp only
          have hne : t ≠ BIN_TYPE_EXPANDER_CONFIG := by
            rcases hp.1 with h1 | h1
            · exact absurd hf h1
            · intro ht; rw [hbt, ht] at h1; exact h1 rfl
          rw [if_neg hne, hrec]
      · simp only [hf, if_false]
        rw [hrec]

/-- Replacing the handler at distance `j` from the front of a well-formed queue by another
handler keeps the queue well formed and replaces the `j`-th pending handler. -/
theorem set_slot_spec (c : Client) (j : Nat) (h : ReplyHandler) (hwf : WellFormed c)
    (hj : j < queueLength c) :
    WellFormed { c with replyQueue :=
      (c.replyQueue.set ((c.queueFront + j) % c.clientConfig.replyQueueSize) (some h)) } ∧
    pending { c with replyQueue :=
      (c.replyQueue.set ((c.queueFront + j) % c.clientConfig.replyQueueSize) (some h)) }
      = (pending c).set j h := by
  have hwf' := hwf
  obtain ⟨hsz, hlen, hf, hb, hnn⟩ := hwf
  have hl := queueLength_lt_size c hf hb
  have hslots : pendingSlots { c with replyQueue :=
      (c.replyQueue.set ((c.queueFront + j) % c.clientConfig.replyQueueSize) (some h)) }
      = (pendingSlots c).set j (some h) := by
    apply List.ext_getElem
    · simp [pendingSlots_length, queueLength]
    · intro k hk1 hk2
      have hk : k < queueLength c := by
        simpa [pendingSlots_length, queueLength] using hk1
      have hidx : (c.queueFront + j) % c.clientConfig.replyQueueSize < c.replyQueue.length := by
        rw [hlen]; exact Nat.mod_lt _ hsz
      by_cases hkj : j = k
      · subst hkj
        simp [pendingSlots, Client.slot, queueLength, List.getD_eq_getElem?_getD, hidx]
      · have hne : (c.queueFront + j) % c.clientConfig.replyQueueSize
            ≠ (c.queueFront + k) % c.clientConfig.replyQueueSize := by
          intro heq
          exact hkj (ring_index_inj _ _ _ _ (by omega) (by omega) heq)
        rw [List.getElem_set_ne hkj]
        simp [pendingSlots, Client.slot, queueLength, List.getD_eq_getElem?_getD,
          List.getElem?_set_ne hne]
  have hall : ∀ s ∈ (pendingSlots c).set j (some h), s ≠ none := by
    intro s hs
    rcases List.mem_or_eq_of_mem_set hs with h1 | h1
    · simp only [pendingSlots, List.mem_map, List.mem_range] at h1
      obtain ⟨k, hk, rfl⟩ := h1
      exact hnn k hk
    · rw [h1]; exact Option.some_ne_none h
  constructor
  · refine ⟨hsz, by simp [hlen], hf, hb, ?_⟩
    intro k hk
    have hk' : k < queueLength c := hk
    have hmem : ((pendingSlots { c with replyQueue :=
        (c.replyQueue.set ((c.queueFront + j) % c.clientConfig.replyQueueSize) (some h)) })[k]?)
        = some (Client.slot { c with replyQueue :=
        (c.replyQueue.set ((c.queueFront + j) % c.clientConfig.replyQueueSize) (some h)) }
          ((c.queueFront + k) % c.clientConfig.replyQueueSize)) := by
      unfold pendingSlots
      rw [List.getElem?_map, List.getElem?_range hk]
      rfl
    rw [hslots] at hmem
    exact hall _ (List.getElem?_mem hmem)
  · unfold pending
    rw [hslots, pendingSlots_eq_map_some c hwf', ← List.map_set, filterMap_id_map_some,
      filterMap_id_map_some]


/-! ## States with the same queue -/

theorem SameQueue.refl (c : Client) : SameQueue c c := ⟨rfl, rfl, rfl, rfl, rfl⟩

theorem SameQueue.trans {a b c : Client} (h1 : SameQueue a b) (h2 : SameQueue b c) :
    SameQueue a c := by
  obtain ⟨a1, a2, a3, a4, a5⟩ := h1
  obtain ⟨b1, b2, b3, b4, b5⟩ := h2
  exact ⟨b1.trans a1, b2.trans a2, b3.trans a3, b4.trans a4, b5.trans a5⟩

theorem SameQueue.queueLength_eq {c c' : Client} (h : SameQueue c c') :
    queueLength c' = queueLength c := by
  obtain ⟨h1, _, _, h4, h5⟩ := h
  unfold queueLength
  rw [h1, h4, h5]

theorem SameQueue.slot_eq {c c' : Client} (h : SameQueue c c') (i : Nat) :
    c'.slot i = c.slot i := by
  unfold Client.slot
  rw [h.2.2.1]

theorem SameQueue.pending_eq {c c' : Client} (h : SameQueue c c') : pending c' = pending c := by
  unfold pending pendingSlots
  rw [h.queueLength_eq, h.1, h.2.2.2.1]
  simp only [h.slot_eq]

theorem SameQueue.wellFormed {c c' : Client} (h : SameQueue c c') (hwf : WellFormed c) :
    WellFormed c' := by
  unfold WellFormed
  rw [h.queueLength_eq, h.1, h.2.2.1, h.2.2.2.1, h.2.2.2.2]
  simp only [h.slot_eq]
  exact hwf

theorem queueIndices_getD (c : Client) (hwf : WellFormed c) (j : Nat)
    (hj : j < queueLength c) :
    (queueIndices c).getD j 0 = (c.queueFront + j) % c.clientConfig.replyQueueSize := by
  rw [queueIndices_eq c hwf.2.2.1 hwf.2.2.2.1]
  simp [List.getD_eq_getElem?_getD, List.getElem?_map, List.getElem?_range hj]

theorem set_getElem_append (pre post : List ReplyHandler) (B B' : ReplyHandler) :
    (pre ++ B :: post).set pre.length B' = pre ++ B' :: post := by
  induction pre with
  | nil => rfl
  | cons p pre ih => simp [List.set, ih]

/-- An expander-config frame handed to `handleUnrequestedBinary` on a well-formed queue: the
first pending handler awaiting an expander configuration gets its reply dispatched and is
marked satisfied; the other slots and the cursors are unchanged. -/
theorem handleUnrequestedBinary_expander (c cd : Client) (B : ReplyHandler)
    (pre post : List ReplyHandler) (hwf : WellFormed c)
    (hp : pending c = pre ++ B :: post)
    (hpre : ∀ h ∈ pre, awaitsExpander c.consts h = false ∧ castDefined c.consts h = true)
    (hB : awaitsExpander c.consts B = true)
    (hd : dispatchBinaryReply B c = some cd) :
    ∃ c', handleUnrequestedBinary BIN_TYPE_EXPANDER_CONFIG c = some (true, c') ∧
      c' = { cd with replyQueue :=
        (cd.replyQueue.set ((c.queueFront + pre.length) % c.clientConfig.replyQueueSize)
          (some B.markSatisfied)) } ∧
      WellFormed c' ∧ pending c' = pre ++ B.markSatisfied :: post := by
  have hfr := dispatchBinaryReply_frame B c cd hd
  have hsame : SameQueue c cd := by
    rw [hfr]; exact ⟨rfl, rfl, rfl, rfl, rfl⟩
  have hlen : pre.length < queueLength c := by
    rw [← pending_length c hwf, hp]
    simp
  have hmap : (queueIndices c).map c.slot = (pre ++ B :: post).map some := by
    rw [← pendingSlots_eq_map_indices c hwf.2.2.1 hwf.2.2.2.1, pendingSlots_eq_map_some c hwf,
      hp]
  have hwalk := serveExpander_walk c B post cd hB hd pre (queueIndices c) hmap hpre
  rw [queueIndices_getD c hwf _ hlen] at hwalk
  have hset := set_slot_spec cd pre.length B.markSatisfied (hsame.wellFormed hwf)
    (by rw [hsame.queueLength_eq]; exact hlen)
  rw [hsame.pending_eq, hp, set_getElem_append] at hset
  obtain ⟨e, he⟩ : ∃ e, cd = { c with events := e } := ⟨cd.events, hfr⟩
  subst he
  refine ⟨_, ?_, rfl, hset.1, hset.2⟩
  unfold handleUnrequestedBinary
  rw [if_neg (by decide), if_pos rfl, hwalk]

theorem weedLoop_keep (now n : Nat) (c : Client) (A : ReplyHandler)
    (hslot : c.slot c.queueFront = some A) (hkeep : weedReply c.clientConfig now A = false) :
    weedLoop now (n + 1) c = some c := by
  unfold weedLoop
  by_cases hpos : queueLength c > 0
  · rw [if_pos hpos, hslot]
    simp [hkeep]
  · rw [if_neg hpos]

/-- A binary message arrives while the front slot of a non-empty queue is unsatisfied and
seeks text: the loop body of `checkForInbound` is `seekingTextHasBinary`. -/
theorem handleInbound_binary_seeking_text (deserializeJson : List Nat → Option JsonValue)
    (m : InboundMessage) (c : Client) (h : ReplyHandler)
    (hpos : 0 < queueLength c) (hslot : c.slot c.queueFront = some h)
    (hunsat : h.isSatisfied = false) (hfmt : h.format = c.consts.FORMAT_TEXT)
    (hne : c.consts.FORMAT_TEXT ≠ c.consts.FORMAT_BINARY)
    (hm : m.format = c.consts.FORMAT_BINARY) :
    handleInbound deserializeJson m c = seekingTextHasBinary c := by
  unfold handleInbound
  rw [dropSatisfied_unsat _ c h hslot hunsat]
  simp only
  rw [if_neg (by omega), hslot]
  simp only
  rw [rotateLoop_not_binary _ _ _ _ _ _ (by rw [hfmt]; exact hne)]
  simp only [hfmt, hm, ne_eq, not_true_eq_false, false_and, if_false, if_true]
  rw [if_neg (fun h => hne h.symm)]


/-- Two evaluations of `checkForInbound` on a queue of capacity 4
whose front slot A is an unsatisfied ping handler (text), one expander-config binary frame
(type byte 9) waiting. (1) Two expander-config slots B1, B2 behind A, nothing expired: B1
is marked satisfied; B2, an expander-config binary slot behind A, is not marked
satisfied. (2) One expander-config slot B behind A, the tick coming when A has expired but
B has not: `weedExpiredReplies` removes A before the frame is looked at, A is neither at
the front nor pending afterwards, and B is not marked satisfied. -/
theorem expander_frame_not_always_delivered :
    (checkForInbound ackDecoder 10 [{ format := 2, body := [9, 4, 1, 2, 3], atMs := 10 }]
      (clientWith 4 [pingHandler 0, expanderHandler 0 "x1", expanderHandler 0 "x2"])).map
        pending
      = some [pingHandler 0, (expanderHandler 0 "x1").markSatisfied, expanderHandler 0 "x2"] ∧
    (checkForInbound ackDecoder 6000 [{ format := 2, body := [9, 4, 1, 2, 3], atMs := 6000 }]
      (clientWith 4 [pingHandler 0, expanderHandler 5000 "x1"])).map pending
      = some [expanderHandler 5000 "x1"] := by
  refine ⟨by decide, by decide⟩

/-- The search for a slot awaiting an expander configuration, behind a text slot at the
front. A well-formed queue whose front slot A seeks text and is neither
satisfied nor expired at the tick, and behind A, after slots `pre` that do not await an
expander configuration, a slot B that does (binary, `binType` 9, not a preview image
handler). `checkForInbound` finds one binary message within its time budget, whose type
byte is 9. Then `checkForInbound` returns; the reply of B is dispatched
(`dispatchBinaryReply` on B, in the state in which the type byte has been read) and B is
marked satisfied in its slot; every other slot and the cursors are unchanged, so A is still
the front slot, unsatisfied and pending, and the pending handlers are the former ones with
B marked. -/
theorem expander_frame_served_out_of_order (deserializeJson : List Nat → Option JsonValue)
    (c : Client) (now : Nat) (m : InboundMessage) (A B : ReplyHandler)
    (pre post : List ReplyHandler) (payload : List Nat)
    (hwf : WellFormed c) (hp : pending c = A :: (pre ++ B :: post))
    (hA : A.format = c.consts.FORMAT_TEXT) (hunsat : A.isSatisfied = false)
    (hlive : ¬ (A.requestTsMs + c.clientConfig.maxResponseWaitMs) % 2 ^ 32 < now)
    (hne : c.consts.FORMAT_TEXT ≠ c.consts.FORMAT_BINARY)
    (hpre : ∀ h ∈ pre, awaitsExpander c.consts h = false ∧ castDefined c.consts h = true)
    (hB : awaitsExpander c.consts B = true) (hrt : B.replyType ≠ HANDLER_PREVIEW_IMG)
    (hm : m.format = c.consts.FORMAT_BINARY)
    (hbody : m.body = 9 :: payload)
    (hbudget : (now + c.clientConfig.maxInboundCheckMs) % 2 ^ 32 > m.atMs) :
    ∃ cd c', dispatchBinaryReply B { c with wsClient := { c.wsClient with body := payload } }
        = some cd ∧
      checkForInbound deserializeJson now [m] c = some c' ∧
      c' = { cd with replyQueue :=
        (cd.replyQueue.set ((c.queueFront + (pre.length + 1)) % c.clientConfig.replyQueueSize)
          (some B.markSatisfied)) } ∧
      B.markSatisfied.satisfied = true ∧
      pending c' = A :: (pre ++ B.markSatisfied :: post) ∧
      c'.slot c'.queueFront = some A ∧
      c'.queueFront = c.queueFront ∧ c'.queueBack = c.queueBack ∧
      WellFormed c' := by
  have hpos : 0 < queueLength c := by
    rw [← pending_length c hwf, hp]; simp
  obtain ⟨A', hslotA, hcons⟩ := front_slot c hwf hpos
  rw [hp] at hcons
  have hAA : A' = A := by
    have := List.head_eq_of_cons_eq hcons
    exact this.symm
  subst hAA
  have hkeep : weedReply c.clientConfig now A' = false := by
    simp only [weedReply, hunsat, Bool.false_or, decide_eq_false_iff_not]
    exact hlive
  have hweed : weedExpiredReplies now c = some c := weedLoop_keep now _ c A' hslotA hkeep
  obtain ⟨t, ht⟩ : ∃ t, B.binType? = some t := by
    simp only [awaitsExpander, Bool.and_eq_true, decide_eq_true_eq] at hB
    exact ⟨_, hB.2⟩
  obtain ⟨c1, hc1⟩ : ∃ c1, c1 = { c with wsClient := { c.wsClient with body := m.body } } :=
    ⟨_, rfl⟩
  obtain ⟨c2, hc2⟩ : ∃ c2, c2 = { c with wsClient := { c.wsClient with body := payload } } :=
    ⟨_, rfl⟩
  have hs1 : SameQueue c c1 := by rw [hc1]; exact ⟨rfl, rfl, rfl, rfl, rfl⟩
  have hs2 : SameQueue c c2 := by rw [hc2]; exact ⟨rfl, rfl, rfl, rfl, rfl⟩
  obtain ⟨cd, hd⟩ := dispatchBinaryReply_total B c2 t ht hrt
  have hserve := handleUnrequestedBinary_expander c2 cd B (A' :: pre) post
    (hs2.wellFormed hwf) (by rw [hs2.pending_eq, hp]; rfl)
    (by
      intro h hh
      rw [hs2.2.1]
      rcases List.mem_cons.mp hh with h1 | h1
      · subst h1
        simp only [awaitsExpander, castDefined, hA, hne, decide_False, Bool.false_and,
          ne_eq, not_false_eq_true, decide_True, Bool.true_or, and_self]
      · exact hpre h h1)
    (by rw [hs2.2.1]; exact hB) hd
  obtain ⟨c', hc', hceq, hwf', hp'⟩ := hserve
  have hread : seekingTextHasBinary c1 = some c' := by
    unfold seekingTextHasBinary
    have hr : c1.wsClient.read = ((9 : Int), { c.wsClient with body := payload }) := by
      rw [hc1]
      simp only [WebSocketClient.read, hbody]
      rfl
    rw [hr]
    simp only
    have hst : { c1 with wsClient := { c.wsClient with body := payload } } = c2 := by
      rw [hc1, hc2]
    rw [hst]
    have h9 : ((9 : Int)) = BIN_TYPE_EXPANDER_CONFIG := rfl
    rw [h9, hc']
    rfl
  have hin : handleInbound deserializeJson m c1 = some c' := by
    rw [handleInbound_binary_seeking_text deserializeJson m c1 A'
      (by rw [hs1.queueLength_eq]; exact hpos)
      (by rw [hs1.slot_eq, hs1.2.2.2.1]; exact hslotA) hunsat
      (by rw [hs1.2.1]; exact hA) (by rw [hs1.2.1]; exact hne) (by rw [hs1.2.1]; exact hm)]
    exact hread
  have hfr := dispatchBinaryReply_frame B c2 cd hd
  have hq : c'.queueFront = c.queueFront ∧ c'.queueBack = c.queueBack := by
    rw [hceq, hfr, hc2]
    exact ⟨rfl, rfl⟩
  have hfront : c'.slot c'.queueFront = some A' := by
    obtain ⟨h0, hh0, hcons0⟩ := front_slot c' hwf' (by
      rw [← pending_length c' hwf', hp']; simp)
    rw [hp'] at hcons0
    have := List.head_eq_of_cons_eq hcons0
    rw [hh0, ← this]
  refine ⟨cd, c', by rw [← hc2]; exact hd, ?_, ?_, ?_, hp', hfront, hq.1, hq.2, hwf'⟩
  · unfold checkForInbound
    rw [hweed]
    simp only [inboundLoop]
    rw [if_pos ⟨by rw [hbody]; simp, hbudget⟩]
    rw [← hc1, hin]
  · subst hc2
    exact hceq
  · cases B with
    | text rt f ts s o => rfl
    | binary rt f ts s o b t cl => rfl
    | sync f ts s w => rfl

/-- An instance of `expander_frame_served_out_of_order`: capacity 4, a ping handler in
front of a pattern list
handler and two expander-config handlers; the frame is served to the first of the two. -/
theorem expander_frame_served_out_of_order_witness :
    WellFormed (clientWith 4 [pingHandler 0, patternsHandler 0, expanderHandler 0 "x1"]) ∧
    ∃ c', checkForInbound ackDecoder 10 [{ format := 2, body := [9, 4, 1, 2, 3], atMs := 10 }]
        (clientWith 4 [pingHandler 0, patternsHandler 0, expanderHandler 0 "x1"]) = some c' ∧
      pending c' = [pingHandler 0, patternsHandler 0, (expanderHandler 0 "x1").markSatisfied] ∧
      c'.slot c'.queueFront = some (pingHandler 0) := by
  refine ⟨by decide, ?_⟩
  obtain ⟨cd, c', _, h2, _, _, h5, h6, _⟩ := expander_frame_served_out_of_order ackDecoder
    (clientWith 4 [pingHandler 0, patternsHandler 0, expanderHandler 0 "x1"]) 10
    { format := 2, body := [9, 4, 1, 2, 3], atMs := 10 } (pingHandler 0)
    (expanderHandler 0 "x1") [patternsHandler 0] [] [4, 1, 2, 3]
    (by decide) (by decide) (by decide) (by decide) (by decide) (by decide)
    (by decide) (by decide) (by decide) (by decide) rfl (by decide)
  exact ⟨c', h2, h5, h6⟩


/-! ## The invariant of the queue -/

theorem QueueInv.of_same {c c' : Client} (h : SameQueue c c') (hi : QueueInv c) :
    QueueInv c' := by
  obtain ⟨hwf, hk, hiss, hpw⟩ := hi
  refine ⟨h.wellFormed hwf, ?_, ?_, ?_⟩
  · rw [h.2.1]; exact hk
  · rw [h.pending_eq, h.2.1]; exact hiss
  · rw [h.pending_eq, h.2.1]; exact hpw

theorem QueueInv.of_sublist {c c' : Client} (hwf : WellFormed c') (hk : c'.consts = c.consts)
    (hs : (pending c').Sublist (pending c)) (hi : QueueInv c) : QueueInv c' := by
  obtain ⟨_, hk0, hiss, hpw⟩ := hi
  refine ⟨hwf, by rw [hk]; exact hk0, ?_, ?_⟩
  · intro h hh; rw [hk]; exact hiss h (hs.subset hh)
  · rw [hk]; exact hpw.sublist hs

theorem QueueInv.of_empty {c : Client} (hwf : WellFormed c) (hk : SaneConstants c.consts)
    (h0 : queueLength c = 0) : QueueInv c := by
  have hp : pending c = [] := by
    unfold pending
    rw [pendingSlots_nil c h0]
    rfl
  refine ⟨hwf, hk, ?_, ?_⟩
  · rw [hp]; intro h hh; cases hh
  · rw [hp]; exact List.Pairwise.nil

theorem dequeueReply_inv (c c' : Client) (hi : QueueInv c) (hd : dequeueReply c = some c') :
    QueueInv c' ∧ c'.consts = c.consts ∧ c'.clientConfig = c.clientConfig := by
  by_cases hpos : 0 < queueLength c
  · obtain ⟨c1, h1, heq, hwf1, hp1⟩ := dequeueReply_spec c hi.1 hpos
    rw [h1] at hd
    cases hd
    have hk : c'.consts = c.consts := by rw [heq]
    have hcfg : c'.clientConfig = c.clientConfig := by rw [heq]
    exact ⟨QueueInv.of_sublist hwf1 hk (by rw [hp1]; exact List.tail_sublist _) hi, hk, hcfg⟩
  · unfold dequeueReply at hd
    rw [if_pos (by omega)] at hd
    cases hd
    exact ⟨hi, rfl, rfl⟩

theorem weedExpiredReplies_inv (now : Nat) (c c' : Client) (hi : QueueInv c)
    (hw : weedExpiredReplies now c = some c') : QueueInv c' := by
  obtain ⟨c1, h1, heq, hwf1, hp1⟩ := weedLoop_spec now (queueLength c + 1) c hi.1 (by omega)
  unfold weedExpiredReplies at hw
  rw [h1] at hw
  cases hw
  exact QueueInv.of_sublist hwf1 (by rw [heq])
    (by rw [hp1]; exact List.dropWhile_sublist _) hi

theorem dropSatisfied_inv :
    ∀ (fuel : Nat) (c c' : Client), QueueInv c → dropSatisfied fuel c = some c' →
      QueueInv c' ∧ c'.consts = c.consts ∧ c'.clientConfig = c.clientConfig ∧
      (queueLength c' = 0 ∨ ∃ h, c'.slot c'.queueFront = some h ∧ h.isSatisfied = false) := by
  intro fuel
  induction fuel with
  | zero => intro c c' _ h; simp [dropSatisfied] at h
  | succ fuel ih =>
    intro c c' hi h
    unfold dropSatisfied at h
    by_cases hpos : queueLength c > 0
    · rw [if_pos hpos] at h
      cases hs : c.slot c.queueFront with
      | none => rw [hs] at h; simp at h
      | some hd =>
        rw [hs] at h
        simp only at h
        by_cases hsat : hd.isSatisfied = true
        · rw [if_pos hsat] at h
          cases hdq : dequeueReply c with
          | none => rw [hdq] at h; simp at h
          | some c1 =>
            rw [hdq] at h
            simp only at h
            obtain ⟨hi1, hk1, hcfg1⟩ := dequeueReply_inv c c1 hi hdq
            obtain ⟨hi2, hk2, hcfg2, hfront⟩ := ih c1 c' hi1 h
            exact ⟨hi2, hk2.trans hk1, hcfg2.trans hcfg1, hfront⟩
        · rw [if_neg hsat] at h
          cases h
          exact ⟨hi, rfl, rfl, Or.inr ⟨hd, hs, by simpa using hsat⟩⟩
    · rw [if_neg hpos] at h
      cases h
      exact ⟨hi, rfl, rfl, Or.inl (by omega)⟩

theorem compactQueue_inv (now : Nat) (c c' : Client) (hi : QueueInv c)
    (hc : compactQueue now c = some c') :
    QueueInv c' ∧ c'.consts = c.consts ∧ c'.clientConfig = c.clientConfig := by
  obtain ⟨c1, h1, hwf1, hcfg1, hp1, _⟩ := compactQueue_spec now c hi.1
  have hfr := compactQueue_frame now c c' hc
  rw [h1] at hc
  cases hc
  have hk : c'.consts = c.consts := by rw [hfr]
  exact ⟨QueueInv.of_sublist hwf1 hk (by rw [hp1]; exact List.filter_sublist _) hi, hk, hcfg1⟩

/-- Storing one unsatisfied handler a request created keeps the invariant: with room for
it the handler is appended; without, the cursors coincide and the queue reads as empty. -/
theorem push_inv (c : Client) (h : ReplyHandler) (hi : QueueInv c)
    (hiss : Issued c.consts h) (hunsat : h.isSatisfied = false) :
    QueueInv { c with replyQueue := c.replyQueue.set c.queueBack (some h),
                      queueBack := (c.queueBack + 1) % c.clientConfig.replyQueueSize } ∧
    queueLength { c with replyQueue := c.replyQueue.set c.queueBack (some h),
                         queueBack := (c.queueBack + 1) % c.clientConfig.replyQueueSize }
      ≤ queueLength c + 1 := by
  obtain ⟨hwf, hk, hall, hpw⟩ := hi
  have hwf' := hwf
  obtain ⟨hsz, hlen, hf, hb, hnn⟩ := hwf
  have hlt := queueLength_lt_size c hf hb
  by_cases hroom : queueLength c + 1 < c.clientConfig.replyQueueSize
  · obtain ⟨hwf1, hp1, hq1⟩ := push_spec c h hwf' hroom
    refine ⟨⟨hwf1, hk, ?_, ?_⟩, by omega⟩
    · rw [hp1]
      intro x hx
      rcases List.mem_append.mp hx with h1 | h1
      · exact hall x h1
      · rw [List.mem_singleton] at h1
        rw [h1]; exact hiss
    · rw [hp1, List.pairwise_append]
      refine ⟨hpw, List.pairwise_singleton _ _, ?_⟩
      intro a _ b hb' _ _
      rw [List.mem_singleton] at hb'
      rw [hb']; exact hunsat
  · have hq0 : queueLength { c with
        replyQueue := c.replyQueue.set c.queueBack (some h),
        queueBack := (c.queueBack + 1) % c.clientConfig.replyQueueSize } = 0 := by
      unfold queueLength at *
      simp only
      rcases succ_mod_cases _ _ hb with ⟨h1, h2⟩ | ⟨h1, h2⟩ <;> rw [h2] <;>
        split_ifs at * <;> omega
    refine ⟨QueueInv.of_empty ⟨hsz, by simp [hlen], hf, Nat.mod_lt _ hsz, ?_⟩ hk hq0, by omega⟩
    intro k hk'
    rw [hq0] at hk'
    omega

theorem storeReplies_inv :
    ∀ (args : List (Option ReplyHandler)) (c : Client), QueueInv c →
      (∀ h, some h ∈ args → Issued c.consts h) →
      QueueInv (storeReplies args c) ∧ (storeReplies args c).consts = c.consts ∧
      (storeReplies args c).clientConfig = c.clientConfig := by
  intro args
  induction args with
  | nil => intro c hi _; exact ⟨hi, rfl, rfl⟩
  | cons a rest ih =>
    intro c hi hargs
    unfold storeReplies
    by_cases hw : wanted a = true
    · rw [if_pos hw]
      cases a with
      | none => simp [wanted] at hw
      | some h =>
        have hunsat : h.isSatisfied = false := by simpa [wanted] using hw
        have hp := push_inv c h hi (hargs h (List.mem_cons_self _ _)) hunsat
        have hrec := ih _ hp.1 (fun x hx => hargs x (List.mem_cons_of_mem _ hx))
        exact ⟨hrec.1, hrec.2.1, hrec.2.2⟩
    · rw [if_neg hw]
      exact ih c hi (fun x hx => hargs x (List.mem_cons_of_mem _ hx))

theorem enqueueReplies_inv (now : Nat) (args : List (Option ReplyHandler)) (c c1 : Client)
    (ok : Bool) (hi : QueueInv c) (hargs : ∀ h, some h ∈ args → Issued c.consts h)
    (he : enqueueReplies now args c = some (ok, c1)) :
    QueueInv c1 ∧ c1.consts = c.consts ∧ c1.clientConfig = c.clientConfig := by
  rw [enqueueReplies_eq] at he
  split_ifs at he with h0 h1 h2
  · cases he; exact ⟨hi, rfl, rfl⟩
  · cases he; exact ⟨hi, rfl, rfl⟩
  · cases hc : compactQueue now c with
    | none => rw [hc] at he; simp at he
    | some c0 =>
      rw [hc] at he
      simp only at he
      obtain ⟨hi0, hk0, hcfg0⟩ := compactQueue_inv now c c0 hi hc
      split_ifs at he
      · cases he; exact ⟨hi0, hk0, hcfg0⟩
      · cases he
        obtain ⟨hs1, hs2, hs3⟩ := storeReplies_inv args c0 hi0 (by rw [hk0]; exact hargs)
        exact ⟨hs1, hs2.trans hk0, hs3.trans hcfg0⟩
  · cases he
    exact storeReplies_inv args c hi hargs

theorem handlers_issued (now : Nat) (k : Constants) (r : Request) :
    ∀ h, some h ∈ Request.handlers now k r → Issued k h := by
  intro h hh
  cases r <;>
    simp only [Request.handlers, List.mem_cons, List.mem_singleton, Option.some.injEq,
      List.mem_nil_iff, or_false] at hh
  all_goals
    first
    | (subst hh; exact ⟨rfl, rfl⟩)
    | (rcases hh with h1 | h1 | h1 <;> subst h1 <;> exact ⟨rfl, rfl⟩)

theorem issue_inv (now : Nat) (r : Request) (c c1 : Client) (ok : Bool) (hi : QueueInv c)
    (hr : r.issue now c = some (ok, c1)) : QueueInv c1 := by
  obtain ⟨f, hf, hissue⟩ := issue_eq now r c
  rw [hissue] at hr
  cases he : enqueueReplies now (r.handlers now c.consts) c with
  | none => rw [he] at hr; simp at hr
  | some res =>
    obtain ⟨ok0, c0⟩ := res
    rw [he] at hr
    simp only at hr
    obtain ⟨hi0, _, _⟩ := enqueueReplies_inv now _ c c0 ok0 hi (handlers_issued now _ r) he
    cases ok0
    · simp only [Bool.not_false, if_true] at hr
      cases hr
      exact hi0
    · simp only [Bool.not_true, Bool.false_eq_true, if_false] at hr
      cases hr
      obtain ⟨_, h2, h3, h4, h5, h6, _⟩ := hf c0
      exact hi0.of_same ⟨h5, h6, h2, h3, h4⟩


theorem serveExpander_skip (c : Client) (i : Nat) (rest : List Nat) (p : ReplyHandler)
    (hs : c.slot i = some p)
    (hp : awaitsExpander c.consts p = false ∧ castDefined c.consts p = true) :
    serveExpander (i :: rest) c = serveExpander rest c := by
  conv => lhs; unfold serveExpander
  rw [hs]
  simp only [awaitsExpander, castDefined, Bool.and_eq_false_iff, Bool.or_eq_true,
    decide_eq_true_eq, decide_eq_false_iff_not] at hp
  by_cases hf : p.format = c.consts.FORMAT_BINARY
  · simp only [hf, if_true]
    cases hbt : p.binType? with
    | none =>
      rcases hp.2 with h1 | h1
      · exact absurd hf h1
      · rw [hbt] at h1; simp at h1
    | some t =>
      simp only
      have hne : t ≠ BIN_TYPE_EXPANDER_CONFIG := by
        rcases hp.1 with h1 | h1
        · exact absurd hf h1
        · intro ht; rw [hbt, ht] at h1; exact h1 rfl
      rw [if_neg hne]
  · simp only [hf, if_false]

/-- When the dispatch of the reply of the first slot awaiting an expander configuration
has no defined result, neither has the search. -/
theorem serveExpander_fail (c : Client) (B : ReplyHandler) (post : List ReplyHandler)
    (hB : awaitsExpander c.consts B = true) (hd : dispatchBinaryReply B c = none) :
    ∀ (pre : List ReplyHandler) (idxs : List Nat),
      idxs.map c.slot = (pre ++ B :: post).map some →
      (∀ h ∈ pre, awaitsExpander c.consts h = false ∧ castDefined c.consts h = true) →
      serveExpander idxs c = none := by
  simp only [awaitsExpander, Bool.and_eq_true, decide_eq_true_eq] at hB
  intro pre
  induction pre with
  | nil =>
    intro idxs hmap _
    cases idxs with
    | nil => simp at hmap
    | cons i rest =>
      simp only [List.map_cons, List.nil_append, List.cons.injEq] at hmap
      unfold serveExpander
      rw [hmap.1]
      simp only [hB.1, if_true, hB.2, hd]
  | cons p pre ih =>
    intro idxs hmap hpre
    cases idxs with
    | nil => simp at hmap
    | cons i rest =>
      simp only [List.map_cons, List.cons_append, List.cons.injEq] at hmap
      rw [serveExpander_skip c i rest p hmap.1 (hpre p (List.mem_cons_self _ _))]
      exact ih rest hmap.2 (fun h hh => hpre h (List.mem_cons_of_mem _ hh))

theorem split_first (P : ReplyHandler → Bool) :
    ∀ l : List ReplyHandler, (∀ h ∈ l, P h = false) ∨
      ∃ pre B post, l = pre ++ B :: post ∧ (∀ h ∈ pre, P h = false) ∧ P B = true := by
  intro l
  induction l with
  | nil => left; intro h hh; cases hh
  | cons a l ih =>
    by_cases ha : P a = true
    · right
      exact ⟨[], a, l, rfl, fun h hh => (by cases hh), ha⟩
    · have ha' : P a = false := by simpa using ha
      rcases ih with h1 | ⟨pre, B, post, h1, h2, h3⟩
      · left
        intro h hh
        rcases List.mem_cons.mp hh with h4 | h4
        · rw [h4]; exact ha'
        · exact h1 h h4
      · right
        refine ⟨a :: pre, B, post, by rw [h1]; rfl, ?_, h3⟩
        intro h hh
        rcases List.mem_cons.mp hh with h4 | h4
        · rw [h4]; exact ha'
        · exact h2 h h4

theorem Issued.castDefined {k : Constants} {h : ReplyHandler} (hk : SaneConstants k)
    (hi : Issued k h) : castDefined k h = true := by
  obtain ⟨h1, h2, h3⟩ := hk
  cases h with
  | text rt f ts s o =>
    obtain ⟨hf, _⟩ := hi
    simp only [Pixelblaze.castDefined, ReplyHandler.format, Bool.or_eq_true, decide_eq_true_eq]
    left
    rw [hf, ← h1]; exact h3
  | binary rt f ts s o b t cl =>
    simp [Pixelblaze.castDefined, ReplyHandler.binType?]
  | sync f ts s w => exact absurd hi id

theorem Issued.markSatisfied {k : Constants} {h : ReplyHandler} (hi : Issued k h) :
    Issued k h.markSatisfied ∧ h.markSatisfied.isSatisfied = true ∧
    awaitsExpander k h.markSatisfied = awaitsExpander k h := by
  cases h with
  | text rt f ts s o =>
    obtain ⟨hf, ho⟩ := hi
    subst ho
    exact ⟨⟨hf, rfl⟩, rfl, rfl⟩
  | binary rt f ts s o b t cl =>
    obtain ⟨hf, ho⟩ := hi
    subst ho
    exact ⟨⟨hf, rfl⟩, rfl, rfl⟩
  | sync f ts s w => exact absurd hi id

theorem handleUnrequestedBinary_inv (frameType : Int) (c c' : Client) (handled : Bool)
    (hi : QueueInv c) (h : handleUnrequestedBinary frameType c = some (handled, c')) :
    QueueInv c' ∧ c'.consts = c.consts ∧ c'.clientConfig = c.clientConfig ∧
    queueLength c' = queueLength c ∧ c'.queueFront = c.queueFront := by
  unfold handleUnrequestedBinary at h
  by_cases h5 : frameType = BIN_TYPE_PREVIEW_FRAME
  · rw [if_pos h5] at h
    cases h
    exact ⟨hi.of_same ⟨rfl, rfl, rfl, rfl, rfl⟩, rfl, rfl, rfl, rfl⟩
  · rw [if_neg h5] at h
    by_cases h9 : frameType = BIN_TYPE_EXPANDER_CONFIG
    · rw [if_pos h9] at h
      obtain ⟨hwf, hk, hall, hpw⟩ := hi
      have hmap : (queueIndices c).map c.slot = (pending c).map some := by
        rw [← pendingSlots_eq_map_indices c hwf.2.2.1 hwf.2.2.2.1,
          pendingSlots_eq_map_some c hwf]
      rcases split_first (awaitsExpander c.consts) (pending c) with hnone |
          ⟨pre, B, post, hsplit, hpre, hB⟩
      · rw [serveExpander_none c (pending c) (queueIndices c) hmap
          (fun x hx => ⟨hnone x hx, (hall x hx).castDefined hk⟩)] at h
        cases h
        exact ⟨⟨hwf, hk, hall, hpw⟩, rfl, rfl, rfl, rfl⟩
      · have hpre' : ∀ x ∈ pre,
            awaitsExpander c.consts x = false ∧ castDefined c.consts x = true := by
          intro x hx
          have hx' : x ∈ pending c := by rw [hsplit]; exact List.mem_append_left _ hx
          exact ⟨hpre x hx, (hall x hx').castDefined hk⟩
        cases hd : dispatchBinaryReply B c with
        | none =>
          rw [serveExpander_fail c B post hB hd pre (queueIndices c)
            (by rw [hmap, hsplit]) hpre'] at h
          simp at h
        | some cd =>
          obtain ⟨c1, hc1, hceq, hwf1, hp1⟩ :=
            handleUnrequestedBinary_expander c cd B pre post hwf hsplit hpre' hB hd
          have hfr := dispatchBinaryReply_frame B c cd hd
          have hBmem : B ∈ pending c := by rw [hsplit]; simp
          obtain ⟨hm1, hm2, hm3⟩ := (hall B hBmem).markSatisfied
          have hserve : serveExpander (queueIndices c) c = some c1 := by
            unfold handleUnrequestedBinary at hc1
            rw [if_neg (by decide), if_pos rfl] at hc1
            cases hse : serveExpander (queueIndices c) c with
            | none => rw [hse] at hc1; simp at hc1
            | some cx =>
              rw [hse] at hc1
              simp only [Option.some.injEq, Prod.mk.injEq, true_and] at hc1
              rw [hc1]
          rw [hserve] at h
          cases h
          have hk1 : c'.consts = c.consts := by rw [hceq, hfr]
          have hcfg1 : c'.clientConfig = c.clientConfig := by rw [hceq, hfr]
          have hf1 : c'.queueFront = c.queueFront := by rw [hceq, hfr]
          have hq1 : queueLength c' = queueLength c := by
            rw [← pending_length c' hwf1, ← pending_length c hwf, hp1, hsplit]
            simp
          refine ⟨⟨hwf1, by rw [hk1]; exact hk, ?_, ?_⟩, hk1, hcfg1, hq1, hf1⟩
          · rw [hp1, hk1]
            intro x hx
            rcases List.mem_append.mp hx with h1 | h1
            · exact hall x (by rw [hsplit]; exact List.mem_append_left _ h1)
            · rcases List.mem_cons.mp h1 with h2 | h2
              · rw [h2]; exact hm1
              · exact hall x (by
                  rw [hsplit]
                  exact List.mem_append_right _ (List.mem_cons_of_mem _ h2))
          · rw [hp1, hk1]
            rw [hsplit, List.pairwise_append, List.pairwise_cons] at hpw
            rw [List.pairwise_append, List.pairwise_cons]
            refine ⟨hpw.1, ⟨?_, hpw.2.1.2⟩, ?_⟩
            · intro b _ _ hunsat
              rw [hm2] at hunsat
              cases hunsat
            · intro a ha b _ haw _
              rw [hpre a ha] at haw
              cases haw
    · rw [if_neg h9] at h
      cases h
      exact ⟨hi, rfl, rfl, rfl, rfl⟩

theorem copyLoop_same (bufferId : String) :
    ∀ (fuel available : Nat) (c c' : Client) (ok : Bool),
      copyLoop bufferId fuel available c = some (ok, c') → SameQueue c c' := by
  intro fuel
  induction fuel with
  | zero => intro available c c' ok h; simp [copyLoop] at h
  | succ fuel ih =>
    intro available c c' ok h
    unfold copyLoop at h
    by_cases hav : available > 0
    · rw [if_pos hav] at h
      simp only at h
      split_ifs at h
      · cases h
        exact ⟨rfl, rfl, rfl, rfl, rfl⟩
      · have h2 := ih _ _ _ _ h
        exact SameQueue.trans ⟨rfl, rfl, rfl, rfl, rfl⟩ h2
    · rw [if_neg hav] at h
      cases h
      exact SameQueue.refl c

theorem readBinaryToStream_same (bufferId : String) (append : Bool) (c c' : Client)
    (ok : Bool) (h : readBinaryToStream bufferId append c = some (ok, c')) :
    SameQueue c c' := by
  unfold readBinaryToStream at h
  simp only at h
  split_ifs at h <;>
    first
    | (cases h; exact ⟨rfl, rfl, rfl, rfl, rfl⟩)
    | (have h2 := copyLoop_same _ _ _ _ _ _ h
       exact SameQueue.trans ⟨rfl, rfl, rfl, rfl, rfl⟩ h2)

theorem dispatchBinaryReply_same (h : ReplyHandler) (c cd : Client)
    (hd : dispatchBinaryReply h c = some cd) : SameQueue c cd := by
  rw [dispatchBinaryReply_frame h c cd hd]
  exact ⟨rfl, rfl, rfl, rfl, rfl⟩

theorem completeReply_inv (h : ReplyHandler) (bufferId : String) (append : Bool)
    (c c' : Client) (hi : QueueInv c) (hc : completeReply h bufferId append c = some c') :
    QueueInv c' := by
  unfold completeReply at hc
  cases hr : readBinaryToStream bufferId append c with
  | none => rw [hr] at hc; simp at hc
  | some res =>
    obtain ⟨ok, c1⟩ := res
    rw [hr] at hc
    simp only at hc
    have hi1 := hi.of_same (readBinaryToStream_same _ _ _ _ _ hr)
    cases hd : (if ok = true then dispatchBinaryReply h c1 else some c1) with
    | none => rw [hd] at hc; simp at hc
    | some c2 =>
      rw [hd] at hc
      simp only at hc
      have hi2 : QueueInv c2 := by
        split_ifs at hd
        · exact hi1.of_same (dispatchBinaryReply_same _ _ _ hd)
        · cases hd; exact hi1
      split_ifs at hc
      · refine (dequeueReply_inv _ _ ?_ hc).1
        exact hi2.of_same ⟨rfl, rfl, rfl, rfl, rfl⟩
      · exact (dequeueReply_inv _ _ hi2 hc).1

theorem abandonReply_inv (bufferId : String) (c c' : Client) (hi : QueueInv c)
    (hc : abandonReply bufferId c = some c') : QueueInv c' := by
  unfold abandonReply at hc
  refine (dequeueReply_inv _ _ ?_ hc).1
  exact hi.of_same ⟨rfl, rfl, rfl, rfl, rfl⟩


theorem streamThenAbandon_inv (bufferId : String) (append : Bool) (c c' : Client)
    (g : Client → Client) (hg : ∀ x, SameQueue x (g x)) (hi : QueueInv c)
    (h : (match readBinaryToStream bufferId append c with
      | none => none
      | some (ok, c1) => if (!ok) = true then abandonReply bufferId c1 else some (g c1))
        = some c') : QueueInv c' := by
  cases hr : readBinaryToStream bufferId append c with
  | none => rw [hr] at h; simp at h
  | some res =>
    obtain ⟨ok, c1⟩ := res
    rw [hr] at h
    simp only at h
    have hi1 := hi.of_same (readBinaryToStream_same _ _ _ _ _ hr)
    split_ifs at h
    · exact abandonReply_inv _ _ _ hi1 h
    · cases h
      exact hi1.of_same (hg c1)

theorem seekingBinaryHasBinary_inv (c c' : Client) (hi : QueueInv c)
    (h : seekingBinaryHasBinary c = some c') : QueueInv c' := by
  unfold seekingBinaryHasBinary at h
  cases hr : c.wsClient.read with
  | mk frameType ws =>
  rw [hr] at h
  simp only at h
  have hi0 : QueueInv { c with wsClient := ws } := hi.of_same ⟨rfl, rfl, rfl, rfl, rfl⟩
  by_cases h1 : frameType < 0
  · rw [if_pos h1] at h
    cases h
    exact hi0
  rw [if_neg h1] at h
  by_cases h2 : c.binaryReadType < 0
  · rw [if_pos h2] at h
    cases hs : c.slot c.queueFront with
    | none => rw [hs] at h; simp at h
    | some hd =>
      rw [hs] at h
      simp only at h
      cases hbt : hd.binType? with
      | none => rw [hbt] at h; simp at h
      | some binType =>
        cases hbi : hd.bufferId? with
        | none => rw [hbt, hbi] at h; simp at h
        | some bufferId =>
          rw [hbt, hbi] at h
          simp only at h
          by_cases h3 : frameType = binType
          · rw [if_pos h3] at h
            cases hr2 : ws.read with
            | mk frameFlag ws2 =>
            rw [hr2] at h
            simp only at h
            have hi1 : QueueInv { c with wsClient := ws2 } :=
              hi.of_same ⟨rfl, rfl, rfl, rfl, rfl⟩
            split_ifs at h
            · exact completeReply_inv _ _ _ _ _ hi1 h
            · exact streamThenAbandon_inv bufferId false _ c'
                (fun x => { x with binaryReadType := frameType })
                (fun x => ⟨rfl, rfl, rfl, rfl, rfl⟩) hi1 h
            · cases h
              exact hi1
          · rw [if_neg h3] at h
            cases hu : handleUnrequestedBinary frameType { c with wsClient := ws } with
            | none => rw [hu] at h; simp at h
            | some res =>
              obtain ⟨handled, cu⟩ := res
              rw [hu] at h
              simp only [Option.map_some', Option.some.injEq] at h
              subst h
              exact (handleUnrequestedBinary_inv _ _ _ _ hi0 hu).1
  rw [if_neg h2] at h
  by_cases h4 : frameType = c.binaryReadType
  · rw [if_pos h4] at h
    cases hr2 : ws.read with
    | mk frameFlag ws2 =>
    rw [hr2] at h
    simp only at h
    have hi1 : QueueInv { c with wsClient := ws2 } := hi.of_same ⟨rfl, rfl, rfl, rfl, rfl⟩
    by_cases h5 : flagSet frameFlag c.consts.FRAME_LAST = true
    · rw [if_pos h5] at h
      cases hs : c.slot c.queueFront with
      | none => rw [hs] at h; simp at h
      | some hd =>
        rw [hs] at h
        simp only at h
        cases hbi : hd.bufferId? with
        | none => rw [hbi] at h; simp at h
        | some bufferId =>
          rw [hbi] at h
          simp only at h
          exact completeReply_inv _ _ _ _ _ hi1 h
    · rw [if_neg h5] at h
      by_cases h6 : flagSet frameFlag c.consts.FRAME_MIDDLE = true
      · rw [if_pos h6] at h
        cases hs : c.slot c.queueFront with
        | none => rw [hs] at h; simp at h
        | some hd =>
          rw [hs] at h
          simp only at h
          cases hbi : hd.bufferId? with
          | none => rw [hbi] at h; simp at h
          | some bufferId =>
            rw [hbi] at h
            simp only at h
            exact streamThenAbandon_inv bufferId true _ c' (fun x => x)
              (fun x => SameQueue.refl x) hi1 h
      · rw [if_neg h6] at h
        cases h
        exact hi1
  · rw [if_neg h4] at h
    cases hu : handleUnrequestedBinary frameType { c with wsClient := ws } with
    | none => rw [hu] at h; simp at h
    | some res =>
      obtain ⟨handled, cu⟩ := res
      rw [hu] at h
      simp only at h
      have hiu := (handleUnrequestedBinary_inv _ _ _ _ hi0 hu).1
      cases handled with
      | true =>
        simp only [Bool.not_true, Bool.false_eq_true, if_false] at h
        cases h
        exact hiu
      | false =>
        simp only [Bool.not_false, if_true] at h
        cases hs : c.slot c.queueFront with
        | none => rw [hs] at h; simp at h
        | some hd =>
          rw [hs] at h
          simp only at h
          cases hbi : hd.bufferId? with
          | none => rw [hbi] at h; simp at h
          | some bufferId =>
            rw [hbi] at h
            simp only at h
            cases ha : abandonReply bufferId cu with
            | none => rw [ha] at h; simp at h
            | some c2 =>
              rw [ha] at h
              simp only [Option.some.injEq] at h
              subst h
              exact (abandonReply_inv _ _ _ hiu ha).of_same ⟨rfl, rfl, rfl, rfl, rfl⟩

theorem readJson_same (deserializeJson : List Nat → Option JsonValue) (c : Client) :
    SameQueue c (readJson deserializeJson c).2 := by
  unfold readJson
  simp only [WebSocketClient.readString]
  cases deserializeJson c.wsClient.body <;> exact ⟨rfl, rfl, rfl, rfl, rfl⟩

theorem handleUnrequestedJson_same (c : Client) : SameQueue c (handleUnrequestedJson c) := by
  obtain ⟨evs, h⟩ := handleUnrequestedJson_frame c
  rw [h]
  exact ⟨rfl, rfl, rfl, rfl, rfl⟩

theorem dispatchTextReply_same (now : Nat) (h : ReplyHandler) (c cd : Client)
    (hd : dispatchTextReply now h c = some cd) : SameQueue c cd := by
  obtain ⟨evs, he⟩ := dispatchTextReply_frame now h c cd hd
  rw [he]
  exact ⟨rfl, rfl, rfl, rfl, rfl⟩

theorem seekingTextHasText_inv (deserializeJson : List Nat → Option JsonValue) (now : Nat)
    (c c' : Client) (hi : QueueInv c)
    (h : seekingTextHasText deserializeJson now c = some c') : QueueInv c' := by
  unfold seekingTextHasText at h
  have hs := readJson_same deserializeJson c
  cases hr : readJson deserializeJson c with
  | mk ok c1 =>
  rw [hr] at h hs
  simp only at h hs
  have hi1 := hi.of_same hs
  cases ok with
  | false =>
    simp only [Bool.not_false, if_true] at h
    cases h
    exact hi1
  | true =>
    simp only [Bool.not_true, Bool.false_eq_true, if_false] at h
    cases hsl : c1.slot c1.queueFront with
    | none => rw [hsl] at h; simp at h
    | some hd =>
      rw [hsl] at h
      simp only at h
      split_ifs at h
      · cases hdt : dispatchTextReply now hd c1 with
        | none => rw [hdt] at h; simp at h
        | some c2 =>
          rw [hdt] at h
          simp only at h
          exact (dequeueReply_inv _ _ (hi1.of_same (dispatchTextReply_same _ _ _ _ hdt)) h).1
      · cases h
        exact hi1.of_same (handleUnrequestedJson_same c1)

theorem seekingBinaryHasText_inv (deserializeJson : List Nat → Option JsonValue)
    (c c' : Client) (hi : QueueInv c)
    (h : seekingBinaryHasText deserializeJson c = some c') : QueueInv c' := by
  unfold seekingBinaryHasText at h
  have hs := readJson_same deserializeJson c
  cases hr : readJson deserializeJson c with
  | mk ok c1 =>
  rw [hr] at h hs
  simp only at h hs
  have hi1 := hi.of_same hs
  split_ifs at h
  · cases h; exact hi1
  · cases h; exact hi1.of_same (handleUnrequestedJson_same c1)

theorem seekingTextHasBinary_inv (c c' : Client) (hi : QueueInv c)
    (h : seekingTextHasBinary c = some c') : QueueInv c' := by
  unfold seekingTextHasBinary at h
  cases hr : c.wsClient.read with
  | mk frameType ws =>
  rw [hr] at h
  simp only at h
  cases hu : handleUnrequestedBinary frameType { c with wsClient := ws } with
  | none => rw [hu] at h; simp at h
  | some res =>
    obtain ⟨handled, cu⟩ := res
    rw [hu] at h
    simp only [Option.map_some', Option.some.injEq] at h
    subst h
    refine (handleUnrequestedBinary_inv _ _ _ _ ?_ hu).1
    exact hi.of_same ⟨rfl, rfl, rfl, rfl, rfl⟩

theorem routeInbound_inv (deserializeJson : List Nat → Option JsonValue) (m : InboundMessage)
    (sf : Int) (c c' : Client) (hi : QueueInv c)
    (h : routeInbound deserializeJson m sf c = some c') : QueueInv c' := by
  unfold routeInbound at h
  split_ifs at h
  · exact (dequeueReply_inv _ _ hi h).1
  · exact seekingTextHasText_inv _ _ _ _ hi h
  · exact seekingBinaryHasText_inv _ _ _ hi h
  · exact seekingTextHasBinary_inv _ _ hi h
  · exact seekingBinaryHasBinary_inv _ _ hi h
  · exact (dequeueReply_inv _ _ hi h).1


/-- The expander-config loop started on a queue that satisfies the invariant and whose
front slot is unsatisfied ends on such a queue. -/
theorem rotateLoop_inv (now : Nat) (fmt : Int) :
    ∀ (fuel : Nat) (sf : Int) (k : Nat) (c : Client) (h : ReplyHandler) (sf' : Int)
      (cr : Client), QueueInv c → 0 < queueLength c → c.slot c.queueFront = some h →
      h.isSatisfied = false → sf = h.format →
      rotateLoop now fmt fuel sf k c = some (sf', cr) →
      QueueInv cr ∧ 0 < queueLength cr ∧
      ∃ h', cr.slot cr.queueFront = some h' ∧ h'.isSatisfied = false ∧ sf' = h'.format := by
  intro fuel
  induction fuel with
  | zero => intro sf k c h sf' cr _ _ _ _ _ hr; simp [rotateLoop] at hr
  | succ fuel ih =>
    intro sf k c h sf' cr hi hpos hslot hunsat hsf hr
    unfold rotateLoop at hr
    by_cases hcond : k ≤ queueLength c ∧ sf = c.consts.FORMAT_BINARY
    · rw [if_pos hcond, hslot] at hr
      simp only [Option.some_bind] at hr
      cases hbt : h.binType? with
      | none => rw [hbt] at hr; simp at hr
      | some t =>
        rw [hbt] at hr
        simp only at hr
        by_cases hrot : t = BIN_TYPE_EXPANDER_CONFIG ∧
            (fmt ≠ c.consts.FORMAT_BINARY ∨ c.wsClient.peek ≠ BIN_TYPE_EXPANDER_CONFIG)
        · rw [if_pos hrot] at hr
          obtain ⟨hwf, hk, hall, hpw⟩ := hi
          obtain ⟨c1, hc1, hq1, hcons, hp1, _, _, _, _, hwf1, hk1, _, _⟩ :=
            rotateFront_spec now c h hwf hpos hslot hunsat
          rw [hc1] at hr
          simp only at hr
          have hpos1 : 0 < queueLength c1 := by rw [hq1]; exact hpos
          obtain ⟨h1, hh1, hcons1⟩ := front_slot c1 hwf1 hpos1
          rw [hh1] at hr
          simp only at hr
          have haw : awaitsExpander c.consts h = true := by
            simp only [awaitsExpander, Bool.and_eq_true, decide_eq_true_eq]
            exact ⟨by rw [← hsf]; exact hcond.2, by rw [hbt, hrot.1]⟩
          rw [hcons, List.pairwise_cons] at hpw
          have hmem1 : h1 ∈ (pending c).tail ++ [h] := by
            rw [← hp1, hcons1]; exact List.mem_cons_self _ _
          have hunsat1 : h1.isSatisfied = false := by
            rcases List.mem_append.mp hmem1 with h2 | h2
            · exact hpw.1 h1 h2 haw hunsat
            · rw [List.mem_singleton] at h2
              rw [h2]; exact hunsat
          have hi1 : QueueInv c1 := by
            refine ⟨hwf1, by rw [hk1]; exact hk, ?_, ?_⟩
            · rw [hp1, hk1]
              intro x hx
              rcases List.mem_append.mp hx with h2 | h2
              · exact hall x (by rw [hcons]; exact List.mem_cons_of_mem _ h2)
              · rw [List.mem_singleton] at h2
                rw [h2]
                exact hall h (by rw [hcons]; exact List.mem_cons_self _ _)
            · rw [hp1, hk1, List.pairwise_append]
              refine ⟨hpw.2, List.pairwise_singleton _ _, ?_⟩
              intro a _ b hb _ _
              rw [List.mem_singleton] at hb
              rw [hb]; exact hunsat
          exact ih _ _ c1 h1 sf' cr hi1 hpos1 hh1 hunsat1 rfl hr
        · rw [if_neg hrot] at hr
          cases hr
          exact ⟨hi, hpos, h, hslot, hunsat, hsf⟩
    · rw [if_neg hcond] at hr
      cases hr
      exact ⟨hi, hpos, h, hslot, hunsat, hsf⟩

/-- The loop body of `checkForInbound` on a non-empty queue is the call `routeInbound`
chooses, made in the state `soughtState` yields. -/
theorem handleInbound_route (deserializeJson : List Nat → Option JsonValue)
    (m : InboundMessage) (c : Client) (sf : Int) (cr : Client)
    (hs : soughtState m c = some (sf, cr)) :
    handleInbound deserializeJson m c = routeInbound deserializeJson m sf cr := by
  unfold soughtState at hs
  unfold handleInbound
  cases hd : dropSatisfied (queueLength c + 1) c with
  | none => rw [hd] at hs; simp at hs
  | some c0 =>
    rw [hd] at hs
    simp only at hs ⊢
    by_cases h0 : queueLength c0 = 0
    · rw [if_pos h0] at hs; simp at hs
    · rw [if_neg h0] at hs
      rw [if_neg h0]
      cases hf : c0.slot c0.queueFront with
      | none => rw [hf] at hs; simp at hs
      | some front =>
        rw [hf] at hs
        simp only at hs ⊢
        rw [hs]
        rfl

theorem soughtState_inv (m : InboundMessage) (c : Client) (sf : Int) (cr : Client)
    (hi : QueueInv c) (hs : soughtState m c = some (sf, cr)) :
    QueueInv cr ∧ 0 < queueLength cr ∧
    ∃ h, cr.slot cr.queueFront = some h ∧ h.isSatisfied = false ∧ sf = h.format := by
  unfold soughtState at hs
  cases hd : dropSatisfied (queueLength c + 1) c with
  | none => rw [hd] at hs; simp at hs
  | some c0 =>
    rw [hd] at hs
    simp only at hs
    obtain ⟨hi0, _, _, hfront⟩ := dropSatisfied_inv _ c c0 hi hd
    by_cases h0 : queueLength c0 = 0
    · rw [if_pos h0] at hs; simp at hs
    · rw [if_neg h0] at hs
      rcases hfront with h1 | ⟨front, hf, hunsat⟩
      · exact absurd h1 h0
      · rw [hf] at hs
        simp only at hs
        exact rotateLoop_inv _ _ _ _ _ c0 front sf cr hi0 (by omega) hf hunsat rfl hs

theorem handleInbound_inv (deserializeJson : List Nat → Option JsonValue)
    (m : InboundMessage) (c c' : Client) (hi : QueueInv c)
    (h : handleInbound deserializeJson m c = some c') : QueueInv c' := by
  cases hs : soughtState m c with
  | some res =>
    obtain ⟨sf, cr⟩ := res
    rw [handleInbound_route deserializeJson m c sf cr hs] at h
    exact routeInbound_inv _ _ _ _ _ (soughtState_inv m c sf cr hi hs).1 h
  | none =>
    unfold soughtState at hs
    unfold handleInbound at h
    cases hd : dropSatisfied (queueLength c + 1) c with
    | none => rw [hd] at h; simp at h
    | some c0 =>
      rw [hd] at h hs
      simp only at h hs
      obtain ⟨hi0, _, _, _⟩ := dropSatisfied_inv _ c c0 hi hd
      by_cases h0 : queueLength c0 = 0
      · rw [if_pos h0] at h
        by_cases hft : m.format = c0.consts.FORMAT_TEXT
        · rw [if_pos hft] at h
          have hsame := readJson_same deserializeJson c0
          split_ifs at h
          · cases h; exact hi0.of_same hsame
          · cases h; exact (hi0.of_same hsame).of_same (handleUnrequestedJson_same _)
        · rw [if_neg hft] at h
          by_cases hfb : m.format = c0.consts.FORMAT_BINARY ∧ c0.wsClient.available > 0
          · rw [if_pos hfb] at h
            cases hr : c0.wsClient.read with
            | mk frameType ws =>
            rw [hr] at h
            simp only at h
            cases hu : handleUnrequestedBinary frameType { c0 with wsClient := ws } with
            | none => rw [hu] at h; simp at h
            | some res =>
              obtain ⟨handled, cu⟩ := res
              rw [hu] at h
              simp only [Option.map_some', Option.some.injEq] at h
              subst h
              refine (handleUnrequestedBinary_inv _ _ _ _ ?_ hu).1
              exact hi0.of_same ⟨rfl, rfl, rfl, rfl, rfl⟩
          · rw [if_neg hfb] at h
            cases h
            exact hi0
      · rw [if_neg h0] at h hs
        cases hf : c0.slot c0.queueFront with
        | none => rw [hf] at h; simp at h
        | some front =>
          rw [hf] at h hs
          simp only at h hs
          rw [hs] at h
          simp at h

theorem inboundLoop_inv (deserializeJson : List Nat → Option JsonValue) (startTime : Nat) :
    ∀ (messages : List InboundMessage) (c c' : Client), QueueInv c →
      inboundLoop deserializeJson startTime messages c = some c' → QueueInv c' := by
  intro messages
  induction messages with
  | nil => intro c c' hi h; simp only [inboundLoop] at h; cases h; exact hi
  | cons m rest ih =>
    intro c c' hi h
    simp only [inboundLoop] at h
    have hi1 : QueueInv { c with wsClient := { c.wsClient with body := m.body } } :=
      hi.of_same ⟨rfl, rfl, rfl, rfl, rfl⟩
    split_ifs at h
    · cases hh : handleInbound deserializeJson m
          { c with wsClient := { c.wsClient with body := m.body } } with
      | none => rw [hh] at h; simp at h
      | some c1 =>
        rw [hh] at h
        simp only at h
        exact ih c1 c' (handleInbound_inv _ _ _ _ hi1 hh) h
    · cases h; exact hi1

theorem checkForInbound_inv (deserializeJson : List Nat → Option JsonValue) (now : Nat)
    (messages : List InboundMessage) (c c' : Client) (hi : QueueInv c)
    (h : checkForInbound deserializeJson now messages c = some c') : QueueInv c' := by
  unfold checkForInbound at h
  cases hw : weedExpiredReplies now c with
  | none => rw [hw] at h; simp at h
  | some c1 =>
    rw [hw] at h
    simp only at h
    exact inboundLoop_inv _ _ _ _ _ (weedExpiredReplies_inv now c c1 hi hw) h

/-- Every reachable state satisfies the invariant of the queue. -/
theorem Reachable.queueInv {deserializeJson : List Nat → Option JsonValue} {c : Client}
    (hr : Reachable deserializeJson c) : QueueInv c := by
  induction hr with
  | init cfg k ws store hsize hk =>
    refine QueueInv.of_empty ⟨hsize, ?_, hsize, hsize, ?_⟩ hk rfl
    · simp [newClient]
    · intro j hj
      have h0 : queueLength { newClient cfg k with wsClient := ws, binaryBuffer := store }
          = 0 := rfl
      rw [h0] at hj
      omega
  | request c c1 now r ok _ hreq ih => exact issue_inv now r c c1 ok ih hreq
  | tick c c1 now messages _ ht ih => exact checkForInbound_inv _ now messages c c1 ih ht

theorem loopStates_inv (deserializeJson : List Nat → Option JsonValue) (startTime : Nat) :
    ∀ (messages : List InboundMessage) (c : Client) (m : InboundMessage) (cm : Client),
      QueueInv c → (m, cm) ∈ loopStates deserializeJson startTime messages c →
      QueueInv cm := by
  intro messages
  induction messages with
  | nil => intro c m cm _ h; simp [loopStates] at h
  | cons m0 rest ih =>
    intro c m cm hi h
    simp only [loopStates] at h
    have hi1 : QueueInv { c with wsClient := { c.wsClient with body := m0.body } } :=
      hi.of_same ⟨rfl, rfl, rfl, rfl, rfl⟩
    split_ifs at h
    · rcases List.mem_cons.mp h with h1 | h1
      · cases h1
        exact hi1
      · cases hh : handleInbound deserializeJson m0
            { c with wsClient := { c.wsClient with body := m0.body } } with
        | none => rw [hh] at h1; simp at h1
        | some c1 =>
          rw [hh] at h1
          simp only at h1
          exact ih c1 m cm (handleInbound_inv _ _ _ _ hi1 hh) h1
    · simp at h

/-- C16: in every state reachable from a fresh client through the requests that track a
reply and `checkForInbound`, take any further call of `checkForInbound`, any message `m`
for which its loop runs the body, the state `cm` in which the body starts, and suppose the
queue is not empty once the satisfied front slots are dropped, so that the body goes on to
the expander-config loop and yields `soughtFormat` and the state `cr`. Then the body is the
call `routeInbound` chooses in the state `cr` (among them `seekingTextHasText` with its
`jsonMatches` and `seekingBinaryHasBinary` with its frame-type comparison, both made on the
front slot of `cr`), and in `cr` the queue is not empty and its front slot is an
unsatisfied handler, whose format is `soughtFormat`. -/
theorem front_unsatisfied_when_matched (deserializeJson : List Nat → Option JsonValue)
    (c : Client) (hr : Reachable deserializeJson c) (now : Nat)
    (messages : List InboundMessage) (m : InboundMessage) (cm : Client)
    (hmem : (m, cm) ∈ tickStates deserializeJson now messages c) (sf : Int) (cr : Client)
    (hs : soughtState m cm = some (sf, cr)) :
    handleInbound deserializeJson m cm = routeInbound deserializeJson m sf cr ∧
    0 < queueLength cr ∧
    ∃ h, cr.slot cr.queueFront = some h ∧ h.isSatisfied = false ∧ sf = h.format := by
  have hi := hr.queueInv
  have hcm : QueueInv cm := by
    unfold tickStates at hmem
    cases hw : weedExpiredReplies now c with
    | none => rw [hw] at hmem; simp at hmem
    | some c1 =>
      rw [hw] at hmem
      simp only at hmem
      exact loopStates_inv _ _ _ c1 m cm (weedExpiredReplies_inv now c c1 hi hw) hmem
  obtain ⟨_, hpos, hfront⟩ := soughtState_inv m cm sf cr hcm hs
  exact ⟨handleInbound_route deserializeJson m cm sf cr hs, hpos, hfront⟩


/-- Witness for C16: a fresh client of capacity 3 on which `ping()` was called at time 0
is reachable; `checkForInbound` at time 10 finds the text `{"ack":true}`; the loop body
starts with the ping handler at the front, no rotation takes place, and the handler against
which `seekingTextHasText` matches the message is unsatisfied. -/
theorem front_unsatisfied_when_matched_witness :
    Reachable ackDecoder pingedClient ∧
    (ackMessage, withText ackText pingedClient)
      ∈ tickStates ackDecoder 10 [ackMessage] pingedClient ∧
    soughtState ackMessage (withText ackText pingedClient)
      = some (1, withText ackText pingedClient) ∧
    handleInbound ackDecoder ackMessage (withText ackText pingedClient)
      = routeInbound ackDecoder ackMessage 1 (withText ackText pingedClient) ∧
    0 < queueLength (withText ackText pingedClient) ∧
    ∃ h, (withText ackText pingedClient).slot (withText ackText pingedClient).queueFront
        = some h ∧ h.isSatisfied = false ∧ (1 : Int) = h.format := by
  have hreach : Reachable ackDecoder pingedClient :=
    Reachable.request (newClient (sampleConfig 3) sampleConsts) pingedClient 0 Request.ping
      true
      (Reachable.init (sampleConfig 3) sampleConsts { body := [], readLimits := [] }
        { files := [], openFailures := [], writeLimits := [], gcCalls := 0 } (by decide)
        ⟨rfl, rfl, by decide⟩)
      (by decide)
  have hmem : (ackMessage, withText ackText pingedClient)
      ∈ tickStates ackDecoder 10 [ackMessage] pingedClient := by decide
  have hs : soughtState ackMessage (withText ackText pingedClient)
      = some (1, withText ackText pingedClient) := by decide
  exact ⟨hreach, hmem, hs,
    front_unsatisfied_when_matched ackDecoder pingedClient hreach 10 [ackMessage] ackMessage
      (withText ackText pingedClient) hmem 1 (withText ackText pingedClient) hs⟩


/-! ## The copy loop in general -/

/-- A bulk read delivers a prefix of the message, of at most the length asked for, and of
exactly that length once the script of short reads is used up. -/
theorem readBytes_spec (w : WebSocketClient) (n : Nat) :
    ∃ m, m ≤ n ∧ (w.readLimits = [] → m = n) ∧
      w.readBytes n = (w.body.take m, { body := w.body.drop m, readLimits := w.readLimits.tail }) := by
  unfold WebSocketClient.readBytes
  cases h : w.readLimits with
  | nil => exact ⟨n, le_refl _, fun _ => rfl, rfl⟩
  | cons l rest =>
    exact ⟨min n l, Nat.min_le_left _ _, fun h0 => (by cases h0), rfl⟩

/-- A write on an open stream appends a prefix of the bytes offered to the stored result
and touches nothing else but the script of short writes. -/
theorem write_spec (b : PixelblazeBuffer) (bufferId : String) (bytes x : List Nat)
    (hx : b.contents bufferId = some x) :
    ∃ k, k ≤ bytes.length ∧ (b.write bufferId bytes).1 = k ∧
      (b.write bufferId bytes).2.contents bufferId = some (x ++ bytes.take k) ∧
      (b.write bufferId bytes).2.gcCalls = b.gcCalls ∧
      (b.write bufferId bytes).2.openFailures = b.openFailures ∧
      (b.write bufferId bytes).2.writeLimits = b.writeLimits.tail ∧
      (b.writeLimits = [] → k = bytes.length) := by
  have hc : ({ b with writeLimits := b.writeLimits.tail } : PixelblazeBuffer).contents bufferId
      = some x := hx
  unfold PixelblazeBuffer.write
  cases h : b.writeLimits with
  | nil =>
    refine ⟨bytes.length, le_refl _, rfl, ?_, rfl, rfl, rfl, fun _ => rfl⟩
    simp only [contents_setFile]
    rw [h] at hc
    rw [hc]
    rfl
  | cons l rest =>
    refine ⟨min bytes.length l, Nat.min_le_left _ _, rfl, ?_, rfl, rfl, rfl, fun h0 => by cases h0⟩
    simp only [contents_setFile]
    rw [h] at hc
    rw [hc]
    rfl

/-- The copy loop, started on an open stream with `available` the length of the message
left, returns. It changes only the transport and the store; the stored result grows by a
prefix `w` of the message; `n` bytes have been taken from the transport. On `true` the
whole message has been taken and written; on `false` the last chunk read, of at most
`binaryBufferBytes` bytes, was accepted only in part. -/
theorem copyLoop_run (bufferId : String) :
    ∀ (fuel : Nat) (c : Client) (x : List Nat),
      c.binaryBuffer.contents bufferId = some x →
      0 < c.clientConfig.binaryBufferBytes →
      c.wsClient.body.length + c.wsClient.readLimits.length < fuel →
      ∃ (ok : Bool) (c' : Client) (w : List Nat) (n : Nat),
        copyLoop bufferId fuel c.wsClient.body.length c = some (ok, c') ∧
        c' = { c with wsClient := c'.wsClient, binaryBuffer := c'.binaryBuffer } ∧
        c'.binaryBuffer.contents bufferId = some (x ++ w) ∧
        c'.binaryBuffer.gcCalls = c.binaryBuffer.gcCalls ∧
        c'.binaryBuffer.openFailures = c.binaryBuffer.openFailures ∧
        n ≤ c.wsClient.body.length ∧
        c'.wsClient.body = c.wsClient.body.drop n ∧
        w = c.wsClient.body.take w.length ∧
        (ok = true → n = c.wsClient.body.length ∧ w = c.wsClient.body) ∧
        (ok = false → w.length < n ∧ n ≤ w.length + c.clientConfig.binaryBufferBytes) ∧
        (c.binaryBuffer.writeLimits = [] → ok = true) := by
  intro fuel
  induction fuel with
  | zero => intro c x _ _ h; omega
  | succ fuel ih =>
    intro c x hx hbuf hfuel
    unfold copyLoop
    by_cases hav : c.wsClient.body.length > 0
    · rw [if_pos hav]
      obtain ⟨m, hm, hm0, hrb⟩ := readBytes_spec c.wsClient
        (min c.clientConfig.binaryBufferBytes c.wsClient.body.length)
      have hmlen : m ≤ c.wsClient.body.length := le_trans hm (Nat.min_le_right _ _)
      have hmbuf : m ≤ c.clientConfig.binaryBufferBytes := le_trans hm (Nat.min_le_left _ _)
      have hblen : (c.wsClient.body.take m).length = m := by
        rw [List.length_take]; omega
      obtain ⟨k, hk, hk1, hk2, hk3, hk4, hk5, hk6⟩ :=
        write_spec c.binaryBuffer bufferId (c.wsClient.body.take m) x hx
      rw [hblen] at hk
      rw [hrb]
      simp only
      cases hwr : c.binaryBuffer.write bufferId (c.wsClient.body.take m) with
      | mk written store =>
      rw [hwr] at hk1 hk2 hk3 hk4 hk5
      simp only at hk1 hk2 hk3 hk4 hk5
      subst hk1
      simp only [hblen]
      by_cases hne : m ≠ written
      · rw [if_pos hne]
        refine ⟨false, _, (c.wsClient.body.take m).take written, m, rfl, rfl, hk2, hk3, hk4,
          hmlen, rfl, ?_, ?_, ?_, ?_⟩
        · have h1 : min written m = written := Nat.min_eq_left hk
          rw [List.take_take, h1, List.length_take, Nat.min_eq_left (by omega)]
        · intro h; cases h
        · intro _
          rw [List.length_take, hblen]
          omega
        · intro hwl
          have := hk6 hwl
          rw [hblen] at this
          omega
      · rw [if_neg hne]
        have hmw : m = written := by omega
        subst hmw
        have htk : (c.wsClient.body.take m).take m = c.wsClient.body.take m := by
          rw [List.take_take, Nat.min_self]
        rw [htk] at hk2
        have hmeasure : (c.wsClient.body.drop m).length + c.wsClient.readLimits.tail.length
            < fuel := by
          rw [List.length_drop, List.length_tail]
          by_cases hm1 : m = 0
          · have hrl : c.wsClient.readLimits ≠ [] := by
              intro h0
              have := hm0 h0
              rw [hm1] at this
              have h2 : 0 < min c.clientConfig.binaryBufferBytes c.wsClient.body.length :=
                Nat.lt_min.mpr ⟨hbuf, hav⟩
              omega
            have : 0 < c.wsClient.readLimits.length := List.length_pos.mpr hrl
            omega
          · omega
        obtain ⟨ok, c', w', n', h1, h2, h3, h4, h5, h6, h7, h8, h9, h10, h11⟩ :=
          ih { c with
            wsClient := { body := c.wsClient.body.drop m,
                          readLimits := c.wsClient.readLimits.tail },
            binaryBuffer := store } (x ++ c.wsClient.body.take m) hk2 hbuf hmeasure
        simp only [List.length_drop] at h1 h6 h8 h9
        simp only at h2 h4 h5 h7 h10 h11
        refine ⟨ok, c', c.wsClient.body.take m ++ w', m + n', h1, ?_, ?_, ?_, ?_, by omega,
          ?_, ?_, ?_, ?_, ?_⟩
        · rw [h2]
        · rw [h3, List.append_assoc]
        · rw [h4, hk3]
        · rw [h5, hk4]
        · rw [h7, List.drop_drop]
        · rw [List.length_append, hblen, List.take_add, ← h8]
        · intro hok
          obtain ⟨ha, hb⟩ := h9 hok
          refine ⟨by omega, ?_⟩
          rw [hb, List.take_append_drop]
        · intro hok
          obtain ⟨ha, hb⟩ := h10 hok
          rw [List.length_append, hblen]
          omega
        · intro hwl
          apply h11
          rw [hk5, hwl]
          rfl
    · rw [if_neg hav]
      have h0 : c.wsClient.body = [] := List.eq_nil_of_length_eq_zero (by omega)
      refine ⟨true, c, [], 0, rfl, rfl, by rw [List.append_nil]; exact hx, rfl, rfl,
        Nat.zero_le _, rfl, ?_, ?_, ?_, fun _ => rfl⟩
      · rw [h0]; rfl
      · intro _; rw [h0]; exact ⟨rfl, rfl⟩
      · intro h; cases h

/-- What the stored result starts from when a write stream is opened: the result stored so
far with `append`, the empty one without. -/
theorem makeWriteStream_spec (b : PixelblazeBuffer) (bufferId : String) (append : Bool) :
    (b.openFailures.headD false = true →
      b.makeWriteStream bufferId append
        = (false, { b with openFailures := b.openFailures.tail })) ∧
    (b.openFailures.headD false = false →
      (b.makeWriteStream bufferId append).1 = true ∧
      (b.makeWriteStream bufferId append).2.contents bufferId
        = some (if append then (b.contents bufferId).getD [] else []) ∧
      (b.makeWriteStream bufferId append).2.gcCalls = b.gcCalls ∧
      (b.makeWriteStream bufferId append).2.writeLimits = b.writeLimits ∧
      (b.makeWriteStream bufferId append).2.openFailures = b.openFailures.tail) := by
  constructor
  · intro h
    unfold PixelblazeBuffer.makeWriteStream
    simp only [h, if_true]
  · intro h
    have e : b.makeWriteStream bufferId append
        = (true, ({ b with openFailures := b.openFailures.tail } : PixelblazeBuffer).setFile
            bufferId (if append then (b.contents bufferId).getD [] else [])) := by
      unfold PixelblazeBuffer.makeWriteStream
      simp only [h, Bool.false_eq_true, if_false]
      cases append <;> rfl
    rw [e]
    exact ⟨rfl, contents_setFile _ _ _, rfl, rfl, rfl⟩

/-- The call `readBinaryToStream(bufferId, append)` returns, whatever the scripts of the
transport and of the store. It changes only the transport and the store, and
`garbageCollect` is called once when the first `makeWriteStream` fails, else not at all.
When both attempts fail the result is false, nothing is read and nothing written. When a
stream is opened, the stored result is what it starts from followed by a prefix `w` of the
message, `n` bytes having been taken from the transport: on `true` the whole message, on
`false` a last chunk of at most `binaryBufferBytes` bytes accepted only in part. -/
theorem readBinaryToStream_run (bufferId : String) (append : Bool) (c : Client)
    (hbuf : 0 < c.clientConfig.binaryBufferBytes) :
    ∃ (ok : Bool) (c' : Client) (w : List Nat) (n : Nat),
      readBinaryToStream bufferId append c = some (ok, c') ∧
      c' = { c with wsClient := c'.wsClient, binaryBuffer := c'.binaryBuffer } ∧
      c'.binaryBuffer.gcCalls = c.binaryBuffer.gcCalls
        + (if c.binaryBuffer.openFailures.headD false = true then 1 else 0) ∧
      (c.binaryBuffer.openFailures.headD false = true →
        c.binaryBuffer.openFailures.tail.headD false = true →
        ok = false ∧ c'.wsClient = c.wsClient ∧
        c'.binaryBuffer.files = c.binaryBuffer.files ∧
        c'.binaryBuffer.writeLimits = c.binaryBuffer.writeLimits) ∧
      (¬ (c.binaryBuffer.openFailures.headD false = true ∧
          c.binaryBuffer.openFailures.tail.headD false = true) →
        c'.binaryBuffer.contents bufferId
          = some ((if append then (c.binaryBuffer.contents bufferId).getD [] else []) ++ w) ∧
        n ≤ c.wsClient.body.length ∧
        c'.wsClient.body = c.wsClient.body.drop n ∧
        w = c.wsClient.body.take w.length ∧
        (ok = true → n = c.wsClient.body.length ∧ w = c.wsClient.body) ∧
        (ok = false → w.length < n ∧ n ≤ w.length + c.clientConfig.binaryBufferBytes) ∧
        (c.binaryBuffer.writeLimits = [] → ok = true)) := by
  obtain ⟨hfail1, hok1⟩ := makeWriteStream_spec c.binaryBuffer bufferId append
  unfold readBinaryToStream
  by_cases h1 : c.binaryBuffer.openFailures.headD false = true
  · have hf1 := hfail1 h1
    obtain ⟨hfail2, hok2⟩ := makeWriteStream_spec
      ({ c.binaryBuffer with openFailures := c.binaryBuffer.openFailures.tail } :
        PixelblazeBuffer).garbageCollect bufferId append
    rw [hf1]
    simp only [Bool.not_false, if_true]
    by_cases h2 : c.binaryBuffer.openFailures.tail.headD false = true
    · have hf2 := hfail2 h2
      rw [hf2]
      simp only [Bool.not_false, if_true]
      refine ⟨false, _, [], 0, rfl, rfl, by rw [if_pos h1]; rfl,
        fun _ _ => ⟨rfl, rfl, rfl, rfl⟩, ?_⟩
      intro hn
      exact absurd ⟨h1, h2⟩ hn
    · have h2' : c.binaryBuffer.openFailures.tail.headD false = false := by
        simpa using h2
      obtain ⟨ho1, ho2, ho3, ho4, ho5⟩ := hok2 h2'
      cases hmk : (({ c.binaryBuffer with openFailures := c.binaryBuffer.openFailures.tail } :
          PixelblazeBuffer).garbageCollect.makeWriteStream bufferId append) with
      | mk stream store =>
      rw [hmk] at ho1 ho2 ho3 ho4 ho5
      simp only at ho1 ho2 ho3 ho4 ho5
      subst ho1
      simp only [Bool.not_true, Bool.false_eq_true, if_false]
      obtain ⟨ok, c', w, n, r1, r2, r3, r4, r5, r6, r7, r8, r9, r10, r11⟩ :=
        copyLoop_run bufferId
          (c.wsClient.body.length + c.wsClient.readLimits.length + 1)
          { c with binaryBuffer := store } _ ho2 hbuf (by simp)
      refine ⟨ok, c', w, n, r1, by rw [r2], by rw [r4, ho3, if_pos h1]; rfl, ?_, ?_⟩
      · intro _ h; exact absurd h h2
      · intro _
        refine ⟨r3, r6, r7, r8, r9, r10, ?_⟩
        intro hwl
        apply r11
        rw [ho4]
        exact hwl
  · have h1' : c.binaryBuffer.openFailures.headD false = false := by simpa using h1
    obtain ⟨ho1, ho2, ho3, ho4, ho5⟩ := hok1 h1'
    cases hmk : c.binaryBuffer.makeWriteStream bufferId append with
    | mk stream store =>
    rw [hmk] at ho1 ho2 ho3 ho4 ho5
    simp only at ho1 ho2 ho3 ho4 ho5
    subst ho1
    simp only [Bool.not_true, Bool.false_eq_true, if_false]
    obtain ⟨ok, c', w, n, r1, r2, r3, r4, r5, r6, r7, r8, r9, r10, r11⟩ :=
      copyLoop_run bufferId
        (c.wsClient.body.length + c.wsClient.readLimits.length + 1)
        { c with binaryBuffer := store } _ ho2 hbuf (by simp)
    refine ⟨ok, c', w, n, r1, by rw [r2], by rw [r4, ho3, if_neg h1]; rfl, ?_, ?_⟩
    · intro h; exact absurd h h1
    · intro _
      refine ⟨r3, r6, r7, r8, r9, r10, ?_⟩
      intro hwl
      apply r11
      rw [ho4]
      exact hwl


/-! ## Claims about `readBinaryToStream` -/

/-- C29: the call `readBinaryToStream(bufferId, append)` returns, and `garbageCollect` is
called at most once during it: not at all when the first `makeWriteStream` succeeds, once
when it fails. When the retry fails too, the call returns false, the transport is as
before (no byte was read) and the stored results and the script of the writes are as
before (nothing was written). -/
theorem readBinaryToStream_collects_once (bufferId : String) (append : Bool) (c : Client)
    (hbuf : 0 < c.clientConfig.binaryBufferBytes) :
    ∃ (ok : Bool) (c' : Client), readBinaryToStream bufferId append c = some (ok, c') ∧
      c'.binaryBuffer.gcCalls ≤ c.binaryBuffer.gcCalls + 1 ∧
      (c.binaryBuffer.openFailures.headD false = false →
        c'.binaryBuffer.gcCalls = c.binaryBuffer.gcCalls) ∧
      (c.binaryBuffer.openFailures.headD false = true →
        c'.binaryBuffer.gcCalls = c.binaryBuffer.gcCalls + 1) ∧
      (c.binaryBuffer.openFailures.headD false = true →
        c.binaryBuffer.openFailures.tail.headD false = true →
        ok = false ∧ c'.wsClient = c.wsClient ∧
        c'.binaryBuffer.files = c.binaryBuffer.files ∧
        c'.binaryBuffer.writeLimits = c.binaryBuffer.writeLimits) := by
  obtain ⟨ok, c', w, n, h1, _, h3, h4, _⟩ := readBinaryToStream_run bufferId append c hbuf
  refine ⟨ok, c', h1, ?_, ?_, ?_, h4⟩
  · rw [h3]
    split_ifs <;> omega
  · intro hf
    rw [h3, if_neg (by rw [hf]; decide)]
    rfl
  · intro hf
    rw [h3, if_pos hf]

/-- Witness for C29: a store whose next two `makeWriteStream` calls fail, a message of
three bytes waiting; the call returns false after one `garbageCollect`, the three bytes
still waiting and nothing stored. -/
theorem readBinaryToStream_collects_once_witness :
    0 < (sampleConfig 3).binaryBufferBytes ∧
    ∃ c', readBinaryToStream "raw" false
        { clientWith 3 [rawBinaryHandler 0 7] with
          wsClient := { body := [1, 2, 3], readLimits := [] }
          binaryBuffer :=
            { files := [], openFailures := [true, true], writeLimits := [], gcCalls := 0 } }
        = some (false, c') ∧
      c'.binaryBuffer.gcCalls = 1 ∧ c'.wsClient.body = [1, 2, 3] ∧
      c'.binaryBuffer.files = [] := by
  refine ⟨by decide, ?_⟩
  obtain ⟨ok, c', h1, _, _, h4, h5⟩ := readBinaryToStream_collects_once "raw" false
    { clientWith 3 [rawBinaryHandler 0 7] with
      wsClient := { body := [1, 2, 3], readLimits := [] }
      binaryBuffer :=
        { files := [], openFailures := [true, true], writeLimits := [], gcCalls := 0 } }
    (by decide)
  obtain ⟨h6, h7, h8, _⟩ := h5 rfl rfl
  subst h6
  refine ⟨c', h1, h4 rfl, ?_, h8⟩
  rw [h7]

/-- C30: the call `readBinaryToStream(bufferId, append)` for which a write stream is opened
(at the first attempt or at the retry), whatever the transport delivers per read and the
stream accepts per write. The call returns. The stored result is what the stream starts
from (the result stored so far with `append`, nothing without) followed by `w`, a prefix
of the bytes of the message, in order; `n` bytes have been taken from the transport. The
result is true only when the whole message has been taken and written (`w` is the
message); it is false only when the stream accepted fewer bytes (`w.length`) than were read
(`n`), and then nothing was read beyond the chunk of at most `binaryBufferBytes` bytes that
was accepted in part; when no write is cut short the result is true. -/
theorem readBinaryToStream_copies_in_order (bufferId : String) (append : Bool) (c : Client)
    (hbuf : 0 < c.clientConfig.binaryBufferBytes)
    (hopen : ¬ (c.binaryBuffer.openFailures.headD false = true ∧
      c.binaryBuffer.openFailures.tail.headD false = true)) :
    ∃ (ok : Bool) (c' : Client) (w : List Nat) (n : Nat),
      readBinaryToStream bufferId append c = some (ok, c') ∧
      c'.binaryBuffer.contents bufferId
        = some ((if append then (c.binaryBuffer.contents bufferId).getD [] else []) ++ w) ∧
      n ≤ c.wsClient.body.length ∧
      c'.wsClient.body = c.wsClient.body.drop n ∧
      w = c.wsClient.body.take w.length ∧
      (ok = true → n = c.wsClient.body.length ∧ w = c.wsClient.body ∧ c'.wsClient.body = []) ∧
      (ok = false → w.length < n ∧ n ≤ w.length + c.clientConfig.binaryBufferBytes) ∧
      (c.binaryBuffer.writeLimits = [] → ok = true) := by
  obtain ⟨ok, c', w, n, h1, _, _, _, h5⟩ := readBinaryToStream_run bufferId append c hbuf
  obtain ⟨r1, r2, r3, r4, r5, r6, r7⟩ := h5 hopen
  refine ⟨ok, c', w, n, h1, r1, r2, r3, r4, ?_, r6, r7⟩
  intro hok
  obtain ⟨ha, hb⟩ := r5 hok
  refine ⟨ha, hb, ?_⟩
  rw [r3, ha, List.drop_length]

/-- Witness for C30: chunks of 2 bytes, a message of five bytes appended to a stored
result `[9]`, reads cut to 1 and 2 bytes, and a third write that accepts 1 byte of 2: the
call returns false with `[9, 1, 2, 3, 4]` stored and the fifth byte already read. -/
theorem readBinaryToStream_copies_in_order_witness :
    0 < (sampleConfig 3).binaryBufferBytes ∧
    readBinaryToStream "raw" true
        { clientWith 3 [rawBinaryHandler 0 7] with
          wsClient := { body := [1, 2, 3, 4, 5], readLimits := [1, 2] }
          binaryBuffer :=
            { files := [("raw", [9])], openFailures := [true], writeLimits := [5, 5, 1],
              gcCalls := 0 } }
      = some (false,
        { clientWith 3 [rawBinaryHandler 0 7] with
          wsClient := { body := [], readLimits := [] }
          binaryBuffer :=
            { files := [("raw", [9, 1, 2, 3, 4])], openFailures := [], writeLimits := [],
              gcCalls := 1 } }) ∧
    ∃ (ok : Bool) (c' : Client) (w : List Nat) (n : Nat),
      readBinaryToStream "raw" true
        { clientWith 3 [rawBinaryHandler 0 7] with
          wsClient := { body := [1, 2, 3, 4, 5], readLimits := [1, 2] }
          binaryBuffer :=
            { files := [("raw", [9])], openFailures := [true], writeLimits := [5, 5, 1],
              gcCalls := 0 } } = some (ok, c') ∧
      c'.binaryBuffer.contents "raw" = some ([9] ++ w) ∧
      (ok = false → w.length < n ∧ n ≤ w.length + 2) := by
  refine ⟨by decide, by decide, ?_⟩
  obtain ⟨ok, c', w, n, h1, h2, _, _, _, _, h7, _⟩ := readBinaryToStream_copies_in_order
    "raw" true
    { clientWith 3 [rawBinaryHandler 0 7] with
      wsClient := { body := [1, 2, 3, 4, 5], readLimits := [1, 2] }
      binaryBuffer :=
        { files := [("raw", [9])], openFailures := [true], writeLimits := [5, 5, 1],
          gcCalls := 0 } }
    (by decide) (by decide)
  exact ⟨ok, c', w, n, h1, h2, h7⟩


/-! ## Claims about the frames of a binary reply -/

theorem and_first_last_zero (flag a b : Nat) (h : flag &&& b = 0) : flag &&& (a &&& b) = 0 := by
  rw [Nat.and_comm a b, ← Nat.land_assoc, h, Nat.zero_and]

theorem binType_bufferId (h : ReplyHandler) (t : Int) (hb : h.binType? = some t) :
    ∃ b, h.bufferId? = some b := by
  cases h with
  | text rt f ts s o => simp [ReplyHandler.binType?] at hb
  | sync f ts s w => simp [ReplyHandler.binType?] at hb
  | binary rt f ts s o b t' cl => exact ⟨b, rfl⟩

/-- C22: no reassembly is in progress (`binaryReadType < 0`) and the front slot `h` of a
well-formed non-empty queue expects the type `T` into the buffer `bufferId`. A frame of
type `T` arrives whose flag has FIRST set and LAST clear. Then the payload is streamed by
`readBinaryToStream(bufferId, false)`, which returns. If it returns true,
`binaryReadType` becomes `T`, the queue is unchanged (`h` is still the front slot) and no
callback is invoked. If it returns false, the stored result of `bufferId` is deleted, the
front slot is dequeued (the pending handlers are the former ones without `h`), no callback
is invoked and `binaryReadType` is as before, below 0. -/
theorem first_frame_streams_or_aborts (c : Client) (h : ReplyHandler) (T flag : Nat)
    (bufferId : String) (p : List Nat) (hwf : WellFormed c) (hpos : 0 < queueLength c)
    (hslot : c.slot c.queueFront = some h) (hbin : h.binType? = some (T : Int))
    (hid : h.bufferId? = some bufferId) (hno : c.binaryReadType < 0)
    (hF : flag &&& c.consts.FRAME_FIRST ≠ 0) (hL : flag &&& c.consts.FRAME_LAST = 0)
    (hbuf : 0 < c.clientConfig.binaryBufferBytes) :
    ∃ (ok : Bool) (c1 : Client),
      readBinaryToStream bufferId false
        { c with wsClient := { body := p, readLimits := c.wsClient.readLimits } }
        = some (ok, c1) ∧
      (ok = true →
        seekingBinaryHasBinary (withFrame T flag p c)
          = some { c1 with binaryReadType := (T : Int) } ∧
        SameQueue c c1 ∧ c1.slot c1.queueFront = some h ∧ pending c1 = pending c ∧
        c1.events = c.events) ∧
      (ok = false →
        ∃ c', seekingBinaryHasBinary (withFrame T flag p c) = some c' ∧
          c'.binaryBuffer.contents bufferId = none ∧
          WellFormed c' ∧ pending c' = (pending c).tail ∧
          queueLength c' = queueLength c - 1 ∧
          c'.events = c.events ∧ c'.binaryReadType = c.binaryReadType ∧
          c'.binaryReadType < 0) := by
  have hT : ¬ ((T : Int) < 0) := by omega
  have hFL := and_first_last_zero flag c.consts.FRAME_FIRST c.consts.FRAME_LAST hL
  obtain ⟨ok, c1, w, n, h1, hfr, _⟩ := readBinaryToStream_run bufferId false
    { c with wsClient := { body := p, readLimits := c.wsClient.readLimits } } hbuf
  have hsame : SameQueue c c1 := by
    rw [hfr]; exact ⟨rfl, rfl, rfl, rfl, rfl⟩
  have hev : c1.events = c.events := by rw [hfr]
  have hrt : c1.binaryReadType = c.binaryReadType := by rw [hfr]
  have hseek : seekingBinaryHasBinary (withFrame T flag p c)
      = if (!ok) = true then abandonReply bufferId c1
        else some { c1 with binaryReadType := (T : Int) } := by
    unfold seekingBinaryHasBinary
    simp only [withFrame, WebSocketClient.read, Client.slot] at *
    simp only [hslot, hT, if_false, hno, if_true, hbin, hid, flagSet_byte, hFL,
      ne_eq, not_true_eq_false, decide_False, Bool.false_eq_true,
      hF, not_false_eq_true, decide_True, h1]
  refine ⟨ok, c1, h1, ?_, ?_⟩
  · intro hok
    subst hok
    refine ⟨by rw [hseek]; rfl, hsame, by rw [hsame.slot_eq, hsame.2.2.2.1]; exact hslot,
      hsame.pending_eq, hev⟩
  · intro hok
    subst hok
    have hwf1 : WellFormed { c1 with
        binaryBuffer := c1.binaryBuffer.deleteStreamResults bufferId } :=
      SameQueue.wellFormed (c := c) ⟨hsame.1, hsame.2.1, hsame.2.2.1, hsame.2.2.2.1,
        hsame.2.2.2.2⟩ hwf
    have hpos1 : 0 < queueLength { c1 with
        binaryBuffer := c1.binaryBuffer.deleteStreamResults bufferId } := by
      have : queueLength { c1 with
          binaryBuffer := c1.binaryBuffer.deleteStreamResults bufferId } = queueLength c :=
        hsame.queueLength_eq
      omega
    obtain ⟨c', hd, hceq, hwf', hp'⟩ := dequeueReply_spec _ hwf1 hpos1
    have hpc : pending { c1 with
        binaryBuffer := c1.binaryBuffer.deleteStreamResults bufferId } = pending c :=
      SameQueue.pending_eq (c := c) ⟨hsame.1, hsame.2.1, hsame.2.2.1, hsame.2.2.2.1,
        hsame.2.2.2.2⟩
    refine ⟨c', by rw [hseek]; exact hd, ?_, hwf', by rw [hp', hpc], ?_, ?_, ?_, ?_⟩
    · rw [hceq]
      exact contents_deleteStreamResults _ _
    · rw [← pending_length c' hwf', ← pending_length c hwf, hp', hpc, List.length_tail]
    · rw [hceq]; exact hev
    · rw [hceq]; exact hrt
    · rw [hceq]; show c1.binaryReadType < 0; rw [hrt]; exact hno

/-- Witness for C22: capacity 3, a pattern list handler (type 7) at the front, a frame of
type 7 with flag FIRST, and a store whose next two `makeWriteStream` calls fail. -/
theorem first_frame_streams_or_aborts_witness :
    WellFormed (clientWith 3 [patternsHandler 0]) ∧
    ∃ c', seekingBinaryHasBinary (withFrame 7 1 [8, 9]
        { clientWith 3 [patternsHandler 0] with
          binaryBuffer := { files := [("patterns", [5])], openFailures := [true, true],
                            writeLimits := [], gcCalls := 0 } }) = some c' ∧
      c'.binaryBuffer.contents "patterns" = none ∧ pending c' = [] ∧
      c'.binaryReadType < 0 := by
  refine ⟨by decide, ?_⟩
  obtain ⟨ok, c1, h1, _, h3⟩ := first_frame_streams_or_aborts
    { clientWith 3 [patternsHandler 0] with
      binaryBuffer := { files := [("patterns", [5])], openFailures := [true, true],
                        writeLimits := [], gcCalls := 0 } }
    (patternsHandler 0) 7 1 "patterns" [8, 9] (by decide) (by decide) (by decide) (by decide)
    (by decide) (by decide) (by decide) (by decide) (by decide)
  have hok : ok = false := by
    have h2 : readBinaryToStream "patterns" false
        { ({ clientWith 3 [patternsHandler 0] with
            binaryBuffer := { files := [("patterns", [5])], openFailures := [true, true],
                              writeLimits := [], gcCalls := 0 } } : Client) with
          wsClient := { body := [8, 9], readLimits := [] } }
        = some (false, { ({ clientWith 3 [patternsHandler 0] with
            binaryBuffer := { files := [("patterns", [5])], openFailures := [],
                              writeLimits := [], gcCalls := 1 } } : Client) with
          wsClient := { body := [8, 9], readLimits := [] } }) := by decide
    have h3 := h1.symm.trans h2
    simp only [Option.some.injEq, Prod.mk.injEq] at h3
    exact h3.1
  obtain ⟨c', h4, h5, _, h7, _, _, _, h11⟩ := h3 hok
  exact ⟨c', h4, h5, h7, h11⟩


/-- C23 (fails on the code): a reassembly of type 7 is in progress, `[1, 2]` being stored
in the buffer "raw" of the front handler, and the store fails both `makeWriteStream`
calls, so that streaming the next frame of type 7 fails. (1) The frame has LAST set and
the handler keeps its buffer on completion: the slot is dequeued and no callback invoked,
but the partial result `[1, 2]` stays stored and `binaryReadType` stays 7. (2) The frame
has MIDDLE set and LAST clear: the partial result is deleted and the slot dequeued, but
`binaryReadType` stays 7. (3) The frame has LAST set and the handler deletes its buffer on
completion: the partial result is deleted, but `binaryReadType` stays 7. -/
theorem failed_stream_keeps_reassembly_state :
    seekingBinaryHasBinary (withFrame 7 4 [3] (failingReassembly (keepingBinaryHandler 0 7)))
      = some { failingReassembly (keepingBinaryHandler 0 7) with
          replyQueue := [none, some (pingHandler 0), none]
          queueFront := 1
          binaryReadType := 7
          wsClient := { body := [3], readLimits := [] }
          binaryBuffer := { files := [("raw", [1, 2])], openFailures := [], writeLimits := [],
                            gcCalls := 1 } } ∧
    seekingBinaryHasBinary (withFrame 7 2 [3] (failingReassembly (keepingBinaryHandler 0 7)))
      = some { failingReassembly (keepingBinaryHandler 0 7) with
          replyQueue := [none, some (pingHandler 0), none]
          queueFront := 1
          binaryReadType := 7
          wsClient := { body := [3], readLimits := [] }
          binaryBuffer := { files := [], openFailures := [], writeLimits := [],
                            gcCalls := 1 } } ∧
    seekingBinaryHasBinary (withFrame 7 4 [3] (failingReassembly (rawBinaryHandler 0 7)))
      = some { failingReassembly (rawBinaryHandler 0 7) with
          replyQueue := [none, some (pingHandler 0), none]
          queueFront := 1
          binaryReadType := 7
          wsClient := { body := [3], readLimits := [] }
          binaryBuffer := { files := [], openFailures := [], writeLimits := [],
                            gcCalls := 1 } } := by
  refine ⟨by decide, by decide, by decide⟩

/-- C24: protocol anomalies leave everything but the transport as it is. (1) No reassembly
is in progress, the front slot expects the type `T`, and a frame of type `T` arrives whose
flag has FIRST clear. (2) A reassembly of type `T` is in progress and a frame of type `T`
arrives whose flag has neither LAST nor MIDDLE set. In both cases
`seekingBinaryHasBinary` returns the state it started from with the type and flag bytes
read: the queue, `binaryReadType`, the buffer store and the trace of callbacks are
unchanged. -/
theorem anomalous_flag_changes_nothing (c : Client) (T flag : Nat) (p : List Nat) :
    (∀ h, c.slot c.queueFront = some h → h.binType? = some (T : Int) →
      c.binaryReadType < 0 → flag &&& c.consts.FRAME_FIRST = 0 →
      seekingBinaryHasBinary (withFrame T flag p c)
        = some { c with wsClient := { c.wsClient with body := p } }) ∧
    (c.binaryReadType = (T : Int) → flag &&& c.consts.FRAME_LAST = 0 →
      flag &&& c.consts.FRAME_MIDDLE = 0 →
      seekingBinaryHasBinary (withFrame T flag p c)
        = some { c with wsClient := { c.wsClient with body := p } }) := by
  constructor
  · intro h hslot hbin hno hF
    have hT : ¬ ((T : Int) < 0) := by omega
    obtain ⟨b, hid⟩ := binType_bufferId h _ hbin
    have hFL : flag &&& (c.consts.FRAME_FIRST &&& c.consts.FRAME_LAST) = 0 := by
      rw [← Nat.land_assoc, hF, Nat.zero_and]
    unfold seekingBinaryHasBinary
    simp only [withFrame, WebSocketClient.read, Client.slot] at *
    simp only [hslot, hT, if_false, hno, if_true, hbin, hid, flagSet_byte, hFL, hF,
      ne_eq, not_true_eq_false, decide_False, Bool.false_eq_true]
  · intro hT hL hM
    exact seek_unexpected_flag c T flag p hT hL hM

/-- Witness for C24: a frame of type 7 with flag MIDDLE while the front pattern list
handler has no reassembly in progress, and a frame of type 7 with flag FIRST during a
reassembly of type 7. -/
theorem anomalous_flag_changes_nothing_witness :
    seekingBinaryHasBinary (withFrame 7 2 [8] (clientWith 3 [patternsHandler 0]))
      = some { clientWith 3 [patternsHandler 0] with
          wsClient := { body := [8], readLimits := [] } } ∧
    seekingBinaryHasBinary (withFrame 7 1 [8]
        (reassembling (clientWith 3 [patternsHandler 0]) 7 "patterns" [1]))
      = some { reassembling (clientWith 3 [patternsHandler 0]) 7 "patterns" [1] with
          wsClient := { body := [8], readLimits := [] } } := by
  constructor
  · exact (anomalous_flag_changes_nothing (clientWith 3 [patternsHandler 0]) 7 2 [8]).1
      (patternsHandler 0) (by decide) (by decide) (by decide) (by decide)
  · exact (anomalous_flag_changes_nothing
      (reassembling (clientWith 3 [patternsHandler 0]) 7 "patterns" [1]) 7 1 [8]).2
      (by decide) (by decide) (by decide)

/-- A preview frame while `binaryReadType` is not 5. The front slot `h` expects a binary
reply of a type other than 5, and `binaryReadType` is not 5 (no reassembly is in progress, or the one of the front slot is).
A frame of type 5 arrives. Then `seekingBinaryHasBinary` returns with the preview-frame
callback invoked once, on the bytes one bulk read of at most `framePreviewBufferBytes`
bytes delivers (all of the payload up to that length when the transport does not cut the
read short); the queue, `binaryReadType` and the buffer store are unchanged. -/
theorem preview_frame_interleaves (c : Client) (h : ReplyHandler) (t : Int) (p : List Nat)
    (hslot : c.slot c.queueFront = some h) (hbin : h.binType? = some t)
    (ht : t ≠ BIN_TYPE_PREVIEW_FRAME) (hrt : c.binaryReadType ≠ BIN_TYPE_PREVIEW_FRAME) :
    seekingBinaryHasBinary { c with wsClient := { c.wsClient with body := 5 :: p } }
      = some { c with
          wsClient := (WebSocketClient.readBytes { c.wsClient with body := p }
            (min p.length c.clientConfig.framePreviewBufferBytes)).2
          events := c.events ++ [Event.previewFrame
            (WebSocketClient.readBytes { c.wsClient with body := p }
              (min p.length c.clientConfig.framePreviewBufferBytes)).1] } ∧
    (c.wsClient.readLimits = [] →
      (WebSocketClient.readBytes { c.wsClient with body := p }
        (min p.length c.clientConfig.framePreviewBufferBytes)).1
        = p.take c.clientConfig.framePreviewBufferBytes) := by
  constructor
  · obtain ⟨b, hid⟩ := binType_bufferId h _ hbin
    have h5 : ¬ ((5 : Int) < 0) := by decide
    have ht' : ¬ ((5 : Int) = t) := fun e => ht e.symm
    have hrt' : ¬ ((5 : Int) = c.binaryReadType) := fun e => hrt e.symm
    unfold seekingBinaryHasBinary
    simp only [WebSocketClient.read, Client.slot] at *
    by_cases hno : c.binaryReadType < 0
    · simp only [Nat.cast_ofNat, h5, if_false, hno, if_true, hslot, hbin, hid, ht',
        handleUnrequestedBinary, BIN_TYPE_PREVIEW_FRAME, WebSocketClient.available,
        Option.map_some']
    · simp only [Nat.cast_ofNat, h5, if_false, hno, hrt',
        handleUnrequestedBinary, BIN_TYPE_PREVIEW_FRAME, if_true, WebSocketClient.available,
        Bool.not_true, Bool.false_eq_true]
  · intro hrl
    simp only [WebSocketClient.readBytes, hrl]
    rcases Nat.le_total p.length c.clientConfig.framePreviewBufferBytes with h1 | h1
    · rw [Nat.min_eq_left h1, List.take_length, List.take_of_length_le h1]
    · rw [Nat.min_eq_right h1]

/-- An instance of `preview_frame_interleaves`: a preview frame of three bytes while the
front pattern list handler
(type 7) is in the middle of its reassembly. -/
theorem preview_frame_interleaves_witness :
    seekingBinaryHasBinary
        { reassembling (clientWith 3 [patternsHandler 0]) 7 "patterns" [1] with
          wsClient := { body := [5, 10, 20, 30], readLimits := [] } }
      = some { reassembling (clientWith 3 [patternsHandler 0]) 7 "patterns" [1] with
          wsClient := { body := [], readLimits := [] }
          events := [Event.previewFrame [10, 20, 30]] } := by
  have h := (preview_frame_interleaves
    (reassembling (clientWith 3 [patternsHandler 0]) 7 "patterns" [1]) (patternsHandler 0) 7
    [10, 20, 30] (by decide) (by decide) (by decide) (by decide)).1
  exact h


/-! ## The unsolicited handlers -/

/-- What `handleUnrequestedBinary` does to a well-formed queue on which the casts of its
search are defined: the cursors and the length stay, and the pending handlers stay too,
except that for an expander-config frame the first handler awaiting one is marked. -/
theorem handleUnrequestedBinary_keeps (frameType : Int) (c c' : Client) (handled : Bool)
    (hwf : WellFormed c) (hcast : ∀ x ∈ pending c, castDefined c.consts x = true)
    (h : handleUnrequestedBinary frameType c = some (handled, c')) :
    WellFormed c' ∧ c'.queueFront = c.queueFront ∧ c'.queueBack = c.queueBack ∧
    queueLength c' = queueLength c ∧ c'.binaryReadType = c.binaryReadType ∧
    c'.binaryBuffer = c.binaryBuffer ∧
    (handled = true ↔ frameType = BIN_TYPE_PREVIEW_FRAME ∨ frameType = BIN_TYPE_EXPANDER_CONFIG) ∧
    (pending c' = pending c ∨
      ∃ pre B post, frameType = BIN_TYPE_EXPANDER_CONFIG ∧ pending c = pre ++ B :: post ∧
        pending c' = pre ++ B.markSatisfied :: post ∧
        (∀ x ∈ pre, awaitsExpander c.consts x = false) ∧ awaitsExpander c.consts B = true) := by
  unfold handleUnrequestedBinary at h
  by_cases h5 : frameType = BIN_TYPE_PREVIEW_FRAME
  · rw [if_pos h5] at h
    cases h
    have hs : SameQueue c { c with
        wsClient := (c.wsClient.readBytes
          (min c.wsClient.available c.clientConfig.framePreviewBufferBytes)).2,
        events := c.events ++ [Event.previewFrame (c.wsClient.readBytes
          (min c.wsClient.available c.clientConfig.framePreviewBufferBytes)).1] } :=
      ⟨rfl, rfl, rfl, rfl, rfl⟩
    exact ⟨hs.wellFormed hwf, rfl, rfl, hs.queueLength_eq, rfl, rfl,
      ⟨fun _ => Or.inl h5, fun _ => rfl⟩, Or.inl hs.pending_eq⟩
  · rw [if_neg h5] at h
    by_cases h9 : frameType = BIN_TYPE_EXPANDER_CONFIG
    · rw [if_pos h9] at h
      have hmap : (queueIndices c).map c.slot = (pending c).map some := by
        rw [← pendingSlots_eq_map_indices c hwf.2.2.1 hwf.2.2.2.1,
          pendingSlots_eq_map_some c hwf]
      rcases split_first (awaitsExpander c.consts) (pending c) with hnone |
          ⟨pre, B, post, hsplit, hpre, hB⟩
      · rw [serveExpander_none c (pending c) (queueIndices c) hmap
          (fun x hx => ⟨hnone x hx, hcast x hx⟩)] at h
        cases h
        exact ⟨hwf, rfl, rfl, rfl, rfl, rfl, ⟨fun _ => Or.inr h9, fun _ => rfl⟩, Or.inl rfl⟩
      · have hpre' : ∀ x ∈ pre,
            awaitsExpander c.consts x = false ∧ castDefined c.consts x = true := by
          intro x hx
          have hx' : x ∈ pending c := by rw [hsplit]; exact List.mem_append_left _ hx
          exact ⟨hpre x hx, hcast x hx'⟩
        cases hd : dispatchBinaryReply B c with
        | none =>
          rw [serveExpander_fail c B post hB hd pre (queueIndices c)
            (by rw [hmap, hsplit]) hpre'] at h
          simp at h
        | some cd =>
          obtain ⟨c1, hc1, hceq, hwf1, hp1⟩ :=
            handleUnrequestedBinary_expander c cd B pre post hwf hsplit hpre' hB hd
          have hfr := dispatchBinaryReply_frame B c cd hd
          have hserve : serveExpander (queueIndices c) c = some c1 := by
            unfold handleUnrequestedBinary at hc1
            rw [if_neg (by decide), if_pos rfl] at hc1
            cases hse : serveExpander (queueIndices c) c with
            | none => rw [hse] at hc1; simp at hc1
            | some cx =>
              rw [hse] at hc1
              simp only [Option.some.injEq, Prod.mk.injEq, true_and] at hc1
              rw [hc1]
          rw [hserve] at h
          cases h
          have hq1 : queueLength c' = queueLength c := by
            rw [← pending_length c' hwf1, ← pending_length c hwf, hp1, hsplit]
            simp
          refine ⟨hwf1, by rw [hceq, hfr], by rw [hceq, hfr], hq1, by rw [hceq, hfr],
            by rw [hceq, hfr], ⟨fun _ => Or.inr h9, fun _ => rfl⟩,
            Or.inr ⟨pre, B, post, h9, hsplit, hp1, hpre, hB⟩⟩
    · rw [if_neg h9] at h
      cases h
      refine ⟨hwf, rfl, rfl, rfl, rfl, rfl, ⟨fun h0 => (by cases h0), ?_⟩, Or.inl rfl⟩
      intro h0
      rcases h0 with h0 | h0
      · exact absurd h0 h5
      · exact absurd h0 h9

/-- On a well-formed queue on which the casts of the search are defined and no handler
awaiting an expander configuration is a preview image handler, `handleUnrequestedBinary`
returns. -/
theorem handleUnrequestedBinary_total (frameType : Int) (c : Client) (hwf : WellFormed c)
    (hcast : ∀ x ∈ pending c, castDefined c.consts x = true)
    (hprev : ∀ x ∈ pending c, awaitsExpander c.consts x = true →
      x.replyType ≠ HANDLER_PREVIEW_IMG) :
    ∃ handled c', handleUnrequestedBinary frameType c = some (handled, c') := by
  by_cases h5 : frameType = BIN_TYPE_PREVIEW_FRAME
  · unfold handleUnrequestedBinary
    rw [if_pos h5]
    exact ⟨_, _, rfl⟩
  · by_cases h9 : frameType = BIN_TYPE_EXPANDER_CONFIG
    · have hmap : (queueIndices c).map c.slot = (pending c).map some := by
        rw [← pendingSlots_eq_map_indices c hwf.2.2.1 hwf.2.2.2.1,
          pendingSlots_eq_map_some c hwf]
      rcases split_first (awaitsExpander c.consts) (pending c) with hnone |
          ⟨pre, B, post, hsplit, hpre, hB⟩
      · unfold handleUnrequestedBinary
        rw [if_neg h5, if_pos h9, serveExpander_none c (pending c) (queueIndices c) hmap
          (fun x hx => ⟨hnone x hx, hcast x hx⟩)]
        exact ⟨_, _, rfl⟩
      · have hpre' : ∀ x ∈ pre,
            awaitsExpander c.consts x = false ∧ castDefined c.consts x = true := by
          intro x hx
          have hx' : x ∈ pending c := by rw [hsplit]; exact List.mem_append_left _ hx
          exact ⟨hpre x hx, hcast x hx'⟩
        have hBmem : B ∈ pending c := by rw [hsplit]; simp
        obtain ⟨t, ht⟩ : ∃ t, B.binType? = some t := by
          have hB' := hB
          simp only [awaitsExpander, Bool.and_eq_true, decide_eq_true_eq] at hB'
          exact ⟨_, hB'.2⟩
        obtain ⟨cd, hd⟩ := dispatchBinaryReply_total B c t ht (hprev B hBmem hB)
        obtain ⟨c1, hc1, _⟩ :=
          handleUnrequestedBinary_expander c cd B pre post hwf hsplit hpre' hB hd
        rw [h9]
        exact ⟨_, _, hc1⟩
    · unfold handleUnrequestedBinary
      rw [if_neg h5, if_neg h9]
      exact ⟨_, _, rfl⟩

/-- The front handler of a well-formed non-empty queue stays the front handler under
`handleUnrequestedBinary` when it does not itself await an expander configuration. -/
theorem handleUnrequestedBinary_front (frameType : Int) (c c' : Client) (handled : Bool)
    (h : ReplyHandler) (hwf : WellFormed c) (hpos : 0 < queueLength c)
    (hslot : c.slot c.queueFront = some h) (hnot : awaitsExpander c.consts h = false)
    (hcast : ∀ x ∈ pending c, castDefined c.consts x = true)
    (hu : handleUnrequestedBinary frameType c = some (handled, c')) :
    c'.slot c'.queueFront = some h := by
  obtain ⟨hwf', _, _, hq, _, _, _, hp⟩ :=
    handleUnrequestedBinary_keeps frameType c c' handled hwf hcast hu
  obtain ⟨h0, hh0, hcons0⟩ := front_slot c hwf hpos
  rw [hslot] at hh0
  cases hh0
  obtain ⟨h1, hh1, hcons1⟩ := front_slot c' hwf' (by omega)
  rw [hh1]
  congr 1
  rcases hp with hp | ⟨pre, B, post, _, hsplit, hp', hpre, hB⟩
  · rw [hp, hcons0] at hcons1
    exact (List.head_eq_of_cons_eq hcons1).symm
  · cases pre with
    | nil =>
      rw [hsplit] at hcons0
      have := List.head_eq_of_cons_eq hcons0
      simp only [List.nil_append] at this
      rw [← this, hB] at hnot
      cases hnot
    | cons a pre' =>
      rw [hsplit] at hcons0
      have ha := List.head_eq_of_cons_eq hcons0
      rw [hp'] at hcons1
      have hb := List.head_eq_of_cons_eq hcons1
      simp only [List.cons_append] at ha hb
      rw [← hb, ha]


theorem rotateLoop_not_expander (now : Nat) (format : Int) (n : Nat) (soughtFormat : Int)
    (k : Nat) (c : Client) (h : ReplyHandler) (t : Int)
    (hslot : c.slot c.queueFront = some h) (hbin : h.binType? = some t)
    (ht : t ≠ BIN_TYPE_EXPANDER_CONFIG) :
    rotateLoop now format (n + 1) soughtFormat k c = some (soughtFormat, c) := by
  unfold rotateLoop
  split_ifs with h1
  · rw [hslot]
    simp only [Option.some_bind, hbin]
    rw [if_neg (fun h2 => ht h2.1)]
  · rfl

/-- A text message arrives while the front slot of a non-empty queue is unsatisfied and
seeks a binary reply other than an expander configuration: the loop body of
`checkForInbound` is `seekingBinaryHasText`. -/
theorem handleInbound_text_seeking_binary (deserializeJson : List Nat → Option JsonValue)
    (m : InboundMessage) (c : Client) (h : ReplyHandler) (t : Int)
    (hpos : 0 < queueLength c) (hslot : c.slot c.queueFront = some h)
    (hunsat : h.isSatisfied = false) (hfmt : h.format = c.consts.FORMAT_BINARY)
    (hbin : h.binType? = some t) (ht : t ≠ BIN_TYPE_EXPANDER_CONFIG)
    (hne : c.consts.FORMAT_TEXT ≠ c.consts.FORMAT_BINARY)
    (hm : m.format = c.consts.FORMAT_TEXT) :
    handleInbound deserializeJson m c = seekingBinaryHasText deserializeJson c := by
  unfold handleInbound
  rw [dropSatisfied_unsat _ c h hslot hunsat]
  simp only
  rw [if_neg (by omega), hslot]
  simp only
  rw [rotateLoop_not_expander _ _ _ _ _ c h t hslot hbin ht]
  simp only [hfmt, hm, ne_eq, not_true_eq_false, and_false, if_false, if_true]
  rw [if_neg (fun e => hne e.symm)]

/-- C26: a message of the wrong kind does not consume the front slot. The front slot `h` of
a well-formed non-empty queue is unsatisfied, and `FORMAT_TEXT` differs from
`FORMAT_BINARY`. (1) `h` seeks a binary reply other than an expander configuration and a
text message arrives: the loop body of `checkForInbound` is `seekingBinaryHasText`, it
returns, the state is the one `readJson` leaves, passed through `handleUnrequestedJson` when
the message deserializes, and the queue is unchanged (array, cursors, pending handlers),
`h` being still the front slot. (2) `h` seeks text and a binary message arrives, the casts
of the search of `handleUnrequestedBinary` being defined on the pending handlers: the loop
body is `seekingTextHasBinary`, that is `handleUnrequestedBinary` on the byte read;
whenever it returns, the queue is well formed, the cursors and `queueLength()` are
unchanged and `h` is still the front slot; and it returns when no pending handler awaiting
an expander configuration is a preview image handler. -/
theorem wrong_kind_keeps_front (deserializeJson : List Nat → Option JsonValue)
    (m : InboundMessage) (c : Client) (h : ReplyHandler) (hwf : WellFormed c)
    (hpos : 0 < queueLength c) (hslot : c.slot c.queueFront = some h)
    (hunsat : h.isSatisfied = false)
    (hne : c.consts.FORMAT_TEXT ≠ c.consts.FORMAT_BINARY) :
    (h.format = c.consts.FORMAT_BINARY →
      (∃ t, h.binType? = some t ∧ t ≠ BIN_TYPE_EXPANDER_CONFIG) →
      m.format = c.consts.FORMAT_TEXT →
      handleInbound deserializeJson m c = seekingBinaryHasText deserializeJson c ∧
      ∃ c', handleInbound deserializeJson m c = some c' ∧
        (c' = (readJson deserializeJson c).2 ∨
          c' = handleUnrequestedJson (readJson deserializeJson c).2) ∧
        SameQueue c c' ∧ c'.slot c'.queueFront = some h ∧ pending c' = pending c ∧
        queueLength c' = queueLength c) ∧
    (h.format = c.consts.FORMAT_TEXT → m.format = c.consts.FORMAT_BINARY →
      (∀ x ∈ pending c, castDefined c.consts x = true) →
      handleInbound deserializeJson m c = seekingTextHasBinary c ∧
      seekingTextHasBinary c
        = (handleUnrequestedBinary (c.wsClient.read).1
            { c with wsClient := (c.wsClient.read).2 }).map Prod.snd ∧
      (∀ c', handleInbound deserializeJson m c = some c' →
        WellFormed c' ∧ c'.slot c'.queueFront = some h ∧
        queueLength c' = queueLength c ∧ c'.queueFront = c.queueFront ∧
        c'.queueBack = c.queueBack) ∧
      ((∀ x ∈ pending c, awaitsExpander c.consts x = true →
          x.replyType ≠ HANDLER_PREVIEW_IMG) →
        ∃ c', handleInbound deserializeJson m c = some c')) := by
  constructor
  · intro hfmt hbin hm
    obtain ⟨t, hbt, ht⟩ := hbin
    have hroute := handleInbound_text_seeking_binary deserializeJson m c h t hpos hslot hunsat
      hfmt hbt ht hne hm
    refine ⟨hroute, ?_⟩
    have hs1 := readJson_same deserializeJson c
    have hs2 := handleUnrequestedJson_same (readJson deserializeJson c).2
    have key : ∀ c', SameQueue c c' →
        SameQueue c c' ∧ c'.slot c'.queueFront = some h ∧ pending c' = pending c ∧
        queueLength c' = queueLength c := by
      intro c' hs
      exact ⟨hs, by rw [hs.slot_eq, hs.2.2.2.1]; exact hslot, hs.pending_eq,
        hs.queueLength_eq⟩
    rw [hroute]
    unfold seekingBinaryHasText
    by_cases hok : (!(readJson deserializeJson c).1) = true
    · refine ⟨(readJson deserializeJson c).2, ?_, Or.inl rfl, key _ hs1⟩
      simp only [hok, if_true]
    · refine ⟨handleUnrequestedJson (readJson deserializeJson c).2, ?_, Or.inr rfl,
        key _ (hs1.trans hs2)⟩
      simp only [hok, if_false]
      rfl
  · intro hfmt hm hcast
    have hroute := handleInbound_binary_seeking_text deserializeJson m c h hpos hslot hunsat
      hfmt hne hm
    have hs : SameQueue c { c with wsClient := (c.wsClient.read).2 } :=
      ⟨rfl, rfl, rfl, rfl, rfl⟩
    have hwf1 := hs.wellFormed hwf
    have hcast1 : ∀ x ∈ pending { c with wsClient := (c.wsClient.read).2 },
        castDefined c.consts x = true := by
      rw [hs.pending_eq]; exact hcast
    have hnot : awaitsExpander c.consts h = false := by
      simp only [awaitsExpander, Bool.and_eq_false_iff, decide_eq_false_iff_not]
      left
      rw [hfmt]; exact hne
    have hdef : seekingTextHasBinary c
        = (handleUnrequestedBinary (c.wsClient.read).1
            { c with wsClient := (c.wsClient.read).2 }).map Prod.snd := rfl
    refine ⟨hroute, hdef, ?_, ?_⟩
    · intro c' hc'
      rw [hroute, hdef] at hc'
      cases hu : handleUnrequestedBinary (c.wsClient.read).1
          { c with wsClient := (c.wsClient.read).2 } with
      | none => rw [hu] at hc'; simp at hc'
      | some res =>
        obtain ⟨handled, cu⟩ := res
        rw [hu] at hc'
        simp only [Option.map_some', Option.some.injEq] at hc'
        subst hc'
        obtain ⟨hwf', hf', hb', hq', _⟩ :=
          handleUnrequestedBinary_keeps _ _ _ _ hwf1 hcast1 hu
        have hfront := handleUnrequestedBinary_front _ _ _ _ h hwf1
          (by rw [hs.queueLength_eq]; exact hpos) hslot hnot hcast1 hu
        exact ⟨hwf', hfront, hq', hf', hb'⟩
    · intro hprev
      obtain ⟨handled, c', hu⟩ := handleUnrequestedBinary_total (c.wsClient.read).1
        { c with wsClient := (c.wsClient.read).2 } hwf1 hcast1
        (by rw [hs.pending_eq]; exact hprev)
      refine ⟨c', ?_⟩
      rw [hroute, hdef, hu]
      rfl

/-- Witness for C26: capacity 3. A pattern list handler (binary, type 7) at the front and
the text `{"ack":true}` arriving: the queue is unchanged. A ping handler (text) at the
front, an expander-config handler behind it, and an expander-config frame arriving: the
ping handler stays at the front and the length stays 2. -/
theorem wrong_kind_keeps_front_witness :
    (∃ c', handleInbound ackDecoder ackMessage (withText ackText (clientWith 3 [patternsHandler 0]))
        = some c' ∧ pending c' = [patternsHandler 0]) ∧
    (∃ c', handleInbound ackDecoder { format := 2, body := [9, 4, 1], atMs := 10 }
        (withFrame 9 4 [1] (clientWith 3 [pingHandler 0, expanderHandler 0 "x1"])) = some c' ∧
      c'.slot c'.queueFront = some (pingHandler 0) ∧ queueLength c' = 2) := by
  constructor
  · obtain ⟨_, c', h1, _, _, _, h5, _⟩ := (wrong_kind_keeps_front ackDecoder ackMessage
      (withText ackText (clientWith 3 [patternsHandler 0])) (patternsHandler 0) (by decide)
      (by decide) (by decide) (by decide) (by decide)).1 (by decide) ⟨7, by decide, by decide⟩
      (by decide)
    exact ⟨c', h1, h5⟩
  · obtain ⟨_, _, h3, h4⟩ := (wrong_kind_keeps_front ackDecoder
      { format := 2, body := [9, 4, 1], atMs := 10 }
      (withFrame 9 4 [1] (clientWith 3 [pingHandler 0, expanderHandler 0 "x1"]))
      (pingHandler 0) (by decide) (by decide) (by decide) (by decide) (by decide)).2
      (by decide) (by decide) (by decide)
    obtain ⟨c', hc'⟩ := h4 (by decide)
    obtain ⟨_, h6, h7, _⟩ := h3 c' hc'
    exact ⟨c', hc', h6, h7⟩

/-- C27 (as stated, fails): on an empty queue `handleUnrequestedBinary` reports "not
handled" for each of the type codes 1, 3, 4, 6, 7 and 8, which are known reply types. -/
theorem known_types_reported_unhandled :
    handleUnrequestedBinary BIN_TYPE_PUT_SOURCE (clientWith 3 [])
      = some (false, clientWith 3 []) ∧
    handleUnrequestedBinary BIN_TYPE_PUT_BYTE_CODE (clientWith 3 [])
      = some (false, clientWith 3 []) ∧
    handleUnrequestedBinary BIN_TYPE_PREVIEW_IMAGE (clientWith 3 [])
      = some (false, clientWith 3 []) ∧
    handleUnrequestedBinary BIN_TYPE_GET_SOURCE (clientWith 3 [])
      = some (false, clientWith 3 []) ∧
    handleUnrequestedBinary BIN_TYPE_GET_PROGRAM_LIST (clientWith 3 [])
      = some (false, clientWith 3 []) ∧
    handleUnrequestedBinary BIN_TYPE_PUT_PIXEL_MAP (clientWith 3 [])
      = some (false, clientWith 3 []) := by
  refine ⟨by decide, by decide, by decide, by decide, by decide, by decide⟩

/-- C27 (amended): `handleUnrequestedBinary` returns "handled" for the preview-frame type
5; for the expander-config type 9 it reports "handled" whenever it returns, it returns on
a well-formed queue on which the casts of its search are defined and no handler awaiting
an expander configuration is a preview image handler, and it leaves the state unchanged
when no pending handler awaits an expander configuration; for every other frame type, the
known reply types 1, 3, 4, 6, 7 and 8 among them, it reports "not handled" and changes
nothing. -/
theorem handleUnrequestedBinary_handled_iff (frameType : Int) (c : Client) :
    (frameType = BIN_TYPE_PREVIEW_FRAME →
      ∃ c', handleUnrequestedBinary frameType c = some (true, c')) ∧
    (frameType = BIN_TYPE_EXPANDER_CONFIG →
      (∀ handled c', handleUnrequestedBinary frameType c = some (handled, c') →
        handled = true) ∧
      (WellFormed c → (∀ x ∈ pending c, castDefined c.consts x = true) →
        (∀ x ∈ pending c, awaitsExpander c.consts x = true →
          x.replyType ≠ HANDLER_PREVIEW_IMG) →
        ∃ c', handleUnrequestedBinary frameType c = some (true, c')) ∧
      (WellFormed c → (∀ x ∈ pending c, castDefined c.consts x = true) →
        (∀ x ∈ pending c, awaitsExpander c.consts x = false) →
        handleUnrequestedBinary frameType c = some (true, c))) ∧
    (frameType ≠ BIN_TYPE_PREVIEW_FRAME → frameType ≠ BIN_TYPE_EXPANDER_CONFIG →
      handleUnrequestedBinary frameType c = some (false, c)) := by
  refine ⟨?_, ?_, ?_⟩
  · intro h5
    unfold handleUnrequestedBinary
    rw [if_pos h5]
    exact ⟨_, rfl⟩
  · intro h9
    have hall : ∀ handled c', handleUnrequestedBinary frameType c = some (handled, c') →
        handled = true := by
      intro handled c' hu
      unfold handleUnrequestedBinary at hu
      rw [if_neg (by rw [h9]; decide), if_pos h9] at hu
      cases hs : serveExpander (queueIndices c) c with
      | none => rw [hs] at hu; simp at hu
      | some c1 =>
        rw [hs] at hu
        simp only [Option.some.injEq, Prod.mk.injEq] at hu
        exact hu.1.symm
    refine ⟨hall, ?_, ?_⟩
    · intro hwf hcast hprev
      obtain ⟨handled, c', hu⟩ := handleUnrequestedBinary_total frameType c hwf hcast hprev
      have := hall handled c' hu
      subst this
      exact ⟨c', hu⟩
    · intro hwf hcast hnone
      have hmap : (queueIndices c).map c.slot = (pending c).map some := by
        rw [← pendingSlots_eq_map_indices c hwf.2.2.1 hwf.2.2.2.1,
          pendingSlots_eq_map_some c hwf]
      unfold handleUnrequestedBinary
      rw [if_neg (by rw [h9]; decide), if_pos h9,
        serveExpander_none c (pending c) (queueIndices c) hmap
          (fun x hx => ⟨hnone x hx, hcast x hx⟩)]
  · intro h5 h9
    unfold handleUnrequestedBinary
    rw [if_neg h5, if_neg h9]

/-- Witness for C27 (amended): on a queue holding only a ping handler, a preview frame and
an expander-config frame are reported handled, the latter without any change, and a frame
of the pattern list type 7 is reported not handled. -/
theorem handleUnrequestedBinary_handled_iff_witness :
    (∃ c', handleUnrequestedBinary 5 (withFrame 5 0 [1] (clientWith 3 [pingHandler 0]))
      = some (true, c')) ∧
    handleUnrequestedBinary 9 (clientWith 3 [pingHandler 0])
      = some (true, clientWith 3 [pingHandler 0]) ∧
    handleUnrequestedBinary 7 (clientWith 3 [pingHandler 0])
      = some (false, clientWith 3 [pingHandler 0]) := by
  refine ⟨?_, ?_, ?_⟩
  · exact (handleUnrequestedBinary_handled_iff 5
      (withFrame 5 0 [1] (clientWith 3 [pingHandler 0]))).1 rfl
  · exact ((handleUnrequestedBinary_handled_iff 9 (clientWith 3 [pingHandler 0])).2.1 rfl).2.2
      (by decide) (by decide) (by decide)
  · exact (handleUnrequestedBinary_handled_iff 7 (clientWith 3 [pingHandler 0])).2.2
      (by decide) (by decide)

/-- C28: `handleUnrequestedJson` looks at the keys of `json` in priority order. With the
key "fps" only the stats callback is invoked, whatever other keys there are; without
"fps" but with "activeProgram" only the pattern-change callback; with neither, none (also
when the key "playlist" is there) and the state is unchanged. In every case at most one
callback is added to the trace, nothing but the trace changes, and the queue is as
before. -/
theorem handleUnrequestedJson_priority (c : Client) :
    (c.json.containsKey "fps" = true →
      handleUnrequestedJson c = { c with events := c.events ++ [Event.stats c.json] }) ∧
    (c.json.containsKey "fps" = false → c.json.containsKey "activeProgram" = true →
      handleUnrequestedJson c
        = { c with events := c.events ++ [Event.patternChange c.json] }) ∧
    (c.json.containsKey "fps" = false → c.json.containsKey "activeProgram" = false →
      handleUnrequestedJson c = c) ∧
    (∃ evs, evs.length ≤ 1 ∧ handleUnrequestedJson c = { c with events := c.events ++ evs }) ∧
    SameQueue c (handleUnrequestedJson c) ∧ pending (handleUnrequestedJson c) = pending c := by
  refine ⟨?_, ?_, ?_, ?_, handleUnrequestedJson_same c, (handleUnrequestedJson_same c).pending_eq⟩
  · intro h1
    unfold handleUnrequestedJson
    rw [if_pos h1]
  · intro h1 h2
    unfold handleUnrequestedJson
    rw [if_neg (by rw [h1]; decide), if_pos h2]
  · intro h1 h2
    unfold handleUnrequestedJson
    rw [if_neg (by rw [h1]; decide), if_neg (by rw [h2]; decide)]
  · unfold handleUnrequestedJson
    split_ifs
    · exact ⟨[Event.stats c.json], le_refl _, rfl⟩
    · exact ⟨[Event.patternChange c.json], le_refl _, rfl⟩
    · exact ⟨[], Nat.zero_le _, by simp⟩

/-- Witness for C28: a document with the keys "fps", "activeProgram" and "playlist" invokes
the stats callback only; one with "activeProgram" and "playlist" the pattern-change
callback only; one with "playlist" alone none. -/
theorem handleUnrequestedJson_priority_witness :
    handleUnrequestedJson { clientWith 3 [pingHandler 0] with
        json := JsonValue.object (JsonMembers.cons "playlist" JsonValue.null
          (JsonMembers.cons "activeProgram" JsonValue.null
            (JsonMembers.cons "fps" (JsonValue.number 30) JsonMembers.nil))) }
      = { clientWith 3 [pingHandler 0] with
          json := JsonValue.object (JsonMembers.cons "playlist" JsonValue.null
            (JsonMembers.cons "activeProgram" JsonValue.null
              (JsonMembers.cons "fps" (JsonValue.number 30) JsonMembers.nil)))
          events := [Event.stats (JsonValue.object (JsonMembers.cons "playlist" JsonValue.null
            (JsonMembers.cons "activeProgram" JsonValue.null
              (JsonMembers.cons "fps" (JsonValue.number 30) JsonMembers.nil))))] } ∧
    handleUnrequestedJson { clientWith 3 [pingHandler 0] with
        json := JsonValue.object (JsonMembers.cons "playlist" JsonValue.null
          (JsonMembers.cons "activeProgram" JsonValue.null JsonMembers.nil)) }
      = { clientWith 3 [pingHandler 0] with
          json := JsonValue.object (JsonMembers.cons "playlist" JsonValue.null
            (JsonMembers.cons "activeProgram" JsonValue.null JsonMembers.nil))
          events := [Event.patternChange (JsonValue.object
            (JsonMembers.cons "playlist" JsonValue.null
              (JsonMembers.cons "activeProgram" JsonValue.null JsonMembers.nil)))] } ∧
    handleUnrequestedJson { clientWith 3 [pingHandler 0] with
        json := JsonValue.object (JsonMembers.cons "playlist" JsonValue.null JsonMembers.nil) }
      = { clientWith 3 [pingHandler 0] with
          json := JsonValue.object
            (JsonMembers.cons "playlist" JsonValue.null JsonMembers.nil) } := by
  refine ⟨?_, ?_, ?_⟩
  · exact (handleUnrequestedJson_priority { clientWith 3 [pingHandler 0] with
        json := JsonValue.object (JsonMembers.cons "playlist" JsonValue.null
          (JsonMembers.cons "activeProgram" JsonValue.null
            (JsonMembers.cons "fps" (JsonValue.number 30) JsonMembers.nil))) }).1
      (by decide)
  · exact (handleUnrequestedJson_priority { clientWith 3 [pingHandler 0] with
        json := JsonValue.object (JsonMembers.cons "playlist" JsonValue.null
          (JsonMembers.cons "activeProgram" JsonValue.null JsonMembers.nil)) }).2.1
      (by decide) (by decide)
  · exact (handleUnrequestedJson_priority { clientWith 3 [pingHandler 0] with
        json := JsonValue.object
          (JsonMembers.cons "playlist" JsonValue.null JsonMembers.nil) }).2.2.1
      (by decide) (by decide)


/-! ## The bound of the expander-config loop -/

/-- The expander-config loop on a well-formed non-empty queue all of whose handlers await
an expander configuration and are unsatisfied, the message not being an expander-config
frame: started with `repliesExamined = k`, it rotates `queueLength() + 1 - k` times. -/
theorem rotateLoop_rotations (now : Nat) (fmt : Int) :
    ∀ (d fuel k : Nat) (c : Client), WellFormed c → 0 < queueLength c →
      (∀ x ∈ pending c, awaitsExpander c.consts x = true ∧ x.isSatisfied = false) →
      (fmt ≠ c.consts.FORMAT_BINARY ∨ c.wsClient.peek ≠ BIN_TYPE_EXPANDER_CONFIG) →
      k + d = queueLength c + 1 → d < fuel →
      ∃ c', rotateLoop now fmt fuel c.consts.FORMAT_BINARY k c
          = some (c.consts.FORMAT_BINARY, c') ∧
        WellFormed c' ∧ pending c' = (pending c).rotate d ∧
        c'.queueFront = (c.queueFront + d) % c.clientConfig.replyQueueSize ∧
        c'.queueBack = (c.queueBack + d) % c.clientConfig.replyQueueSize ∧
        queueLength c' = queueLength c := by
  intro d
  induction d with
  | zero =>
    intro fuel k c hwf hpos _ _ hk hfuel
    obtain ⟨fuel', rfl⟩ : ∃ f, fuel = f + 1 := ⟨fuel - 1, by omega⟩
    refine ⟨c, ?_, hwf, by rw [List.rotate_zero], ?_, ?_, rfl⟩
    · unfold rotateLoop
      rw [if_neg (fun h => by omega)]
    · rw [Nat.add_zero, Nat.mod_eq_of_lt hwf.2.2.1]
    · rw [Nat.add_zero, Nat.mod_eq_of_lt hwf.2.2.2.1]
  | succ d ih =>
    intro fuel k c hwf hpos hall hmsg hk hfuel
    obtain ⟨fuel', rfl⟩ : ∃ f, fuel = f + 1 := ⟨fuel - 1, by omega⟩
    obtain ⟨h, hslot, hcons⟩ := front_slot c hwf hpos
    have hmem : h ∈ pending c := by rw [hcons]; exact List.mem_cons_self _ _
    obtain ⟨haw, hunsat⟩ := hall h hmem
    have haw' := haw
    simp only [awaitsExpander, Bool.and_eq_true, decide_eq_true_eq] at haw'
    obtain ⟨c1, hc1, hq1, _, hp1, _, _, hf1, hb1, hwf1, hk1, hcfg1, hws1⟩ :=
      rotateFront_spec now c h hwf hpos hslot hunsat
    have hpos1 : 0 < queueLength c1 := by rw [hq1]; exact hpos
    obtain ⟨h1, hslot1, hcons1⟩ := front_slot c1 hwf1 hpos1
    have hsub : ∀ x ∈ pending c1, x ∈ pending c := by
      intro x hx
      rw [hp1] at hx
      rcases List.mem_append.mp hx with h2 | h2
      · rw [hcons]; exact List.mem_cons_of_mem _ h2
      · rw [List.mem_singleton] at h2
        rw [h2]; exact hmem
    have hmem1 : h1 ∈ pending c1 := by rw [hcons1]; exact List.mem_cons_self _ _
    have haw1 := (hall h1 (hsub h1 hmem1)).1
    simp only [awaitsExpander, Bool.and_eq_true, decide_eq_true_eq] at haw1
    obtain ⟨c', hr, hwf', hp', hf', hb', hq'⟩ := ih fuel' (k + 1) c1 hwf1 hpos1
      (by intro x hx; rw [hk1]; exact hall x (hsub x hx))
      (by rw [hk1, hws1]; exact hmsg) (by rw [hq1]; omega) (by omega)
    refine ⟨c', ?_, hwf', ?_, ?_, ?_, by rw [hq', hq1]⟩
    · unfold rotateLoop
      rw [if_pos ⟨by omega, rfl⟩, hslot]
      simp only [Option.some_bind, haw'.2]
      rw [if_pos ⟨trivial, hmsg⟩, hc1]
      simp only [hslot1, haw1.1]
      rw [← hk1]
      exact hr
    · rw [hp', hp1]
      conv => rhs; rw [hcons, List.rotate_cons_succ]
    · rw [hf', hf1, hcfg1, front_add_mod]
    · rw [hb', hb1, hcfg1, front_add_mod]

/-- C21 (fails on the code): the expander-config loop of `checkForInbound` on a
well-formed queue of `n > 0` pending handlers, all awaiting an expander configuration and
unsatisfied, the message not being an expander-config frame. The loop, started as
`checkForInbound` starts it (`repliesExamined = 0`, test `repliesExamined <= n`), ends
after `n + 1` rotations, not `n`: both cursors have advanced by `n + 1`, and the pending
handlers are the former ones rotated by `n + 1`, that is, with the former front handler
moved to the back. -/
theorem rotation_loop_overruns_full_pass (now : Nat) (fmt : Int) (c : Client)
    (hwf : WellFormed c) (hpos : 0 < queueLength c)
    (hall : ∀ x ∈ pending c, awaitsExpander c.consts x = true ∧ x.isSatisfied = false)
    (hmsg : fmt ≠ c.consts.FORMAT_BINARY ∨ c.wsClient.peek ≠ BIN_TYPE_EXPANDER_CONFIG) :
    ∃ front c', c.slot c.queueFront = some front ∧
      rotateLoop now fmt (c.clientConfig.replyQueueSize + 1) front.format 0 c
        = some (c.consts.FORMAT_BINARY, c') ∧
      c'.queueFront = (c.queueFront + (queueLength c + 1)) % c.clientConfig.replyQueueSize ∧
      c'.queueBack = (c.queueBack + (queueLength c + 1)) % c.clientConfig.replyQueueSize ∧
      pending c' = (pending c).rotate (queueLength c + 1) ∧
      pending c' = (pending c).tail ++ [front] := by
  obtain ⟨h, hslot, hcons⟩ := front_slot c hwf hpos
  have hmem : h ∈ pending c := by rw [hcons]; exact List.mem_cons_self _ _
  have haw := (hall h hmem).1
  simp only [awaitsExpander, Bool.and_eq_true, decide_eq_true_eq] at haw
  have hlt := queueLength_lt_size c hwf.2.2.1 hwf.2.2.2.1
  obtain ⟨c', hr, _, hp', hf', hb', _⟩ := rotateLoop_rotations now fmt (queueLength c + 1)
    (c.clientConfig.replyQueueSize + 1) 0 c hwf hpos hall hmsg (by omega) (by omega)
  refine ⟨h, c', hslot, by rw [haw.1]; exact hr, hf', hb', hp', ?_⟩
  rw [hp', ← List.rotate_rotate, ← pending_length c hwf, List.rotate_length]
  conv => lhs; rw [hcons, List.rotate_cons_succ, List.rotate_zero]

/-- Witness for C21: capacity 5, two expander-config handlers pending, a text message
arriving. The loop rotates three times: the front cursor goes from 0 to 3 and the order of
the two handlers is reversed. -/
theorem rotation_loop_overruns_full_pass_witness :
    WellFormed (clientWith 5 [expanderHandler 0 "x1", expanderHandler 0 "x2"]) ∧
    rotateLoop 10 1 6 2 0 (clientWith 5 [expanderHandler 0 "x1", expanderHandler 0 "x2"])
      = some (2, { clientWith 5 [expanderHandler 0 "x1", expanderHandler 0 "x2"] with
          replyQueue := [none, none, none,
            some (expanderHandler 0 "x2"), some (expanderHandler 0 "x1")]
          queueFront := 3
          queueBack := 0 }) ∧
    ∃ c', rotateLoop 10 1 6 2 0 (clientWith 5 [expanderHandler 0 "x1", expanderHandler 0 "x2"])
        = some (2, c') ∧
      c'.queueFront = 3 ∧
      pending c' = [expanderHandler 0 "x2", expanderHandler 0 "x1"] := by
  refine ⟨by decide, by decide, ?_⟩
  obtain ⟨front, c', hs, h2, h3, _, _, h6⟩ := rotation_loop_overruns_full_pass 10 1
    (clientWith 5 [expanderHandler 0 "x1", expanderHandler 0 "x2"]) (by decide) (by decide)
    (by decide) (by decide)
  have hfront : front = expanderHandler 0 "x1" := by
    have h1 : (clientWith 5 [expanderHandler 0 "x1", expanderHandler 0 "x2"]).slot
        (clientWith 5 [expanderHandler 0 "x1", expanderHandler 0 "x2"]).queueFront
        = some (expanderHandler 0 "x1") := by decide
    rw [hs] at h1
    exact Option.some.inj h1
  subst hfront
  refine ⟨c', h2, ?_, ?_⟩
  · rw [h3]; decide
  · rw [h6]; decide


/-! ## Well-formedness under the queue operations -/

theorem some_getD_of_isSome {α : Type} (o : Option α) (d : α) (h : o.isSome = true) :
    o = some (o.getD d) := by
  cases o with
  | none => simp at h
  | some x => rfl

theorem some_true_getD (o : Option (Bool × Client)) (d : Client)
    (h : o.map Prod.fst = some true) : o = some (true, (o.map Prod.snd).getD d) := by
  cases o with
  | none => simp at h
  | some x =>
    obtain ⟨b, c⟩ := x
    simp only [Option.map_some', Option.some.injEq] at h
    subst h
    rfl

theorem reachable_listingClient : Reachable ackDecoder listingClient :=
  Reachable.request (newClient (sampleConfig 3) sampleConsts) listingClient 0
    (Request.getPatterns "patterns" true) true
    (Reachable.init (sampleConfig 3) sampleConsts { body := [], readLimits := [] }
      { files := [], openFailures := [], writeLimits := [], gcCalls := 0 } (by decide)
      ⟨rfl, rfl, by decide⟩)
    (some_true_getD _ _ (by decide))

/-- C32 (fails on the code): two reachable states in which `binaryReadType` is 7 although
the front slot is no binary slot expecting type 7. (1) A fresh client of capacity 3 calls
`getPatterns()` and `checkForInbound()` handles the FIRST and the LAST frame of the reply:
the reply is dispatched and the slot dequeued, the queue is empty, and `binaryReadType` is
still 7. (2) Instead only the FIRST frame arrives, `ping()` is called at time 5000, and
`checkForInbound()` at time 6000 weeds the expired pattern list slot: the front slot is
the ping handler, a text slot, and `binaryReadType` is still 7. -/
theorem stale_reassembly_state_reachable :
    Reachable ackDecoder listedClient ∧
    listedClient.binaryReadType = 7 ∧ queueLength listedClient = 0 ∧
    listedClient.events = [Event.allPatterns [65, 9, 66, 10]] ∧
    Reachable ackDecoder expiredListingClient ∧
    expiredListingClient.binaryReadType = 7 ∧
    pending expiredListingClient = [pingHandler 5000] := by
  have h1 : Reachable ackDecoder listedClient :=
    Reachable.tick listingClient listedClient 10 listFrames reachable_listingClient
      (some_getD_of_isSome _ _ (by decide))
  have h2 : Reachable ackDecoder halfListedClient :=
    Reachable.tick listingClient halfListedClient 10 (listFrames.take 1)
      reachable_listingClient (some_getD_of_isSome _ _ (by decide))
  have h3 : Reachable ackDecoder halfListedPingedClient :=
    Reachable.request halfListedClient halfListedPingedClient 5000 Request.ping true h2
      (some_true_getD _ _ (by decide))
  have h4 : Reachable ackDecoder expiredListingClient :=
    Reachable.tick halfListedPingedClient expiredListingClient 6000 [] h3
      (some_getD_of_isSome _ _ (by decide))
  exact ⟨h1, by decide, by decide, by decide, h4, by decide, by decide⟩

/-- C33 (fails on the code): capacity 4, a ping handler at the front and two unsatisfied
expander-config slots x1, x2 behind it. The first expander-config frame handed to
`handleUnrequestedBinary` marks x1; the second finds x1 first again, marks it again and
leaves the state as it is: x2 is still unsatisfied. The same for two expander-config
frames handled by one `checkForInbound()`. -/
theorem second_expander_frame_marks_same_slot :
    handleUnrequestedBinary 9
        (clientWith 4 [pingHandler 0, expanderHandler 0 "x1", expanderHandler 0 "x2"])
      = some (true, clientWith 4
          [pingHandler 0, (expanderHandler 0 "x1").markSatisfied, expanderHandler 0 "x2"]) ∧
    handleUnrequestedBinary 9
        (clientWith 4
          [pingHandler 0, (expanderHandler 0 "x1").markSatisfied, expanderHandler 0 "x2"])
      = some (true, clientWith 4
          [pingHandler 0, (expanderHandler 0 "x1").markSatisfied, expanderHandler 0 "x2"]) ∧
    (expanderHandler 0 "x2").isSatisfied = false ∧
    (checkForInbound ackDecoder 10
        [{ format := 2, body := [9, 4, 1], atMs := 10 },
         { format := 2, body := [9, 4, 2], atMs := 11 }]
        (clientWith 4 [pingHandler 0, expanderHandler 0 "x1", expanderHandler 0 "x2"])).map
        pending
      = some [pingHandler 0, (expanderHandler 0 "x1").markSatisfied,
          expanderHandler 0 "x2"] := by
  refine ⟨by decide, by decide, by decide, by decide⟩

/-- C34 (fails on the code): for an unsatisfied handler `h` with deadline
`requestTsMs + maxResponseWaitMs` (32 bit) and a clock value `now`: away from the deadline
`compactQueue` keeps `h` exactly when `weedExpiredReplies` does not remove it; at
`now` equal to the deadline they disagree, `weedExpiredReplies` not removing `h` and
`compactQueue` not keeping it. -/
theorem weed_and_compact_differ_at_deadline (cfg : ClientConfig) (now : Nat)
    (h : ReplyHandler) (hunsat : h.isSatisfied = false) :
    ((h.requestTsMs + cfg.maxResponseWaitMs) % 2 ^ 32 ≠ now →
      keepReply cfg now h = !weedReply cfg now h) ∧
    ((h.requestTsMs + cfg.maxResponseWaitMs) % 2 ^ 32 = now →
      weedReply cfg now h = false ∧ keepReply cfg now h = false) := by
  unfold keepReply weedReply
  rw [hunsat]
  constructor
  · intro hne
    by_cases hlt : (h.requestTsMs + cfg.maxResponseWaitMs) % 2 ^ 32 < now
    · have hgt : ¬ (h.requestTsMs + cfg.maxResponseWaitMs) % 2 ^ 32 > now := by omega
      simp only [Bool.not_false, Bool.true_and, Bool.false_or, hlt, hgt, decide_True,
        decide_False, Bool.not_true]
    · have hgt : (h.requestTsMs + cfg.maxResponseWaitMs) % 2 ^ 32 > now := by omega
      simp only [Bool.not_false, Bool.true_and, Bool.false_or, hlt, hgt, decide_True,
        decide_False, Bool.not_false]
  · intro heq
    have hlt : ¬ (h.requestTsMs + cfg.maxResponseWaitMs) % 2 ^ 32 < now := by omega
    have hgt : ¬ (h.requestTsMs + cfg.maxResponseWaitMs) % 2 ^ 32 > now := by omega
    simp only [Bool.not_false, Bool.true_and, Bool.false_or, hlt, hgt, decide_False,
      and_self]

/-- Witness for C34: a ping handler issued at time 0 with `maxResponseWaitMs = 5000`, at
time 5000: `weedExpiredReplies` leaves it in the queue, `compactQueue` removes it. -/
theorem weed_and_compact_differ_at_deadline_witness :
    (weedReply (sampleConfig 3) 5000 (pingHandler 0) = false ∧
      keepReply (sampleConfig 3) 5000 (pingHandler 0) = false) ∧
    (weedExpiredReplies 5000 (clientWith 3 [pingHandler 0])).map pending
      = some [pingHandler 0] ∧
    (compactQueue 5000 (clientWith 3 [pingHandler 0])).map pending = some [] := by
  refine ⟨(weed_and_compact_differ_at_deadline (sampleConfig 3) 5000 (pingHandler 0)
    (by decide)).2 (by decide), by decide, by decide⟩


/-! ## Handlers that never match, and the wrapper -/

/-- C37: the wrapper `SyncHandler` built on a handler `h` has the format of `h`, and its
`jsonMatches` and `shouldDeleteBuffer` are those of `h`, for every JSON document. The
dispatch of a text reply to the wrapper returns; it first sets the completion flag
(`finish()`, the event `syncFinish`) and then dispatches by the reply type of `h`: for an
`h` that is not itself a wrapper the result is that of the dispatch to `h` in the state
with the flag set. -/
theorem syncHandler_transparent (h : ReplyHandler) (j : JsonValue) (now : Nat) (c : Client) :
    (syncHandler h).replyType = HANDLER_SYNC ∧
    (syncHandler h).format = h.format ∧
    (syncHandler h).jsonMatches j = h.jsonMatches j ∧
    (syncHandler h).shouldDeleteBuffer = h.shouldDeleteBuffer ∧
    (∃ c' evs, dispatchTextReply now (syncHandler h) c = some c' ∧
      c' = { c with events := c.events ++ Event.syncFinish :: evs }) ∧
    (h.replyType ≠ HANDLER_SYNC →
      dispatchTextReply now (syncHandler h) c
        = dispatchTextReply now h { c with events := c.events ++ [Event.syncFinish] }) := by
  refine ⟨rfl, rfl, rfl, rfl, ?_, ?_⟩
  · have hrt : (ReplyHandler.sync h.format 0 false h).replyType = HANDLER_SYNC := rfl
    unfold dispatchTextReply
    simp only [syncHandler, hrt, if_true]
    split_ifs
    · exact ⟨_, [Event.rawText c.json], rfl, by simp⟩
    · exact ⟨_, [Event.playlist c.json], rfl, by simp⟩
    · exact ⟨_, [Event.peers], rfl, by simp⟩
    · exact ⟨_, [Event.settings c.json], rfl, by simp⟩
    · exact ⟨_, [Event.sequencer c.json], rfl, by simp⟩
    · exact ⟨_, [Event.ping (roundtrip now h.requestTsMs)], rfl, by simp⟩
    · exact ⟨_, [], rfl, by simp⟩
  · intro hne
    have hrt : (ReplyHandler.sync h.format 0 false h).replyType = HANDLER_SYNC := rfl
    unfold dispatchTextReply
    simp only [syncHandler, hrt, if_true, if_neg hne]

/-- Witness for C37: the wrapper of a ping handler issued at time 3, dispatched at time
10: the completion flag is set and the ping callback gets the round trip 7. -/
theorem syncHandler_transparent_witness :
    dispatchTextReply 10 (syncHandler (pingHandler 3)) (clientWith 3 [])
      = some { clientWith 3 [] with events := [Event.syncFinish, Event.ping 7] } := by
  have h := (syncHandler_transparent (pingHandler 3) JsonValue.null 10 (clientWith 3 [])).2.2.2.2.2
    (by decide)
  rw [h]
  decide


/-! ## Bounds of the fixed buffers -/

/-- The field loop never stores at an index from `bufferLen` on: the bytes stored are at
most `bufferLen`. -/
theorem fillField_length (sep bufferLen : Nat) :
    ∀ (stream : List Nat) (read : Int) (buf : List Nat), buf.length ≤ bufferLen →
      (fillField sep bufferLen stream read buf).2.2.length ≤ bufferLen := by
  intro stream
  induction stream with
  | nil =>
    intro read buf hb
    unfold fillField
    split_ifs with h
    · simp only [List.length_append, List.length_singleton]
      omega
    · exact hb
  | cons b rest ih =>
    intro read buf hb
    unfold fillField
    split_ifs with h
    · apply ih
      simp only [List.length_append, List.length_singleton]
      omega
    · exact hb

/-- Every index at which `next` stores is at most `bufferLen`: the loops stay below
`bufferLen`, only a terminating `'\0'` can be stored at `bufferLen` itself. -/
theorem stores_le_bufferLen (bufferLen : Nat) (stream : List Nat) :
    ∀ i ∈ AllPatternIterator.stores bufferLen stream, i ≤ bufferLen := by
  intro i hi
  unfold AllPatternIterator.stores at hi
  cases hs : streamRead stream with
  | mk read st =>
  rw [hs] at hi
  simp only at hi
  by_cases hr : read < 0
  · rw [if_pos hr] at hi
    cases hi
  · rw [if_neg hr] at hi
    have h1 := fillField_length 9 bufferLen st read [] (Nat.zero_le _)
    cases hf : fillField 9 bufferLen st read [] with
    | mk read1 r =>
    obtain ⟨st1, buf⟩ := r
    rw [hf] at hi h1
    simp only at hi h1
    have key : ∀ (read2 : Int) (st2 : List Nat),
        i ∈ (if read2 < 0 then List.range buf.length
          else List.range buf.length ++ [buf.length]
            ++ List.range (fillField 10 bufferLen st2 read2 []).2.2.length
            ++ [(fillField 10 bufferLen st2 read2 []).2.2.length]) → i ≤ bufferLen := by
      intro read2 st2 hmem
      have h2 := fillField_length 10 bufferLen st2 read2 [] (Nat.zero_le _)
      generalize (fillField 10 bufferLen st2 read2 []).2.2.length = n at hmem h2
      split_ifs at hmem
      · simp only [List.mem_range] at hmem
        omega
      · simp only [List.mem_append, List.mem_range, List.mem_singleton] at hmem
        omega
    by_cases hb : buf.length ≥ bufferLen
    · rw [if_pos hb] at hi
      cases hk : skipField 9 st1 read1 with
      | mk read2 st2 =>
      rw [hk] at hi
      exact key read2 st2 hi
    · rw [if_neg hb] at hi
      exact key read1 st1 hi

/-- C36 (fails on the code): `next` stores the terminating `'\0'` at index `bufferLen`,
one past the end of the read buffer of `bufferLen` bytes. (1) `bufferLen = 2` and the
stream `abc TAB n NL`: the id loop fills indices 0 and 1 and the terminator of the id goes
to index 2; so does the terminator of the name. (2) `bufferLen = 3` and the stream
`a TAB bc NL`, whose id and name are shorter than `bufferLen`: the name loop stores the tab
and the two bytes of the name at indices 0 to 2 and the terminator goes to index 3. In
both cases the call has no defined result. -/
theorem next_stores_terminator_past_buffer :
    AllPatternIterator.stores 2 [97, 98, 99, 9, 110, 10] = [0, 1, 2, 0, 1, 2] ∧
    AllPatternIterator.next 2 [97, 98, 99, 9, 110, 10] { id := [], name := [] } = none ∧
    AllPatternIterator.stores 3 [97, 9, 98, 99, 10] = [0, 1, 0, 1, 2, 3] ∧
    AllPatternIterator.next 3 [97, 9, 98, 99, 10] { id := [], name := [] } = none := by
  refine ⟨by decide, by decide, by decide, by decide⟩

/-! ## Control names -/

theorem scanWordStarts_no_upper (maxWords : Nat) :
    ∀ (text : List Nat) (idx : Nat) (wordStarts : List Nat),
      (∀ ch ∈ text, isupper ch = false) →
      scanWordStarts maxWords text idx wordStarts = some wordStarts := by
  intro text
  induction text with
  | nil => intro idx wordStarts _; rfl
  | cons ch rest ih =>
    intro idx wordStarts h
    unfold scanWordStarts
    rw [if_neg (by rw [h ch (List.mem_cons_self _ _)]; decide)]
    exact ih _ _ (fun x hx => h x (List.mem_cons_of_mem _ hx))

/-- A name made of `slider` and a non-empty rest without upper case letter has no word
start: `numStarts` is 0 after the first loop and the call has no defined result. -/
theorem humanizeVarName_slider_rest (rest : List Nat) (maxWords : Nat) (hne : rest ≠ [])
    (hlow : ∀ ch ∈ rest, isupper ch = false) :
    humanizeVarName (sliderText ++ rest) maxWords = none := by
  have htake : (sliderText ++ rest).take 6 = sliderText := by
    simp [sliderText]
  have hdrop : (sliderText ++ rest).drop 6 = rest := by
    simp [sliderText]
  unfold humanizeVarName
  rw [if_neg (by simp [sliderText]), if_neg (by
    intro h
    have := congrArg List.length h
    simp [sliderText] at this
    exact hne this)]
  simp only [htake, if_true, hdrop]
  rw [scanWordStarts_no_upper maxWords rest 6 [] hlow]
  rfl

/-- C38 (fails on the code): for the names `slider1` and `1`, with `maxWords = 3`, the
first loop of `humanizeVarName` finds no upper case character, `numStarts` is 0, and the
call has no defined result: `numStarts - 1` wraps around, so the joining loop does not stop
at the end of `wordStarts` and `wordStarts[numStarts - 1]` lies outside the array. The name
`sliderMySpeed` gives `My Speed`. -/
theorem humanizeVarName_without_word_start :
    scanWordStarts 3 [49] 6 [] = some [] ∧
    humanizeVarName [115, 108, 105, 100, 101, 114, 49] 3 = none ∧
    scanWordStarts 3 [49] 0 [] = some [] ∧
    humanizeVarName [49] 3 = none ∧
    humanizeVarName [115, 108, 105, 100, 101, 114, 77, 121, 83, 112, 101, 101, 100] 3
      = some [77, 121, 32, 83, 112, 101, 101, 100] := by
  refine ⟨by decide, by decide, by decide, by decide, by decide⟩


/-! ## Replies that meet a stale reassembly state, a queue of capacity 1, an unread frame -/

theorem reachable_listedClient : Reachable ackDecoder listedClient :=
  Reachable.tick listingClient listedClient 10 listFrames reachable_listingClient
    (some_getD_of_isSome _ _ (by decide))

theorem reachable_relistingClient : Reachable ackDecoder relistingClient :=
  Reachable.request listedClient relistingClient 20 (Request.getPatterns "patterns" true) true
    reachable_listedClient (some_true_getD _ _ (by decide))

/-- C8 (fails on the code): a fresh client of capacity 3 calls `getPatterns()`, and
`checkForInbound()` handles the FIRST and the LAST frame of the reply (`listedClient`);
`binaryReadType` is still 7 then. `getPatterns()` is called again at time 20: the new
pattern list handler is the front slot, no stream operation is scripted to fail, and the
buffer store is empty. The reply arrives as the frames FIRST `[70, 71]`, MIDDLE `[72, 73]`,
LAST `[74, 75]` of type 7. The FIRST frame is not written to the buffer (it meets
`binaryReadType = 7` and is dropped as an unexpected flag), and the reply is dispatched
with the content `[72, 73, 74, 75]`, not with the concatenation of the three payloads. The
same when the three frames are handled by one `checkForInbound()`. -/
theorem stale_type_loses_first_frame :
    Reachable ackDecoder relistingClient ∧
    relistingClient.binaryReadType = 7 ∧
    pending relistingClient = [patternsHandler 20] ∧
    relistingClient.binaryBuffer
      = { files := [], openFailures := [], writeLimits := [], gcCalls := 0 } ∧
    relistingClient.wsClient.readLimits = [] ∧
    (seekFrames (relistFrames.take 1) relistingClient).map
        (fun c => c.binaryBuffer.contents "patterns") = some none ∧
    (seekFrames relistFrames relistingClient).map (fun c => c.events)
      = some [Event.allPatterns [65, 9, 66, 10], Event.allPatterns [72, 73, 74, 75]] ∧
    (checkForInbound ackDecoder 30 relistMessages relistingClient).map (fun c => c.events)
      = some [Event.allPatterns [65, 9, 66, 10], Event.allPatterns [72, 73, 74, 75]] := by
  refine ⟨reachable_relistingClient, by decide, by decide, by decide, by decide, by decide,
    by decide, by decide⟩

/-- C13 (fails on the code): a fresh client of capacity 1. `ping()` at time 0 returns true
and sends `{"ping": true}`; the handler is stored in slot 0 and `queueBack` wraps to
`queueFront`, so `queueLength()` is 0. When `checkForInbound()` at time 10 finds the text
reply `{"ack":true}`, the queue reads as empty, the message is routed to
`handleUnrequestedJson` and no callback is invoked: the ping handler never receives its
round trip, and stays in its slot. -/
theorem ping_lost_at_capacity_one :
    Reachable ackDecoder tinyPingedClient ∧
    ping 0 (newClient (sampleConfig 1) sampleConsts) = some (true, tinyPingedClient) ∧
    tinyPingedClient.sent = [jsonMember "ping" (JsonValue.bool true)] ∧
    tinyPingedClient.replyQueue = [some (pingHandler 0)] ∧
    queueLength tinyPingedClient = 0 ∧
    (checkForInbound ackDecoder 10 [ackMessage] tinyPingedClient).map (fun c => c.events)
      = some [] ∧
    (checkForInbound ackDecoder 10 [ackMessage] tinyPingedClient).map (fun c => c.replyQueue)
      = some [some (pingHandler 0)] := by
  have h : ping 0 (newClient (sampleConfig 1) sampleConsts) = some (true, tinyPingedClient) :=
    some_true_getD _ _ (by decide)
  refine ⟨?_, h, by decide, by decide, by decide, by decide, by decide⟩
  exact Reachable.request (newClient (sampleConfig 1) sampleConsts) tinyPingedClient 0
    Request.ping true
    (Reachable.init (sampleConfig 1) sampleConsts { body := [], readLimits := [] }
      { files := [], openFailures := [], writeLimits := [], gcCalls := 0 } (by decide)
      ⟨rfl, rfl, by decide⟩)
    h

theorem reachable_framedListingClient : Reachable ackDecoder framedListingClient := by
  have h0 : Reachable ackDecoder framingClient :=
    Reachable.request (newClient (sampleConfig 3) sampleConsts) framingClient 0
      (Request.getRawBinary "raw" 5 true (jsonMember "getFrame" (JsonValue.bool true))) true
      (Reachable.init (sampleConfig 3) sampleConsts { body := [], readLimits := [] }
        { files := [], openFailures := [], writeLimits := [], gcCalls := 0 } (by decide)
        ⟨rfl, rfl, by decide⟩)
      (some_true_getD _ _ (by decide))
  have h1 : Reachable ackDecoder framedClient :=
    Reachable.tick framingClient framedClient 10 rawFrames h0
      (some_getD_of_isSome _ _ (by decide))
  exact Reachable.request framedClient framedListingClient 20
    (Request.getPatterns "patterns" true) true h1 (some_true_getD _ _ (by decide))

/-- C25 (fails on the code): a fresh client of capacity 3 calls `getRawBinary()` with a
handler for type 5, `checkForInbound()` handles the FIRST and the LAST frame of the reply,
and `binaryReadType` is still 5 afterwards; `getPatterns()` then puts a pattern list
handler (type 7) at the front. A preview frame (type 5) whose first data byte is 12 is not
given to the preview-frame callback: it is taken as the LAST frame of the reply the front
slot waits for, the rest of it is dispatched as a pattern list, and the slot is dequeued.
A preview frame whose first data byte is 0 is dropped without any callback. -/
theorem stale_type_captures_preview_frame :
    Reachable ackDecoder framedListingClient ∧
    framedListingClient.binaryReadType = 5 ∧
    pending framedListingClient = [patternsHandler 20] ∧
    framedListingClient.events = [Event.rawBinary [1, 2, 3]] ∧
    (seekingBinaryHasBinary (withFrame 5 12 [9, 9] framedListingClient)).map
        (fun c => c.events)
      = some [Event.rawBinary [1, 2, 3], Event.allPatterns [9, 9]] ∧
    (seekingBinaryHasBinary (withFrame 5 12 [9, 9] framedListingClient)).map pending
      = some [] ∧
    (seekingBinaryHasBinary (withFrame 5 0 [9, 9] framedListingClient)).map
        (fun c => c.events)
      = some [Event.rawBinary [1, 2, 3]] := by
  refine ⟨reachable_framedListingClient, by decide, by decide, by decide, by decide,
    by decide, by decide⟩

theorem reachable_settingsClient : Reachable ackDecoder settingsClient :=
  Reachable.request (newClient (sampleConfig 4) sampleConsts) settingsClient 0
    (Request.getSettings true true true "expander" true) true
    (Reachable.init (sampleConfig 4) sampleConsts { body := [], readLimits := [] }
      { files := [], openFailures := [], writeLimits := [], gcCalls := 0 } (by decide)
      ⟨rfl, rfl, by decide⟩)
    (some_true_getD _ _ (by decide))

theorem reachable_staleRawClient : Reachable ackDecoder staleRawClient := by
  have h0 : Reachable ackDecoder staleStoreClient :=
    Reachable.init (sampleConfig 3) sampleConsts { body := [], readLimits := [] }
      { files := [("raw", [42, 43])], openFailures := [], writeLimits := [], gcCalls := 0 }
      (by decide) ⟨rfl, rfl, by decide⟩
  have h1 : Reachable ackDecoder stalePingedClient :=
    Reachable.request staleStoreClient stalePingedClient 0 Request.ping true h0
      (some_true_getD _ _ (by decide))
  exact Reachable.request stalePingedClient staleRawClient 0
    (Request.getRawBinary "raw" 9 true (jsonMember "getConfig" (JsonValue.bool true))) true h1
    (some_true_getD _ _ (by decide))

/-- C11 (fails on the code): the frame is not delivered to B. (1) A fresh client of capacity
4 calls `getSettings()` watching for the three replies: the settings handler A (text,
unsatisfied) is at the front and the expander-config handler B is behind it. For every
payload, `checkForInbound()` handling the expander-config frame `9 :: payload` marks B
satisfied, A staying at the front, but invokes no callback, writes nothing to the buffer
store and leaves the payload unread on the transport. (2) With a raw binary handler for
type 9 as B behind a ping handler, and the bytes `[42, 43]` left in B's buffer by earlier
use, the frame `[9, 4, 1, 2, 3]` makes the callback of B receive `[42, 43]`, the stale
content of the buffer, the frame again being left unread. -/
theorem expander_frame_payload_not_delivered :
    Reachable ackDecoder settingsClient ∧
    pending settingsClient
      = [settingsHandler 0 false, sequencerHandler 0 false, expanderHandler 0 "expander"] ∧
    (∀ payload : List Nat,
      ∃ c', checkForInbound ackDecoder 10 [{ format := 2, body := 9 :: payload, atMs := 10 }]
          settingsClient = some c' ∧
        c'.events = [] ∧
        c'.binaryBuffer = settingsClient.binaryBuffer ∧
        c'.wsClient.body = payload ∧
        pending c' = [settingsHandler 0 false, sequencerHandler 0 false,
          (expanderHandler 0 "expander").markSatisfied]) ∧
    Reachable ackDecoder staleRawClient ∧
    pending staleRawClient = [pingHandler 0, rawBinaryHandler 0 9] ∧
    (checkForInbound ackDecoder 10 [expanderMessage] staleRawClient).map (fun c => c.events)
      = some [Event.rawBinary [42, 43]] ∧
    (checkForInbound ackDecoder 10 [expanderMessage] staleRawClient).map
        (fun c => c.wsClient.body)
      = some [4, 1, 2, 3] := by
  refine ⟨reachable_settingsClient, by decide, ?_, reachable_staleRawClient, by decide,
    by decide, by decide⟩
  intro payload
  obtain ⟨cd, c', hd, hc, heq, _, hp, _, _, _, _⟩ := expander_frame_served_out_of_order
    ackDecoder settingsClient 10 { format := 2, body := 9 :: payload, atMs := 10 }
    (settingsHandler 0 false) (expanderHandler 0 "expander") [sequencerHandler 0 false] []
    payload (by decide) (by decide) (by decide) (by decide) (by decide) (by decide)
    (by decide) (by decide) (by decide) (show (2 : Nat) = settingsClient.consts.FORMAT_BINARY by decide) rfl
    (show (10 + settingsClient.clientConfig.maxInboundCheckMs) % 2 ^ 32 > 10 by decide)
  rw [expanderHandler, dispatchBinaryReply_expander] at hd
  have hcd := (Option.some.inj hd).symm
  subst hcd
  subst heq
  exact ⟨_, hc, show settingsClient.events = [] by decide, rfl, rfl, hp⟩


end Pixelblaze
